import Mathlib

/-! wiredis: RESP parser, framing buffer, transport and command connection.

A shallow embedding of the `nokia/wiredis` client library, followed by the properties
proved about it.

Conventions of the embedding:

* Bytes are natural numbers (`char` values `0..255`); byte strings are `List Nat`.
* `std::size_t` values are natural numbers. The sums of `parse_bulk_string`, where the source
  relies on unsigned wrap-around for a negative length, are reduced modulo `2^64`.
  Differences `size - index` are taken with `index ≤ size`: no parse function returns an
  index beyond `size`.
* `int64_t` values are integers; arithmetic on them is followed by `wrap_int64`
  (two's complement wrap-around).
* A function that takes `reply &` and returns the next index takes a `reply` and returns
  the updated `reply` together with the index; a C++ exception is the `Except.error` arm.
* A buffer is the list of the bytes from the buffer pointer to the end of the allocation;
  `size` counts the valid ones, the bytes behind them are whatever earlier reads left there.
* Memory allocation always succeeds (`std::bad_alloc` is not part of the embedding).
* Callbacks are opaque: a call of one is recorded as an effect, its body is not run.
* The event loop is an input: a run of the transport is a list of calls of its interface and
  of completions (connect, read, write, retry timer), each completion with the error code and
  the byte count it carries. Bodies given to `dispatch` run at once.
-/

namespace wiredis

/-! # Part 1: definitions -/

/-! ## Bytes and machine integers -/

/-- The byte string of a string literal. -/
def bytes (s : String) : List Nat := s.toList.map Char.toNat

/-- Byte `'\r'`. -/
abbrev CR : Nat := 13
/-- Byte `'\n'`. -/
abbrev LF : Nat := 10
/-- Byte `'+'`. -/
abbrev PLUS : Nat := 43
/-- Byte `'-'`. -/
abbrev MINUS : Nat := 45
/-- Byte `':'`. -/
abbrev COLON : Nat := 58
/-- Byte `'$'`. -/
abbrev DOLLAR : Nat := 36
/-- Byte `'*'`. -/
abbrev STAR : Nat := 42

/-- Two's complement reduction of an integer to the `int64_t` range. -/
def wrap_int64 (x : Int) : Int := (x + 2 ^ 63) % 2 ^ 64 - 2 ^ 63

/-- Conversion of an `int64_t` to `std::size_t` (64 bit). -/
def to_size_t (x : Int) : Nat := (x % 2 ^ 64).toNat

/-- The value of a byte read through `char` (signed, as on x86-64). -/
def char_val (c : Nat) : Int := if c < 128 then (c : Int) else (c : Int) - 256

/-- Digits of `std::to_string` for an unsigned value, most significant first,
accumulated in front of `acc`. -/
def to_string_digits : Nat → Nat → List Nat → List Nat
  | 0, _, acc => acc
  | fuel + 1, n, acc =>
    if n < 10 then (48 + n) :: acc
    else to_string_digits fuel (n / 10) ((48 + n % 10) :: acc)

/-- The decimal text `std::to_string(n)` of an unsigned value. -/
def to_string (n : Nat) : List Nat := to_string_digits (n + 1) n []

/-- The decimal text of a signed value: an optional `'-'` and the digits of the magnitude. -/
def int_to_string (n : Int) : List Nat :=
  if n < 0 then MINUS :: to_string n.natAbs else to_string n.natAbs

/-! ## Replies (`proto/redis.h`, `struct reply`) -/

/-- The tag `reply::type`. -/
inductive reply_type where
  | INVALID
  | STRING
  | INTEGER
  | ARRAY
  | NIL
  | ERROR
  deriving DecidableEq, Repr

/-- The record `struct reply`. -/
structure reply where
  type : reply_type
  str : List Nat
  integer : Int
  elements : List reply
  deriving Repr

/-- The default constructor `reply()`: `type(INVALID)`, `integer(0)`, empty `str` and `elements`. -/
def reply.new : reply := ⟨reply_type.INVALID, [], 0, []⟩

/-- What a parse step can raise. `parse_error` is the library's exception; `length_error` is
`std::length_error` of `std::string(ptr, n)` and `vector::reserve(n)` for an `n` beyond
`max_size()`; `memory_fault` is a read outside the bytes between the buffer pointer and the end
of the allocation (undefined behaviour in the source); `out_of_fuel` is raised by the
embedding only, when the recursion budget is used up. -/
inductive failure where
  | parse_error
  | length_error
  | memory_fault
  | out_of_fuel
  deriving DecidableEq, Repr

/-- Result of a parse step: the updated reply and the returned index
(`0` stands for "not enough bytes"). -/
abbrev step := Except failure (reply × Nat)

/-- The read `buffer[i]`. -/
def rd (buffer : List Nat) (i : Nat) : Except failure Nat :=
  match buffer[i]? with
  | some b => Except.ok b
  | none => Except.error failure.memory_fault

/-- The byte string `std::string(&buffer[start], count)`. -/
def substring (buffer : List Nat) (start count : Nat) : List Nat :=
  (buffer.drop start).take count

/-- Largest element count `std::vector<reply>::reserve` accepts (`max_size()` for a 72 byte
element on LP64). -/
def vector_max_size : Nat := (2 ^ 63 - 1) / 72

/-! ## RESP parser (`proto/redis.h`, `class parser`) -/

/-- The loop `while (index < size && buffer[index] != '\n') ++index;`. -/
def skip_to_newline (buffer : List Nat) (size : Nat) : Nat → Nat → Except failure Nat
  | 0, index => Except.ok index
  | fuel + 1, index =>
    if index < size then
      match rd buffer index with
      | Except.error e => Except.error e
      | Except.ok c =>
        if c ≠ LF then skip_to_newline buffer size fuel (index + 1)
        else Except.ok index
    else Except.ok index

/-- The digit loop of `get_integer`:
`while (index < size && buffer[index] != '\n') { if (buffer[index] != '\r') integer = integer * 10 + (buffer[index] - '0'); ++index; }`. -/
def get_integer_loop (buffer : List Nat) (size : Nat) : Nat → Int → Nat → Except failure (Int × Nat)
  | 0, integer, index => Except.ok (integer, index)
  | fuel + 1, integer, index =>
    if index < size then
      match rd buffer index with
      | Except.error e => Except.error e
      | Except.ok c =>
        if c ≠ LF then
          if c ≠ CR then
            get_integer_loop buffer size fuel
              (wrap_int64 (wrap_int64 (integer * 10) + (char_val c - 48))) (index + 1)
          else get_integer_loop buffer size fuel integer (index + 1)
        else Except.ok (integer, index)
    else Except.ok (integer, index)

/-- The function `parser::get_integer`: returns the value of the out-parameter `integer`
and the returned index. -/
def get_integer (buffer : List Nat) (size index : Nat) : Except failure (Int × Nat) :=
  if size - index < 4 then Except.ok (0, 0)
  else
    match rd buffer (index + 1) with
    | Except.error e => Except.error e
    | Except.ok c =>
      let minus : Bool := decide (c = MINUS)
      let index1 := if minus then index + 2 else index + 1
      match get_integer_loop buffer size (size - index1) 0 index1 with
      | Except.error e => Except.error e
      | Except.ok (integer, index2) =>
        if index2 ≥ size then Except.ok (integer, 0)
        else
          match rd buffer (index2 - 1) with
          | Except.error e => Except.error e
          | Except.ok p =>
            if p ≠ CR then Except.error failure.parse_error
            else Except.ok (if minus then wrap_int64 (integer * (-1)) else integer, index2 + 1)

/-- The function `parser::parse_simple_string`. -/
def parse_simple_string (r : reply) (buffer : List Nat) (size index : Nat) : step :=
  if size - index < 3 then Except.ok (r, 0)
  else
    let start_index := index
    match skip_to_newline buffer size (size - index) index with
    | Except.error e => Except.error e
    | Except.ok index1 =>
      if index1 ≥ size then Except.ok (r, 0)
      else
        match rd buffer (index1 - 1) with
        | Except.error e => Except.error e
        | Except.ok p =>
          if p ≠ CR then Except.error failure.parse_error
          else
            Except.ok ({ r with type := reply_type.STRING,
                                str := substring buffer (start_index + 1) (index1 - 2 - start_index) },
                       index1 + 1)

/-- The function `parser::parse_error_string`. -/
def parse_error_string (r : reply) (buffer : List Nat) (size index : Nat) : step :=
  match parse_simple_string r buffer size index with
  | Except.error e => Except.error e
  | Except.ok (r1, index1) => Except.ok ({ r1 with type := reply_type.ERROR }, index1)

/-- The function `parser::parse_integer`. -/
def parse_integer (r : reply) (buffer : List Nat) (size index : Nat) : step :=
  match get_integer buffer size index with
  | Except.error e => Except.error e
  | Except.ok (integer, index1) =>
    if index1 = 0 then Except.ok (r, 0)
    else Except.ok ({ r with type := reply_type.INTEGER, integer := integer }, index1)

/-- The function `parser::parse_bulk_string`. The sums `index+integer+2`, `index+integer`
and `index+integer+1` are `std::size_t` sums. -/
def parse_bulk_string (r : reply) (buffer : List Nat) (size index : Nat) : step :=
  match get_integer buffer size index with
  | Except.error e => Except.error e
  | Except.ok (integer, index1) =>
    if index1 = 0 then Except.ok (r, 0)
    else if integer = -1 then Except.ok ({ r with type := reply_type.NIL }, index1)
    else if (index1 + to_size_t integer + 2) % 2 ^ 64 > size then Except.ok (r, 0)
    else
      match rd buffer ((index1 + to_size_t integer) % 2 ^ 64) with
      | Except.error e => Except.error e
      | Except.ok a =>
        if a ≠ CR then Except.error failure.parse_error
        else
          match rd buffer ((index1 + to_size_t integer + 1) % 2 ^ 64) with
          | Except.error e => Except.error e
          | Except.ok b =>
            if b ≠ LF then Except.error failure.parse_error
            else if integer < 0 then Except.error failure.length_error
            else
              Except.ok ({ r with type := reply_type.STRING,
                                  str := substring buffer index1 (to_size_t integer) },
                         (index1 + to_size_t integer + 2) % 2 ^ 64)

mutual
/-- The four-argument overload `parser::parse(reply, buffer, size, index)`:
dispatch on `buffer[index]`. -/
def parse_index (buffer : List Nat) (size : Nat) (fuel : Nat) (r : reply) (index : Nat) : step :=
  match fuel with
  | 0 => Except.error failure.out_of_fuel
  | fuel + 1 =>
    match rd buffer index with
    | Except.error e => Except.error e
    | Except.ok c =>
      if c = PLUS then parse_simple_string r buffer size index
      else if c = MINUS then parse_error_string r buffer size index
      else if c = COLON then parse_integer r buffer size index
      else if c = DOLLAR then parse_bulk_string r buffer size index
      else if c = STAR then parse_array buffer size fuel r index
      else Except.error failure.parse_error
termination_by structural fuel
/-- The function `parser::parse_array`. -/
def parse_array (buffer : List Nat) (size : Nat) (fuel : Nat) (r : reply) (index : Nat) : step :=
  match fuel with
  | 0 => Except.error failure.out_of_fuel
  | fuel + 1 =>
    match get_integer buffer size index with
    | Except.error e => Except.error e
    | Except.ok (integer, index1) =>
      if index1 = 0 then Except.ok (r, 0)
      else if integer = -1 then Except.ok ({ r with type := reply_type.NIL }, index1)
      else if to_size_t integer > vector_max_size then Except.error failure.length_error
      else parse_array_loop buffer size fuel integer 0 { r with type := reply_type.ARRAY } index1
termination_by structural fuel
/-- The loop of `parse_array`:
`for (auto i=0u; i<integer; ++i) { elements.push_back(reply()); index = parse(elements[i], ...); if (0 == index) break; } return index;`
with `i` an `unsigned` (32 bit) counter that is compared with `integer` as a signed 64 bit
value. -/
def parse_array_loop (buffer : List Nat) (size : Nat) (fuel : Nat) (integer : Int) (i : Nat)
    (r : reply) (index : Nat) : step :=
  match fuel with
  | 0 => Except.error failure.out_of_fuel
  | fuel + 1 =>
    if (i : Int) < integer then
      let elements := r.elements ++ [reply.new]
      match elements[i]? with
      | none => Except.error failure.memory_fault
      | some e =>
        match parse_index buffer size fuel e index with
        | Except.error err => Except.error err
        | Except.ok (e1, index1) =>
          let r1 := { r with elements := elements.set i e1 }
          if index1 = 0 then Except.ok (r1, 0)
          else parse_array_loop buffer size fuel integer ((i + 1) % 2 ^ 32) r1 index1
    else Except.ok (r, index)
termination_by structural fuel
end

/-- The three-argument `parser::parse(reply, buffer, size)`: reset the reply, then parse
from index 0. The recursion budget `size + 2` is never used up (each nested call happens
after at least three more bytes have been consumed). -/
def parse (r : reply) (buffer : List Nat) (size : Nat) : step :=
  parse_index buffer size (size + 2)
    { r with type := reply_type.INVALID, str := [], integer := 0, elements := [] } 0

mutual
/-- Decision procedure for equality of replies. -/
def reply.dec_eq : (a b : reply) → Decidable (a = b)
  | ⟨t1, s1, i1, e1⟩, ⟨t2, s2, i2, e2⟩ =>
    if h1 : t1 = t2 then
      if h2 : s1 = s2 then
        if h3 : i1 = i2 then
          match reply.dec_eq_list e1 e2 with
          | isTrue h4 => isTrue (by rw [h1, h2, h3, h4])
          | isFalse h4 => isFalse (fun h => h4 (by injection h))
        else isFalse (fun h => h3 (by injection h))
      else isFalse (fun h => h2 (by injection h))
    else isFalse (fun h => h1 (by injection h))
/-- Decision procedure for equality of reply vectors. -/
def reply.dec_eq_list : (a b : List reply) → Decidable (a = b)
  | [], [] => isTrue rfl
  | [], _ :: _ => isFalse (fun h => by cases h)
  | _ :: _, [] => isFalse (fun h => by cases h)
  | a :: as, b :: bs =>
    match reply.dec_eq a b with
    | isTrue h1 =>
      match reply.dec_eq_list as bs with
      | isTrue h2 => isTrue (by rw [h1, h2])
      | isFalse h2 => isFalse (fun h => h2 (by injection h))
    | isFalse h1 => isFalse (fun h => h1 (by injection h))
end

instance : DecidableEq reply := reply.dec_eq

deriving instance DecidableEq for Except

/-! ## Framing buffer (`proto/base.h`, `class parser_base`) -/

/-- The members of `parser_base<reply>`. `_buffer` is the content of the `_buffer_size` bytes
allocated by `new char[_buffer_size]` (not initialised by the constructor). -/
structure parser_base where
  _buffer_size : Nat
  _used_bytes : Nat
  _buffer : List Nat
  _message : reply
  deriving DecidableEq

/-- The descriptor `char_buffer`, with `ptr` as an offset into the allocation. -/
structure char_buffer where
  ptr : Nat
  size : Nat
  deriving DecidableEq, Repr

/-- The function `parser_base::buffer`. -/
def parser_base.buffer (p : parser_base) : char_buffer :=
  ⟨p._used_bytes, p._buffer_size - p._used_bytes⟩

/-- What `async_read_some` does with the descriptor returned by `buffer()`: the received
bytes are stored at the tail, from offset `_used_bytes`. -/
def parser_base.store (p : parser_base) (data : List Nat) : parser_base :=
  { p with _buffer := p._buffer.take p._used_bytes ++ data
                        ++ p._buffer.drop (p._used_bytes + data.length) }

/-- What `on_read` leaves behind: the parser, the messages handed to `on_read_callback`
in order, and the exception that left the call, when one did. -/
structure read_result where
  state : parser_base
  delivered : List reply
  raised : Option failure
  deriving DecidableEq

/-- Local state of the loop of `on_read`: `ptr` (as an offset), `_used_bytes`, `_message`,
the messages delivered so far, and the exception that interrupted the loop. -/
structure loop_state where
  ptr : Nat
  used : Nat
  message : reply
  delivered : List reply
  raised : Option failure

/-- The loop `while (length > 0) { callback(_message); ptr += length; _used_bytes -= length;
if (_used_bytes == 0) break; length = parse(_message, ptr, _used_bytes); }`. -/
def on_read_loop (buffer : List Nat) : Nat → loop_state → Nat → loop_state
  | 0, s, length => if length > 0 then { s with raised := some failure.out_of_fuel } else s
  | fuel + 1, s, length =>
    if length > 0 then
      let delivered := s.delivered ++ [s.message]
      let ptr := s.ptr + length
      let used := s.used - length
      if used = 0 then { s with ptr := ptr, used := used, delivered := delivered }
      else
        match parse s.message (buffer.drop ptr) used with
        | Except.error e =>
          { s with ptr := ptr, used := used, delivered := delivered, raised := some e }
        | Except.ok (m, length1) =>
          on_read_loop buffer fuel
            { s with ptr := ptr, used := used, message := m, delivered := delivered } length1
    else s

/-- The function `parser_base::on_read` (with a non-null callback). When `parse` raises,
the exception leaves `on_read`: `_used_bytes` keeps its current value and the buffer is not
compacted. -/
def parser_base.on_read (p : parser_base) (read_bytes : Nat) : read_result :=
  let used := p._used_bytes + read_bytes
  match parse p._message p._buffer used with
  | Except.error e => ⟨{ p with _used_bytes := used }, [], some e⟩
  | Except.ok (m, length) =>
    let s := on_read_loop p._buffer (used + 1) ⟨0, used, m, [], none⟩ length
    match s.raised with
    | some e => ⟨{ p with _used_bytes := s.used, _message := s.message }, s.delivered, some e⟩
    | none =>
      let moved :=
        if s.ptr ≠ 0 then (p._buffer.drop s.ptr).take s.used ++ p._buffer.drop s.used
        else p._buffer
      ⟨{ p with _used_bytes := s.used, _message := s.message, _buffer := moved },
        s.delivered, none⟩

/-- One read completion: the socket stores `data` at the tail, then `on_read(data.size())`. -/
def parser_base.feed (p : parser_base) (data : List Nat) : read_result :=
  (p.store data).on_read data.length

/-- Successive read completions. After an exception the transport tears the connection
down, so the remaining chunks are not fed. -/
def parser_base.feed_all (p : parser_base) : List (List Nat) → read_result
  | [] => ⟨p, [], none⟩
  | b :: bs =>
    let r := p.feed b
    match r.raised with
    | some e => ⟨r.state, r.delivered, some e⟩
    | none =>
      let r1 := parser_base.feed_all r.state bs
      ⟨r1.state, r.delivered ++ r1.delivered, r1.raised⟩

/-! ## Auxiliary definitions used in the proofs -/

/-- Value of a digit string, most significant digit first. -/
def digits_val (ds : List Nat) : Nat := ds.foldl (fun a d => a * 10 + (d - 48)) 0

/-- Every byte is one of `'0'..'9'`. -/
def all_digits (ds : List Nat) : Prop := ∀ d ∈ ds, 48 ≤ d ∧ d ≤ 57

/-- The accumulation performed by the digit loop of `get_integer`. -/
def accumulate (acc : Int) (ds : List Nat) : Int :=
  ds.foldl (fun a d => wrap_int64 (wrap_int64 (a * 10) + (char_val d - 48))) acc

/-! ## Wire forms of replies (the table of the RESP forms) -/

/-- The form `+<str>\r\n`. -/
def simple_string_encoding (s : List Nat) : List Nat := PLUS :: (s ++ [CR, LF])

/-- The form `-<str>\r\n`. -/
def error_encoding (s : List Nat) : List Nat := MINUS :: (s ++ [CR, LF])

/-- The form `:<int>\r\n`. -/
def integer_encoding (n : Int) : List Nat := COLON :: (int_to_string n ++ [CR, LF])

/-- The form `$<len>\r\n<len bytes>\r\n`. -/
def bulk_string_encoding (s : List Nat) : List Nat :=
  DOLLAR :: (to_string s.length ++ CR :: LF :: (s ++ [CR, LF]))

/-- The nil bulk string `$-1\r\n`. -/
def nil_bulk_string : List Nat := [DOLLAR, MINUS, 49, CR, LF]

/-- The nil array `*-1\r\n`. -/
def nil_array : List Nat := [STAR, MINUS, 49, CR, LF]

mutual
/-- The standard RESP encoding of a reply tree: integers as `:<int>\r\n`, strings as bulk
strings, errors as `-<str>\r\n`, nil as the nil bulk string, arrays as `*<n>\r\n` followed by
the encodings of the `n` elements. -/
def resp_encode : reply → List Nat
  | ⟨reply_type.INTEGER, _, n, _⟩ => integer_encoding n
  | ⟨reply_type.STRING, s, _, _⟩ => bulk_string_encoding s
  | ⟨reply_type.ERROR, s, _, _⟩ => error_encoding s
  | ⟨reply_type.NIL, _, _, _⟩ => nil_bulk_string
  | ⟨reply_type.ARRAY, _, _, es⟩ => STAR :: (to_string es.length ++ CR :: LF :: resp_encode_list es)
  | ⟨reply_type.INVALID, _, _, _⟩ => []
/-- The encodings of the elements of an array, one after the other. -/
def resp_encode_list : List reply → List Nat
  | [] => []
  | e :: es => resp_encode e ++ resp_encode_list es
end

mutual
/-- A reply tree as the parser builds it: every node is an INTEGER (in the `int64_t` range),
STRING, ERROR (without `'\r'` and `'\n'`), NIL or ARRAY node, and the fields a tag does not
use have the values of `reply()`. -/
def reply.canonical : reply → Prop
  | ⟨reply_type.INTEGER, s, n, es⟩ => s = [] ∧ es = [] ∧ -2 ^ 63 ≤ n ∧ n < 2 ^ 63
  | ⟨reply_type.STRING, _, n, es⟩ => n = 0 ∧ es = []
  | ⟨reply_type.ERROR, s, n, es⟩ => n = 0 ∧ es = [] ∧ CR ∉ s ∧ LF ∉ s
  | ⟨reply_type.NIL, s, n, es⟩ => s = [] ∧ n = 0 ∧ es = []
  | ⟨reply_type.ARRAY, s, n, es⟩ => s = [] ∧ n = 0 ∧ reply.canonical_list es
  | ⟨reply_type.INVALID, _, _, _⟩ => False
/-- Every element of a reply vector is canonical. -/
def reply.canonical_list : List reply → Prop
  | [] => True
  | e :: es => reply.canonical e ∧ reply.canonical_list es
end

/-! ## Transport (`tcp-connection.h`) -/

/-- The administrative state `astate`. -/
inductive astate where
  | DISCONNECTED
  | CONNECTED
  deriving DecidableEq, Repr

/-- The observable state `ostate`. -/
inductive ostate where
  | DISCONNECTED
  | CONNECTING
  | CONNECTED
  deriving DecidableEq, Repr

/-- What the one `_timer` of the transport is waiting for: nothing, the reconnect wait of
`reconnect()`, or the poll of `join()`. -/
inductive timer_wait where
  | idle
  | retry
  | join
  deriving DecidableEq, Repr

/-- A `boost::system::error_code` as the handlers tell them apart. -/
inductive error_code where
  | success
  | operation_aborted
  | invalid_argument
  | other (value : Nat)
  deriving DecidableEq, Repr

/-- The constant `SEND_BUFFER_LIMIT`. -/
def SEND_BUFFER_LIMIT : Nat := 10485760

/-- The members of `tcp_connection` that `connected()`, `send()` and `reconnect()` read and
write. -/
structure tcp_connection where
  _astate : astate
  _ostate : ostate
  _send_buffer : List (List Nat)
  _send_buffer_size : Nat
  _auto_reconnect : Bool
  _timer : timer_wait
  deriving DecidableEq, Repr

/-- The state the constructor of `tcp_connection` sets up. -/
def tcp_connection.new : tcp_connection :=
  ⟨astate.DISCONNECTED, ostate.DISCONNECTED, [], 0, true, timer_wait.idle⟩

/-- The function `tcp_connection::connected`. -/
def tcp_connection.connected (t : tcp_connection) : Bool :=
  decide (t._astate = astate.CONNECTED) && decide (t._ostate = ostate.CONNECTED)

/-- The text carried by `tcp_send_buffer_full`. -/
def send_buffer_full_what : List Nat :=
  bytes "ERROR: TCP send buffer is full. Current limit is: " ++ to_string SEND_BUFFER_LIMIT

/-- The function `tcp_connection::send`: the new transport state and the flag `send_now`
(a `try_to_send` is dispatched when it is set), or the text of the exception
`tcp_send_buffer_full`, which is thrown before any member is written. -/
def tcp_connection.send (t : tcp_connection) (buffer : List Nat) :
    Except (List Nat) (tcp_connection × Bool) :=
  let send_now := t._send_buffer.isEmpty
  if t._send_buffer_size + buffer.length > SEND_BUFFER_LIMIT then
    Except.error send_buffer_full_what
  else
    Except.ok ({ t with _send_buffer_size := t._send_buffer_size + buffer.length,
                        _send_buffer := t._send_buffer ++ [buffer] }, send_now)

/-- The protected `tcp_connection::disconnect(bool end)`: the socket is shut down and
closed. -/
def tcp_connection.disconnect_end (t : tcp_connection) (is_end : Bool) : tcp_connection :=
  { t with _astate := if is_end then astate.DISCONNECTED else t._astate,
           _ostate := ostate.DISCONNECTED }

/-- The body that `tcp_connection::reconnect` dispatches (run at once when the call comes
from the event loop): `disconnect(false)`, then the retry wait when `_auto_reconnect` is
set. No callback is invoked. -/
def tcp_connection.reconnect (t : tcp_connection) : tcp_connection :=
  let t1 := t.disconnect_end false
  if !t1._auto_reconnect then t1 else { t1 with _timer := timer_wait.retry }

/-! ## Command connection (`redis-connection.h`) -/

/-- A completion callback `std::function<void (reply &&)>` stored in `_op_callbacks`: a
callback of the caller, identified by a number, or the bound member function
`on_subscribe_callback`. -/
inductive callback where
  | user (id : Nat)
  | on_subscribe_callback
  deriving DecidableEq, Repr

/-- The four messages `redis_connection` passes to `ferror`. -/
inductive log_message where
  | disconnected_ungracefully
  | no_stored_callback
  | non_valid_subscribe_response
  | cannot_find_subscription
  deriving DecidableEq, Repr

/-- What a call does to the outside, in the order it happens: it invokes a completion
callback with a reply (for the bound `on_subscribe_callback` the effects of its body follow),
dispatches `try_to_send` on the event loop, logs through `ferror`, calls `_tcp.reconnect()`,
invokes a handler of a subscription, or invokes the connected or disconnected callback of the
caller. Handlers and callbacks of the caller are identified by numbers; their bodies are
outside the library. -/
inductive effect where
  | invoke (cb : callback) (r : reply)
  | dispatch_try_to_send
  | ferror (m : log_message)
  | reconnect
  | subscribed (handler : Nat)
  | message (handler : Nat) (channel payload : List Nat)
  | pmessage (handler : Nat) (pattern channel payload : List Nat)
  | unsubscribed (handler : Nat)
  | connected_hook (handler : Nat) (error : error_code)
  | disconnected_hook (handler : Nat) (error : error_code)
  deriving DecidableEq

/-- What leaves a call as an exception: `std::bad_function_call` of an empty
`std::function`, and the two exceptions of the subscription calls with their texts. -/
inductive exception where
  | bad_function_call
  | subscription_already_exists (what : List Nat)
  | subscription_does_not_exist (what : List Nat)
  deriving DecidableEq, Repr

/-- The record `pubsub_callbacks`; `none` is an empty `std::function`. -/
structure pubsub_callbacks where
  subscribed_callback : Option Nat
  change_callback : Option Nat
  pattern_change_callback : Option Nat
  unsubscribed_callback : Option Nat
  deriving DecidableEq, Repr

/-- The members of `redis_connection`; `_subs` is the `std::map` from channel or pattern to
its callbacks, as the list of its entries. -/
structure redis_connection where
  _tcp : tcp_connection
  _op_callbacks : List callback
  _connected_callback : Option Nat
  _disconnected_callback : Option Nat
  _pubsub_mode : Bool
  _subs : List (List Nat × pubsub_callbacks)
  deriving DecidableEq

/-- The state the constructor of `redis_connection` sets up. -/
def redis_connection.new : redis_connection := ⟨tcp_connection.new, [], none, none, false, []⟩

/-- The constant `ERROR_TCP_DISCONNECTED`. -/
def ERROR_TCP_DISCONNECTED : List Nat := bytes "TCP DISCONNECTED"

/-- The constant `ERROR_TCP_CANNOT_SEND_MESSAGE`. -/
def ERROR_TCP_CANNOT_SEND_MESSAGE : List Nat := bytes "TCP CANNOT SEND MESSAGE"

/-- The function `redis_connection::connected`. -/
def redis_connection.connected (c : redis_connection) : Bool := c._tcp.connected

/-- The two overloads of `redis_connection::append_bulk_string`: the arguments are
`t, ts...`; the returned value is the final content of `target`. -/
def append_bulk_string : List Nat → List Nat → List (List Nat) → List Nat
  | target, t, [] =>
    target ++ (bytes "$" ++ to_string t.length ++ bytes "\r\n" ++ t ++ bytes "\r\n")
  | target, t, t1 :: ts =>
    append_bulk_string
      (target ++ (bytes "$" ++ to_string t.length ++ bytes "\r\n" ++ t ++ bytes "\r\n")) t1 ts

/-- The local `message` of `execute` for the arguments `t, ts...`:
`"*" + std::to_string(sizeof...(ts)) + "\r\n"`, then `append_bulk_string(message, ts...)`. -/
def execute_message (t : List Nat) (ts : List (List Nat)) : List Nat :=
  append_bulk_string (bytes "*" ++ to_string (ts.length + 1) ++ bytes "\r\n") t ts

/-- The reply `execute` and `notify_all_pending_requests` build for an error text. -/
def error_reply (str : List Nat) : reply := { reply.new with type := reply_type.ERROR, str := str }

/-- The function `::toupper` on a byte, in the "C" locale. -/
def toupper (c : Nat) : Nat := if 97 ≤ c ∧ c ≤ 122 then c - 32 else c

/-- The lookup `_subs.find(key)`. -/
def subs_find (subs : List (List Nat × pubsub_callbacks)) (key : List Nat) :
    Option pubsub_callbacks :=
  List.lookup key subs

/-- The assignment `_subs[key] = value`: the entry of `key` is replaced, or a new entry is
inserted. -/
def subs_assign (subs : List (List Nat × pubsub_callbacks)) (key : List Nat)
    (value : pubsub_callbacks) : List (List Nat × pubsub_callbacks) :=
  if (subs_find subs key).isSome then
    subs.map (fun e => if e.1 = key then (key, value) else e)
  else subs ++ [(key, value)]

/-- The removal `_subs.erase(it)` of the entry of `key`. -/
def subs_erase (subs : List (List Nat × pubsub_callbacks)) (key : List Nat) :
    List (List Nat × pubsub_callbacks) :=
  subs.filter (fun e => decide (e.1 ≠ key))

/-- What `ferror(...)` followed by `_tcp.reconnect()` does: the message is logged and the
transport runs the body of `reconnect`. -/
def redis_connection.ferror_reconnect (c : redis_connection) (m : log_message) :
    redis_connection × List effect :=
  ({ c with _tcp := c._tcp.reconnect }, [effect.ferror m, effect.reconnect])

/-- The block of `on_subscribe_callback` for the commands SUBSCRIBE and PSUBSCRIBE. -/
def redis_connection.on_subscribe_branch (c : redis_connection) (r : reply) :
    Except exception (redis_connection × List effect) :=
  if 3 ≤ r.elements.length then
    if (r.elements.getD 1 reply.new).type = reply_type.STRING then
      if (r.elements.getD 2 reply.new).type = reply_type.INTEGER then
        match subs_find c._subs (r.elements.getD 1 reply.new).str with
        | none => Except.ok (c.ferror_reconnect log_message.cannot_find_subscription)
        | some callbacks =>
          match callbacks.subscribed_callback with
          | none => Except.error exception.bad_function_call
          | some h => Except.ok (c, [effect.subscribed h])
      else Except.ok (c.ferror_reconnect log_message.non_valid_subscribe_response)
    else Except.ok (c.ferror_reconnect log_message.non_valid_subscribe_response)
  else Except.ok (c.ferror_reconnect log_message.non_valid_subscribe_response)

/-- The block of `on_subscribe_callback` for the command MESSAGE. -/
def redis_connection.on_message_branch (c : redis_connection) (r : reply) :
    Except exception (redis_connection × List effect) :=
  if 3 ≤ r.elements.length then
    if (r.elements.getD 1 reply.new).type = reply_type.STRING then
      if (r.elements.getD 2 reply.new).type = reply_type.STRING then
        match subs_find c._subs (r.elements.getD 1 reply.new).str with
        | none => Except.ok (c.ferror_reconnect log_message.cannot_find_subscription)
        | some callbacks =>
          match callbacks.change_callback with
          | none => Except.error exception.bad_function_call
          | some h =>
            Except.ok (c, [effect.message h (r.elements.getD 1 reply.new).str
              (r.elements.getD 2 reply.new).str])
      else Except.ok (c.ferror_reconnect log_message.non_valid_subscribe_response)
    else Except.ok (c.ferror_reconnect log_message.non_valid_subscribe_response)
  else Except.ok (c.ferror_reconnect log_message.non_valid_subscribe_response)

/-- The block of `on_subscribe_callback` for the command UNSUBSCRIBE, and the identical
block for PUNSUBSCRIBE. -/
def redis_connection.on_unsubscribe_branch (c : redis_connection) (r : reply) :
    Except exception (redis_connection × List effect) :=
  if 3 ≤ r.elements.length then
    if (r.elements.getD 1 reply.new).type = reply_type.STRING then
      if (r.elements.getD 2 reply.new).type = reply_type.INTEGER then
        match subs_find c._subs (r.elements.getD 1 reply.new).str with
        | none => Except.ok (c.ferror_reconnect log_message.cannot_find_subscription)
        | some callbacks =>
          match callbacks.unsubscribed_callback with
          | none => Except.error exception.bad_function_call
          | some h =>
            Except.ok ({ c with _subs := subs_erase c._subs (r.elements.getD 1 reply.new).str },
              [effect.unsubscribed h])
      else Except.ok (c.ferror_reconnect log_message.non_valid_subscribe_response)
    else Except.ok (c.ferror_reconnect log_message.non_valid_subscribe_response)
  else Except.ok (c.ferror_reconnect log_message.non_valid_subscribe_response)

/-- The block of `on_subscribe_callback` for the command PMESSAGE. -/
def redis_connection.on_pmessage_branch (c : redis_connection) (r : reply) :
    Except exception (redis_connection × List effect) :=
  if 4 ≤ r.elements.length then
    if (r.elements.getD 1 reply.new).type = reply_type.STRING then
      if (r.elements.getD 2 reply.new).type = reply_type.STRING then
        if (r.elements.getD 3 reply.new).type = reply_type.STRING then
          match subs_find c._subs (r.elements.getD 1 reply.new).str with
          | none => Except.ok (c.ferror_reconnect log_message.cannot_find_subscription)
          | some callbacks =>
            match callbacks.pattern_change_callback with
            | none => Except.error exception.bad_function_call
            | some h =>
              Except.ok (c, [effect.pmessage h (r.elements.getD 1 reply.new).str
                (r.elements.getD 2 reply.new).str (r.elements.getD 3 reply.new).str])
        else Except.ok (c.ferror_reconnect log_message.non_valid_subscribe_response)
      else Except.ok (c.ferror_reconnect log_message.non_valid_subscribe_response)
    else Except.ok (c.ferror_reconnect log_message.non_valid_subscribe_response)
  else Except.ok (c.ferror_reconnect log_message.non_valid_subscribe_response)

/-- The dispatch of `on_subscribe_callback` on the upper-cased command; a command that is
none of the six falls through to the end of the function. -/
def redis_connection.on_subscribe_command (c : redis_connection) (r : reply)
    (command : List Nat) : Except exception (redis_connection × List effect) :=
  if command = bytes "SUBSCRIBE" ∨ command = bytes "PSUBSCRIBE" then c.on_subscribe_branch r
  else if command = bytes "MESSAGE" then c.on_message_branch r
  else if command = bytes "UNSUBSCRIBE" then c.on_unsubscribe_branch r
  else if command = bytes "PMESSAGE" then c.on_pmessage_branch r
  else if command = bytes "PUNSUBSCRIBE" then c.on_unsubscribe_branch r
  else Except.ok (c, [])

/-- The function `redis_connection::on_subscribe_callback`. A failed `check(...)` is
`ferror` with the non-valid-response message and `_tcp.reconnect()`. -/
def redis_connection.on_subscribe_callback (c : redis_connection) (r : reply) :
    Except exception (redis_connection × List effect) :=
  if r.type = reply_type.ARRAY then
    if 1 ≤ r.elements.length then
      if (r.elements.getD 0 reply.new).type = reply_type.STRING then
        c.on_subscribe_command r ((r.elements.getD 0 reply.new).str.map toupper)
      else Except.ok (c.ferror_reconnect log_message.non_valid_subscribe_response)
    else Except.ok (c.ferror_reconnect log_message.non_valid_subscribe_response)
  else Except.ok (c.ferror_reconnect log_message.non_valid_subscribe_response)

/-- The call `op_callback(std::move(reply))` of a stored completion callback: a callback of
the caller is recorded, the bound member function is recorded and run. -/
def redis_connection.invoke (c : redis_connection) (cb : callback) (r : reply) :
    Except exception (redis_connection × List effect) :=
  match cb with
  | callback.user id => Except.ok (c, [effect.invoke (callback.user id) r])
  | callback.on_subscribe_callback =>
    match c.on_subscribe_callback r with
    | Except.error e => Except.error e
    | Except.ok (c1, effects) =>
      Except.ok (c1, effect.invoke callback.on_subscribe_callback r :: effects)

/-- The function `redis_connection::execute(callback, t, ts...)`; `none` is a null
`callback`. Returns the new state and the effects in order. -/
def redis_connection.execute (c : redis_connection) (cb : Option callback) (t : List Nat)
    (ts : List (List Nat)) : Except exception (redis_connection × List effect) :=
  if !c._tcp.connected then
    match cb with
    | none => Except.error exception.bad_function_call
    | some f => c.invoke f (error_reply ERROR_TCP_CANNOT_SEND_MESSAGE)
  else
    let message := execute_message t ts
    let c1 :=
      match cb with
      | some f => { c with _op_callbacks := c._op_callbacks ++ [f] }
      | none => c
    match c1._tcp.send message with
    | Except.ok (tcp, send_now) =>
      Except.ok ({ c1 with _tcp := tcp },
        if send_now then [effect.dispatch_try_to_send] else [])
    | Except.error what =>
      match cb with
      | none => Except.ok (c1, [])
      | some _ =>
        match c1._op_callbacks.getLast? with
        | none => Except.error exception.bad_function_call
        | some back =>
          match c1.invoke back (error_reply what) with
          | Except.error e => Except.error e
          | Except.ok (c2, effects) =>
            Except.ok ({ c2 with _op_callbacks := c2._op_callbacks.dropLast }, effects)

/-- The function `redis_connection::check_subscribe_callback`: the returned flag, and the
state and effects of `on_subscribe_callback` when it is called. -/
def redis_connection.check_subscribe_callback (c : redis_connection) (r : reply) :
    Except exception (Bool × redis_connection × List effect) :=
  if r.type = reply_type.ARRAY then
    if r.elements.length = 0 then Except.ok (false, c, [])
    else if (r.elements.getD 0 reply.new).type = reply_type.STRING then
      let str := (r.elements.getD 0 reply.new).str.map toupper
      if str = bytes "MESSAGE" ∨ str = bytes "UNSUBSCRIBE" ∨ str = bytes "PMESSAGE"
          ∨ str = bytes "PUNSUBSCRIBE" then
        match c.on_subscribe_callback r with
        | Except.error e => Except.error e
        | Except.ok (c1, effects) => Except.ok (true, c1, effects)
      else Except.ok (false, c, [])
    else Except.ok (false, c, [])
  else Except.ok (false, c, [])

/-- The function `redis_connection::on_read(reply)`, the read callback of the transport. -/
def redis_connection.on_read (c : redis_connection) (r : reply) :
    Except exception (redis_connection × List effect) :=
  match (if c._pubsub_mode then c.check_subscribe_callback r
         else Except.ok (false, c, [])) with
  | Except.error e => Except.error e
  | Except.ok (true, c1, effects) => Except.ok (c1, effects)
  | Except.ok (false, _, _) =>
    match c._op_callbacks with
    | [] => Except.ok (c.ferror_reconnect log_message.no_stored_callback)
    | op_callback :: _ =>
      match c.invoke op_callback r with
      | Except.error e => Except.error e
      | Except.ok (c1, effects) =>
        Except.ok ({ c1 with _op_callbacks := c1._op_callbacks.tail }, effects)

/-- The loop of `redis_connection::notify_all_pending_requests` over the queue `pending`
(the content of `_op_callbacks` at this point): the front callback is invoked with the error
reply, then popped. -/
def redis_connection.notify_loop (error_message : List Nat) :
    List callback → redis_connection → Except exception (redis_connection × List effect)
  | [], c => Except.ok (c, [])
  | op_callback :: rest, c =>
    match c.invoke op_callback (error_reply error_message) with
    | Except.error e => Except.error e
    | Except.ok (c1, effects) =>
      match redis_connection.notify_loop error_message rest
          { c1 with _op_callbacks := c1._op_callbacks.tail } with
      | Except.error e => Except.error e
      | Except.ok (c2, effects2) => Except.ok (c2, effects ++ effects2)

/-- The function `redis_connection::notify_all_pending_requests`. -/
def redis_connection.notify_all_pending_requests (c : redis_connection)
    (error_message : List Nat) : Except exception (redis_connection × List effect) :=
  redis_connection.notify_loop error_message c._op_callbacks c

/-- The function `redis_connection::on_disconnected(error)`, the disconnected callback of
the transport. -/
def redis_connection.on_disconnected (c : redis_connection) (error : error_code) :
    Except exception (redis_connection × List effect) :=
  match c.notify_all_pending_requests ERROR_TCP_DISCONNECTED with
  | Except.error e => Except.error e
  | Except.ok (c1, effects) =>
    Except.ok (c1, [effect.ferror log_message.disconnected_ungracefully] ++ effects ++
      (match c1._disconnected_callback with
       | some h => [effect.disconnected_hook h error]
       | none => []))

/-- The function `redis_connection::on_connected(error)`, the connected callback of the
transport. -/
def redis_connection.on_connected (c : redis_connection) (error : error_code) :
    redis_connection × List effect :=
  ({ c with _pubsub_mode := false, _subs := [] },
    match c._connected_callback with
    | some h => [effect.connected_hook h error]
    | none => [])

/-- What a subscription call leaves behind: the state (also when the call throws), the
effects, and the exception that left the call, when one did. -/
structure outcome where
  state : redis_connection
  effects : List effect
  raised : Option exception
  deriving DecidableEq

/-- The function `redis_connection::subscribe`. -/
def redis_connection.subscribe (c : redis_connection) (channel : List Nat)
    (subscribed_callback change_callback unsubscribed_callback : Option Nat) : outcome :=
  let c1 := { c with _pubsub_mode := true }
  if (subs_find c1._subs channel).isSome then
    ⟨c1, [], some (exception.subscription_already_exists channel)⟩
  else
    let callbacks : pubsub_callbacks :=
      ⟨subscribed_callback, change_callback, none, unsubscribed_callback⟩
    let c2 := { c1 with _subs := subs_assign c1._subs channel callbacks }
    match c2.execute (some callback.on_subscribe_callback) (bytes "SUBSCRIBE") [channel] with
    | Except.error e => ⟨c2, [], some e⟩
    | Except.ok (c3, effects) => ⟨c3, effects, none⟩

/-- The function `redis_connection::psubscribe`. -/
def redis_connection.psubscribe (c : redis_connection) (pattern : List Nat)
    (subscribed_callback pattern_change_callback unsubscribed_callback : Option Nat) : outcome :=
  let c1 := { c with _pubsub_mode := true }
  if (subs_find c1._subs pattern).isSome then
    ⟨c1, [], some (exception.subscription_already_exists pattern)⟩
  else
    let callbacks : pubsub_callbacks :=
      ⟨subscribed_callback, none, pattern_change_callback, unsubscribed_callback⟩
    let c2 := { c1 with _subs := subs_assign c1._subs pattern callbacks }
    match c2.execute (some callback.on_subscribe_callback) (bytes "PSUBSCRIBE") [pattern] with
    | Except.error e => ⟨c2, [], some e⟩
    | Except.ok (c3, effects) => ⟨c3, effects, none⟩

/-- The function `redis_connection::unsubscribe`. -/
def redis_connection.unsubscribe (c : redis_connection) (channel : List Nat) : outcome :=
  if (subs_find c._subs channel).isNone then
    ⟨c, [], some (exception.subscription_does_not_exist channel)⟩
  else
    match c.execute none (bytes "UNSUBSCRIBE") [channel] with
    | Except.error e => ⟨c, [], some e⟩
    | Except.ok (c1, effects) => ⟨c1, effects, none⟩

/-- The function `redis_connection::punsubscribe`. -/
def redis_connection.punsubscribe (c : redis_connection) (pattern : List Nat) : outcome :=
  if (subs_find c._subs pattern).isNone then
    ⟨c, [], some (exception.subscription_does_not_exist pattern)⟩
  else
    match c.execute none (bytes "PUNSUBSCRIBE") [pattern] with
    | Except.error e => ⟨c, [], some e⟩
    | Except.ok (c1, effects) => ⟨c1, effects, none⟩

/-- The completion callbacks a sequence of effects invokes, in order, with their replies. -/
def invocations : List effect → List (callback × reply)
  | [] => []
  | effect.invoke cb r :: es => (cb, r) :: invocations es
  | _ :: es => invocations es

/-- A command given to `execute`: the callback and the arguments `t, ts...`. -/
abbrev command := Option callback × List Nat × List (List Nat)

/-- Calls of `execute` for a list of commands, one after the other. -/
def redis_connection.execute_all :
    List command → redis_connection → Except exception (redis_connection × List effect)
  | [], c => Except.ok (c, [])
  | (cb, t, ts) :: rest, c =>
    match c.execute cb t ts with
    | Except.error e => Except.error e
    | Except.ok (c1, effects) =>
      match redis_connection.execute_all rest c1 with
      | Except.error e => Except.error e
      | Except.ok (c2, effects2) => Except.ok (c2, effects ++ effects2)

/-- Calls of `on_read` for a list of parsed replies, one after the other. -/
def redis_connection.on_read_all :
    List reply → redis_connection → Except exception (redis_connection × List effect)
  | [], c => Except.ok (c, [])
  | r :: rest, c =>
    match c.on_read r with
    | Except.error e => Except.error e
    | Except.ok (c1, effects) =>
      match redis_connection.on_read_all rest c1 with
      | Except.error e => Except.error e
      | Except.ok (c2, effects2) => Except.ok (c2, effects ++ effects2)

/-- The transport after a call of `send`, whether the call returned or threw. -/
def tcp_connection.after_send (t : tcp_connection) (buffer : List Nat) : tcp_connection :=
  match t.send buffer with
  | Except.ok (t1, _) => t1
  | Except.error _ => t

/-! ## Routing condition of the reply dispatch, in the words of the specification -/

/-- Two bytes that are equal, or the upper-case and lower-case form of one ASCII letter. -/
def same_letter (x y : Nat) : Prop :=
  x = y ∨ (65 ≤ x ∧ x ≤ 90 ∧ y = x + 32) ∨ (65 ≤ y ∧ y ≤ 90 ∧ x = y + 32)

/-- Byte strings that are equal ignoring ASCII case. -/
def eq_ignoring_case (a b : List Nat) : Prop := List.Forall₂ same_letter a b

/-- A reply that is routed to the pub/sub handler in pub/sub mode: an ARRAY with at least
one element whose first element is a STRING equal, ignoring ASCII case, to MESSAGE,
PMESSAGE, UNSUBSCRIBE or PUNSUBSCRIBE. -/
def is_push (r : reply) : Prop :=
  r.type = reply_type.ARRAY ∧
  ∃ first rest, r.elements = first :: rest ∧ first.type = reply_type.STRING ∧
    (eq_ignoring_case first.str (bytes "MESSAGE") ∨ eq_ignoring_case first.str (bytes "PMESSAGE") ∨
     eq_ignoring_case first.str (bytes "UNSUBSCRIBE") ∨
     eq_ignoring_case first.str (bytes "PUNSUBSCRIBE"))

/-! ## Auxiliary definitions used in the proofs about the command connection -/

/-- The two ways `on_subscribe_callback` returns: after `ferror` and `_tcp.reconnect()`, or
with the transport, the pending queue, the mode and the callbacks of the caller untouched
and only handlers of subscriptions invoked. -/
def handler_result (c c1 : redis_connection) (es : List effect) : Prop :=
  (∃ m, c1 = { c with _tcp := c._tcp.reconnect } ∧ es = [effect.ferror m, effect.reconnect]) ∨
  (c1._tcp = c._tcp ∧ c1._op_callbacks = c._op_callbacks ∧ c1._pubsub_mode = c._pubsub_mode ∧
    c1._disconnected_callback = c._disconnected_callback ∧
    c1._connected_callback = c._connected_callback ∧ effect.reconnect ∉ es ∧
    invocations es = [] ∧ (∀ x e, effect.disconnected_hook x e ∉ es))

/-- Sum of the lengths of the messages `execute` builds for a list of commands. -/
def total_length : List command → Nat
  | [] => 0
  | (_, t, ts) :: rest => (execute_message t ts).length + total_length rest

/-- The request format of the wire protocol: `*N\r\n` followed, for each argument in order,
by `$L\r\n<arg>\r\n` with `L` the number of bytes of the argument. -/
def resp_command (args : List (List Nat)) : List Nat :=
  STAR :: (to_string args.length ++ CR :: LF :: (args.map bulk_string_encoding).flatten)

/-! ## Sample data -/

/-- A reply tree of depth three with every kind of node. -/
def nested_reply : reply :=
  ⟨reply_type.ARRAY, [], 0,
    [⟨reply_type.ARRAY, [], 0,
        [⟨reply_type.ARRAY, [], 0,
            [⟨reply_type.INTEGER, [], -5, []⟩, ⟨reply_type.STRING, bytes "a\r\nb", 0, []⟩]⟩,
         ⟨reply_type.NIL, [], 0, []⟩]⟩,
     ⟨reply_type.ERROR, bytes "ERR x", 0, []⟩,
     ⟨reply_type.ARRAY, [], 0, []⟩]⟩

/-- A connection whose transport is connected, with nothing pending and nothing queued. -/
def connected_connection : redis_connection :=
  { redis_connection.new with
    _tcp := { tcp_connection.new with _astate := astate.CONNECTED, _ostate := ostate.CONNECTED } }

/-- A connection whose transport is still connecting, with two pending callbacks and one
queued blob. -/
def waiting_connection : redis_connection :=
  { redis_connection.new with
    _tcp := { tcp_connection.new with _astate := astate.CONNECTED, _ostate := ostate.CONNECTING,
                                      _send_buffer := [bytes "PING"], _send_buffer_size := 4 },
    _op_callbacks := [callback.user 1, callback.user 2] }

/-- The effects of invoking a completion callback with an error reply. -/
def invoke_error_effects (cb : callback) (m : List Nat) : List effect :=
  match cb with
  | callback.user id => [effect.invoke (callback.user id) (error_reply m)]
  | callback.on_subscribe_callback =>
    [effect.invoke callback.on_subscribe_callback (error_reply m),
     effect.ferror log_message.non_valid_subscribe_response, effect.reconnect]

/-- Sample: connected, in pub/sub mode with the channel `ch`, two pending callbacks of the
caller and a disconnected callback. -/
def subscribed_connection : redis_connection :=
  { connected_connection with
    _op_callbacks := [callback.user 1, callback.user 2],
    _disconnected_callback := some 9,
    _pubsub_mode := true,
    _subs := [(bytes "ch", ⟨some 11, some 12, none, some 13⟩),
              (bytes "news.*", ⟨some 21, none, some 22, some 23⟩)] }

/-- Sample: a connected connection in pub/sub mode whose table holds the channel
subscription `ch` and no pattern subscription. -/
def channel_only_connection : redis_connection :=
  { connected_connection with
    _pubsub_mode := true,
    _subs := [(bytes "ch", ⟨some 11, some 12, none, some 13⟩)] }

/-- Sample: a connected connection whose send queue holds one blob of `SEND_BUFFER_LIMIT`
bytes, with one pending callback. -/
def full_connection : redis_connection :=
  { connected_connection with
    _tcp := { connected_connection._tcp with
              _send_buffer := [List.replicate SEND_BUFFER_LIMIT 0],
              _send_buffer_size := SEND_BUFFER_LIMIT },
    _op_callbacks := [callback.user 1] }

/-- Sample: the commands `GET a`, `INCR n`, `GET z` with the callbacks 1, 2, 3. -/
def sample_commands : List (Nat × List Nat × List (List Nat)) :=
  [(1, bytes "GET", [bytes "a"]), (2, bytes "INCR", [bytes "n"]), (3, bytes "GET", [bytes "z"])]

/-- Sample: the replies `$1 v`, `:11`, nil. -/
def sample_replies : List reply :=
  [⟨reply_type.STRING, bytes "v", 0, []⟩, ⟨reply_type.INTEGER, [], 11, []⟩,
   ⟨reply_type.NIL, [], 0, []⟩]

/-- A command with a callback of the caller: the number of the callback and the arguments. -/
def user_command (x : Nat × List Nat × List (List Nat)) : command :=
  (some (callback.user x.1), x.2.1, x.2.2)

/-- Sample: the state `subscribe("ch", 11, 12, 13)` leaves on `connected_connection`. -/
def confirming_connection : redis_connection :=
  (connected_connection.subscribe (bytes "ch") (some 11) (some 12) (some 13)).state

/-- The invariant of the subscription state: pub/sub mode is on whenever the subscription
table holds an entry. -/
def pubsub_invariant (c : redis_connection) : Prop := c._subs ≠ [] → c._pubsub_mode = true

/-- A step that leaves the pub/sub mode as it is and inserts nothing into an empty table. -/
def keeps_pubsub (c c1 : redis_connection) : Prop :=
  c1._pubsub_mode = c._pubsub_mode ∧ (c1._subs ≠ [] → c._subs ≠ [])

/-- Sample: `subscribed_connection` after the socket was lost: the body of `reconnect()` has
run, the subscription table still holds its entries. -/
def lost_connection : redis_connection :=
  { subscribed_connection with _tcp := subscribed_connection._tcp.reconnect }

/-- The mismatches `on_subscribe_callback` checks a reply for: it is not an array, it is
empty, its first element is not a string, or, for one of the six commands, it has fewer
elements than the command needs (3, for PMESSAGE 4), one of these elements has the wrong
type, or the key in its second element is not in the subscription table. -/
def shape_violation (c : redis_connection) (r : reply) : Prop :=
  r.type ≠ reply_type.ARRAY ∨ r.elements.length < 1 ∨
  (r.elements.getD 0 reply.new).type ≠ reply_type.STRING ∨
  (((r.elements.getD 0 reply.new).str.map toupper = bytes "SUBSCRIBE" ∨
    (r.elements.getD 0 reply.new).str.map toupper = bytes "PSUBSCRIBE" ∨
    (r.elements.getD 0 reply.new).str.map toupper = bytes "UNSUBSCRIBE" ∨
    (r.elements.getD 0 reply.new).str.map toupper = bytes "PUNSUBSCRIBE") ∧
   (r.elements.length < 3 ∨ (r.elements.getD 1 reply.new).type ≠ reply_type.STRING ∨
    (r.elements.getD 2 reply.new).type ≠ reply_type.INTEGER ∨
    subs_find c._subs (r.elements.getD 1 reply.new).str = none)) ∨
  ((r.elements.getD 0 reply.new).str.map toupper = bytes "MESSAGE" ∧
   (r.elements.length < 3 ∨ (r.elements.getD 1 reply.new).type ≠ reply_type.STRING ∨
    (r.elements.getD 2 reply.new).type ≠ reply_type.STRING ∨
    subs_find c._subs (r.elements.getD 1 reply.new).str = none)) ∨
  ((r.elements.getD 0 reply.new).str.map toupper = bytes "PMESSAGE" ∧
   (r.elements.length < 4 ∨ (r.elements.getD 1 reply.new).type ≠ reply_type.STRING ∨
    (r.elements.getD 2 reply.new).type ≠ reply_type.STRING ∨
    (r.elements.getD 3 reply.new).type ≠ reply_type.STRING ∨
    subs_find c._subs (r.elements.getD 1 reply.new).str = none))

/-- Sample: a parser with a buffer of eight bytes. -/
def parser_of_eight : parser_base := ⟨8, 0, List.replicate 8 0, reply.new⟩

/-! ## Transport: callbacks and completion handlers (`tcp-connection.h`) -/

/-- The members of `tcp_connection<proto::redis::parser>` its completion handlers read and
write: those of `tcp_connection` above, the stored endpoint, the three callbacks of the
caller (`none` is an empty `std::function`) and the parser, the member `_parser` of the
source. The two flags that only select socket options are left out. -/
structure transport extends tcp_connection where
  _ip : List Nat
  _port : Nat
  _connected_callback : Option Nat
  _disconnected_callback : Option Nat
  _read_callback : Option Nat
  _parser_base : parser_base
  deriving DecidableEq

/-- What a handler of the transport does to the outside, in order: it invokes one of the
three callbacks of the caller, starts an asynchronous connect, read or write, or closes the
socket. -/
inductive tcp_effect where
  | connected_callback (handler : Nat) (error : error_code)
  | disconnected_callback (handler : Nat) (error : error_code)
  | read_callback (handler : Nat) (message : reply)
  | async_connect (ip : List Nat) (port : Nat)
  | async_read_some (size : Nat)
  | async_write_some (start_byte message_length : Nat)
  | socket_close
  deriving DecidableEq

/-- What leaves a call or a handler of the transport: the exception of `send` with its
text, or an exception or fault of the parser that `on_read` does not catch (for the handlers,
`memory_fault` also stands for `front()` of an empty send queue). -/
inductive tcp_exception where
  | tcp_send_buffer_full (what : List Nat)
  | fault (f : failure)
  deriving DecidableEq

/-- What a call or handler leaves behind: the state, the effects, and the exception that
left it, when one did. -/
structure tcp_outcome where
  state : transport
  effects : List tcp_effect
  raised : Option tcp_exception
  deriving DecidableEq

/-- The state the constructor sets up, for a parser with a buffer of `buffer_size` bytes
whose content is `memory`. -/
def transport.new (buffer_size : Nat) (memory : List Nat) : transport :=
  { tcp_connection.new with
    _ip := [], _port := 0, _connected_callback := none, _disconnected_callback := none,
    _read_callback := none, _parser_base := ⟨buffer_size, 0, memory, reply.new⟩ }

/-- The function `tcp_connection::internal_connect` (and `connect`, which only calls it):
the members are set, the socket is opened and `async_connect` is started. -/
def transport.internal_connect (m : transport) (ip : List Nat) (port : Nat)
    (connected_callback disconnected_callback read_callback : Option Nat)
    (auto_reconnect : Bool) : tcp_outcome :=
  ⟨{ m with _astate := astate.CONNECTED, _ostate := ostate.CONNECTING, _ip := ip,
            _port := port, _connected_callback := connected_callback,
            _disconnected_callback := disconnected_callback, _read_callback := read_callback,
            _auto_reconnect := auto_reconnect },
    [tcp_effect.async_connect ip port], none⟩

/-- The body that `tcp_connection::disconnect()` dispatches: the callbacks are cleared, the
timer is cancelled, then `disconnect(true)`. -/
def transport.disconnect (m : transport) : tcp_outcome :=
  let m1 := { m with _connected_callback := none, _disconnected_callback := none,
                     _read_callback := none, _timer := timer_wait.idle }
  ⟨{ m1 with totcp_connection := m1.totcp_connection.disconnect_end true },
    [tcp_effect.socket_close], none⟩

/-- The body that `tcp_connection::reconnect()` dispatches, on the whole transport:
`disconnect(false)` closes the socket, then the retry wait is started when `_auto_reconnect`
is set. -/
def transport.reconnect (m : transport) : tcp_outcome :=
  ⟨{ m with totcp_connection := m.totcp_connection.reconnect }, [tcp_effect.socket_close], none⟩

/-- The call `if (_connected_callback) _connected_callback(error)`. -/
def transport.notify_connected (m : transport) (error : error_code) : List tcp_effect :=
  match m._connected_callback with
  | some h => [tcp_effect.connected_callback h error]
  | none => []

/-- The call `if (_disconnected_callback) _disconnected_callback(error)`. -/
def transport.notify_disconnected (m : transport) (error : error_code) : List tcp_effect :=
  match m._disconnected_callback with
  | some h => [tcp_effect.disconnected_callback h error]
  | none => []

/-- The completion handler of `async_connect` in `internal_connect`. -/
def transport.on_connect (m : transport) (error : error_code) : tcp_outcome :=
  if error ≠ error_code.success then
    let m1 := { m with _ostate := ostate.DISCONNECTED }
    let r := m1.reconnect
    ⟨r.state, m1.notify_connected error ++ r.effects, none⟩
  else
    let m1 := { m with _ostate := ostate.CONNECTED, _send_buffer := [],
                       _send_buffer_size := 0 }
    ⟨m1, tcp_effect.async_read_some m1._parser_base.buffer.size :: m1.notify_connected error, none⟩

/-- The handler of the retry wait in `reconnect`. -/
def transport.on_retry_timer (m : transport) (error : error_code) : tcp_outcome :=
  if error = error_code.operation_aborted then ⟨m, [], none⟩
  else if m._astate = astate.DISCONNECTED then ⟨m, [], none⟩
  else m.internal_connect m._ip m._port m._connected_callback m._disconnected_callback
    m._read_callback m._auto_reconnect

/-- The calls of `on_read_callback` inside `parser_base::on_read`, which tests the callback
before each call. -/
def transport.deliver (m : transport) (messages : List reply) : List tcp_effect :=
  match m._read_callback with
  | some h => messages.map (tcp_effect.read_callback h)
  | none => []

/-- The function `tcp_connection::on_read`, the completion handler of `async_read_some`;
`data` are the bytes the socket wrote to the tail of the parser buffer (at most as many as
the tail holds). A `parse_error` is caught; any other exception leaves the handler. -/
def transport.on_read (m : transport) (error : error_code) (data : List Nat) : tcp_outcome :=
  if error = error_code.operation_aborted then ⟨m, [], none⟩
  else if error ≠ error_code.success then
    let r := m.reconnect
    ⟨r.state, m.notify_disconnected error ++ r.effects, none⟩
  else
    let read := m._parser_base.feed (data.take m._parser_base.buffer.size)
    let m1 := { m with _parser_base := read.state }
    match read.raised with
    | none =>
      ⟨m1, m.deliver read.delivered ++ [tcp_effect.async_read_some read.state.buffer.size],
        none⟩
    | some failure.parse_error =>
      let r := m1.reconnect
      ⟨r.state, m.deliver read.delivered ++
        m1.notify_disconnected error_code.invalid_argument ++ r.effects, none⟩
    | some e => ⟨m1, m.deliver read.delivered, some (tcp_exception.fault e)⟩

/-- The function `tcp_connection::try_to_send(start_byte)`. -/
def transport.try_to_send (m : transport) (start_byte : Nat) : tcp_outcome :=
  if !m.connected then ⟨m, [], none⟩
  else
    match m._send_buffer with
    | [] => ⟨m, [], none⟩
    | first_message :: _ =>
      ⟨m, [tcp_effect.async_write_some start_byte
            (to_size_t ((first_message.length : Int) - (start_byte : Int)))], none⟩

/-- The completion handler of `async_write_some` in `try_to_send`, with the captured
`start_byte` and `message_length`. -/
def transport.on_write (m : transport) (start_byte message_length : Nat) (error : error_code)
    (bytes_transferred : Nat) : tcp_outcome :=
  if !m.connected then ⟨m, [], none⟩
  else if error ≠ error_code.success then
    let r := m.reconnect
    ⟨r.state, m.notify_disconnected error ++ r.effects, none⟩
  else if message_length ≠ bytes_transferred then
    m.try_to_send (to_size_t ((start_byte : Int) + (bytes_transferred : Int)))
  else
    match m._send_buffer with
    | [] => ⟨m, [], some (tcp_exception.fault failure.memory_fault)⟩
    | front :: rest =>
      let m1 := { m with
        _send_buffer_size := to_size_t ((m._send_buffer_size : Int) - (front.length : Int)),
        _send_buffer := rest }
      if !rest.isEmpty then m1.try_to_send 0 else ⟨m1, [], none⟩

/-- The function `tcp_connection::send` on the whole transport, with the dispatched
`try_to_send` run at once. -/
def transport.send (m : transport) (buffer : List Nat) : tcp_outcome :=
  match m.totcp_connection.send buffer with
  | Except.error what => ⟨m, [], some (tcp_exception.tcp_send_buffer_full what)⟩
  | Except.ok (t, send_now) =>
    let m1 := { m with totcp_connection := t }
    if send_now then m1.try_to_send 0 else ⟨m1, [], none⟩

/-- A completion the event loop delivers to the transport. -/
inductive tcp_event where
  | connect_completion (error : error_code)
  | read_completion (error : error_code) (data : List Nat)
  | write_completion (start_byte message_length : Nat) (error : error_code)
      (bytes_transferred : Nat)
  | retry_timer (error : error_code)
  deriving DecidableEq

/-- A call of the public interface of the transport. -/
inductive tcp_call where
  | connect (ip : List Nat) (port : Nat)
      (connected_callback disconnected_callback read_callback : Option Nat)
      (auto_reconnect : Bool)
  | disconnect
  | reconnect
  | send (buffer : List Nat)
  deriving DecidableEq

/-- The handler an event runs. A retry wait that expires (is not aborted) leaves the timer
with nothing to wait for. -/
def transport.handle (m : transport) : tcp_event → tcp_outcome
  | tcp_event.connect_completion error => m.on_connect error
  | tcp_event.read_completion error data => m.on_read error data
  | tcp_event.write_completion start_byte message_length error bytes_transferred =>
    m.on_write start_byte message_length error bytes_transferred
  | tcp_event.retry_timer error =>
    if error = error_code.operation_aborted then m.on_retry_timer error
    else ({ m with _timer := timer_wait.idle } : transport).on_retry_timer error

/-- The function a call runs. -/
def transport.call (m : transport) : tcp_call → tcp_outcome
  | tcp_call.connect ip port cc dc rc auto_reconnect =>
    m.internal_connect ip port cc dc rc auto_reconnect
  | tcp_call.disconnect => m.disconnect
  | tcp_call.reconnect => m.reconnect
  | tcp_call.send buffer => m.send buffer

/-- One step of a run: a call of the interface or an event. -/
def transport.step (m : transport) : tcp_call ⊕ tcp_event → tcp_outcome
  | Sum.inl c => m.call c
  | Sum.inr e => m.handle e

/-- A run of the transport: the steps one after the other, up to the first exception that
leaves one of them. -/
def transport.run (m : transport) : List (tcp_call ⊕ tcp_event) → tcp_outcome
  | [] => ⟨m, [], none⟩
  | a :: rest =>
    let r := m.step a
    match r.raised with
    | some e => ⟨r.state, r.effects, some e⟩
    | none =>
      let r1 := transport.run r.state rest
      ⟨r1.state, r.effects ++ r1.effects, r1.raised⟩

/-- A run in which only events happen. -/
def transport.run_events (m : transport) (events : List tcp_event) : tcp_outcome :=
  m.run (events.map Sum.inr)

/-- The retry wait expires, when one was started. -/
def transport.retry_expires (m : transport) : tcp_outcome :=
  if m._timer = timer_wait.retry then m.handle (tcp_event.retry_timer error_code.success)
  else ⟨m, [], none⟩

/-- An effect that is a call of one of the three callbacks of the caller. -/
def tcp_effect.notifies : tcp_effect → Bool
  | tcp_effect.connected_callback _ _ => true
  | tcp_effect.disconnected_callback _ _ => true
  | tcp_effect.read_callback _ _ => true
  | _ => false

/-- An effect that starts a connect attempt. -/
def tcp_effect.connects : tcp_effect → Bool
  | tcp_effect.async_connect _ _ => true
  | _ => false

/-- The calls of the disconnected callback among the effects, in order. -/
def loss_notifications : List tcp_effect → List (Nat × error_code)
  | [] => []
  | tcp_effect.disconnected_callback h e :: es => (h, e) :: loss_notifications es
  | _ :: es => loss_notifications es

/-- The invariant of the send queue: the running total is the sum of the sizes of the queued
blobs and does not exceed `SEND_BUFFER_LIMIT`. -/
def send_queue_invariant (t : tcp_connection) : Prop :=
  t._send_buffer_size = (t._send_buffer.map List.length).sum ∧
  t._send_buffer_size ≤ SEND_BUFFER_LIMIT

/-- The state `disconnect()` leaves and every later event keeps: the administrative state
is DISCONNECTED and the three callbacks are empty. -/
def transport.silenced (m : transport) : Prop :=
  m._astate = astate.DISCONNECTED ∧ m._connected_callback = none ∧
  m._disconnected_callback = none ∧ m._read_callback = none

/-- Sample: a transport connected to 127.0.0.1:6379 with the callbacks 1, 2 and 3, the
command `PING` in the send queue and its write in flight. -/
def sending_transport : transport :=
  ((transport.new 16 (List.replicate 16 0)).run
    [Sum.inl (tcp_call.connect (bytes "127.0.0.1") 6379 (some 1) (some 2) (some 3) true),
     Sum.inr (tcp_event.connect_completion error_code.success),
     Sum.inl (tcp_call.send (bytes "PING\r\n"))]).state

/-- Sample: a transport whose connect attempt is under way, with auto-reconnect off. -/
def connecting_once : transport :=
  ((transport.new 16 (List.replicate 16 0)).internal_connect (bytes "127.0.0.1") 6379
    (some 1) (some 2) (some 3) false).state

/-- Sample: a transport whose connect attempt is under way, with auto-reconnect on. -/
def connecting_transport : transport :=
  ((transport.new 16 (List.replicate 16 0)).internal_connect (bytes "127.0.0.1") 6379
    (some 1) (some 2) (some 3) true).state

/-- Sample: a connected transport with auto-reconnect on and no wait pending. -/
def established_transport : transport :=
  (connecting_transport.on_connect error_code.success).state

/-! ## Line parser (`proto/endline.h`), calls of the command connection, field values -/

/-- The function `endline::parser::parse`: the message and the returned count. The loop is
the loop of `skip_to_newline`; `std::string(buffer, size-1)` copies the first `size-1`
bytes. -/
def endline_parse (message : List Nat) (buffer : List Nat) (size : Nat) :
    Except failure (List Nat × Nat) :=
  match skip_to_newline buffer size size 0 with
  | Except.error e => Except.error e
  | Except.ok index =>
    if index ≥ size then Except.ok (message, 0)
    else Except.ok (substring buffer 0 (size - 1), index + 1)

/-- A call of the command connection or of one of the callbacks it gives to the transport;
`transport` stands for a change of state of the transport by an event of its own. -/
inductive redis_call where
  | connect (connected_callback disconnected_callback : Option Nat) (auto_reconnect : Bool)
  | disconnect
  | transport (tcp : tcp_connection)
  | execute (cb : Option callback) (t : List Nat) (ts : List (List Nat))
  | subscribe (channel : List Nat) (s m u : Option Nat)
  | psubscribe (pattern : List Nat) (s m u : Option Nat)
  | unsubscribe (channel : List Nat)
  | punsubscribe (pattern : List Nat)
  | on_read (r : reply)
  | on_connected (error : error_code)
  | on_disconnected (error : error_code)

/-- The state after a call, also when the call leaves with an exception: every `throw` and
every call of an empty `std::function` comes before the changes the function makes.
`connect` stores the two callbacks and starts the transport; `disconnect` stops the
transport and clears them. -/
def redis_connection.apply (c : redis_connection) : redis_call → redis_connection
  | redis_call.connect cc dc auto_reconnect =>
    { c with _connected_callback := cc, _disconnected_callback := dc,
             _tcp := { c._tcp with _astate := astate.CONNECTED, _ostate := ostate.CONNECTING,
                                   _auto_reconnect := auto_reconnect } }
  | redis_call.disconnect =>
    { c with _connected_callback := none, _disconnected_callback := none,
             _tcp := ({ c._tcp with _timer := timer_wait.idle } : tcp_connection).disconnect_end
               true }
  | redis_call.transport tcp => { c with _tcp := tcp }
  | redis_call.execute cb t ts =>
    match c.execute cb t ts with
    | Except.ok (c1, _) => c1
    | Except.error _ => c
  | redis_call.subscribe k s m u => (c.subscribe k s m u).state
  | redis_call.psubscribe k s m u => (c.psubscribe k s m u).state
  | redis_call.unsubscribe k => (c.unsubscribe k).state
  | redis_call.punsubscribe k => (c.punsubscribe k).state
  | redis_call.on_read r =>
    match c.on_read r with
    | Except.ok (c1, _) => c1
    | Except.error _ => c
  | redis_call.on_connected error => (c.on_connected error).1
  | redis_call.on_disconnected error =>
    match c.on_disconnected error with
    | Except.ok (c1, _) => c1
    | Except.error _ => c

/-- The state after a sequence of calls. -/
def redis_connection.run (c : redis_connection) : List redis_call → redis_connection
  | [] => c
  | a :: rest => redis_connection.run (c.apply a) rest

/-- The reply an encoded command parses to: the array of its arguments as strings. -/
def command_reply (args : List (List Nat)) : reply :=
  ⟨reply_type.ARRAY, [], 0, args.map (fun a => ⟨reply_type.STRING, a, 0, []⟩)⟩

/-- The accumulation of the digit loop of `get_integer` over arbitrary bytes: `'\r'` is
skipped, every other byte is taken as a digit. -/
def accumulate_field (acc : Int) (s : List Nat) : Int :=
  s.foldl (fun a d => if d = CR then a
    else wrap_int64 (wrap_int64 (a * 10) + (char_val d - 48))) acc

/-- The value `get_integer` gives a field: a leading `'-'` is the sign, the rest is
accumulated. -/
def field_value (f : List Nat) : Int :=
  match f with
  | [] => 0
  | d :: rest =>
    if d = MINUS then wrap_int64 (accumulate_field 0 rest * (-1)) else accumulate_field 0 (d :: rest)

/-- The messages that `size` valid bytes of `buffer` begin with, each with its byte count:
every entry is what the top-level `parse` returns at the first byte that the entries before
it have not consumed. -/
def delivers (buffer : List Nat) (size : Nat) : List (reply × Nat) → Prop
  | [] => True
  | (m, k) :: rest =>
    parse reply.new buffer size = Except.ok (m, k) ∧ 0 < k ∧ k ≤ size ∧
      delivers (buffer.drop k) (size - k) rest

instance delivers_decidable : ∀ (buffer : List Nat) (size : Nat) (frames : List (reply × Nat)),
    Decidable (delivers buffer size frames)
  | _, _, [] => isTrue trivial
  | buffer, size, (m, k) :: rest =>
    match delivers_decidable (buffer.drop k) (size - k) rest with
    | isTrue h4 =>
      if h1 : parse reply.new buffer size = Except.ok (m, k) then
        if h2 : 0 < k then
          if h3 : k ≤ size then isTrue ⟨h1, h2, h3, h4⟩
          else isFalse (fun h => h3 h.2.2.1)
        else isFalse (fun h => h2 h.2.1)
      else isFalse (fun h => h1 h.1)
    | isFalse h4 => isFalse (fun h => h4 h.2.2.2)

/-- A parser of capacity 12 whose buffer has received `+A\r\n+B\r\n+C`: two messages and
the beginning of a third, not yet announced by `on_read`. -/
def two_and_a_half : parser_base := ⟨12, 0, bytes "+A\r\n+B\r\n+C" ++ [0, 0], reply.new⟩

/-- A write in flight: the `start_byte` and `message_length` its completion handler has
captured, and the bytes of `boost::asio::buffer(&first_message[start_byte], message_length)`
that `async_write_some` was given. -/
structure pending_write where
  start_byte : Nat
  message_length : Nat
  offered : List Nat
  deriving DecidableEq

/-- The write that the effects of a call or handler start, if one is started; `queue` is the
send queue the call leaves, whose front the write refers to. -/
def started_write (queue : List (List Nat)) : List tcp_effect → Option pending_write
  | [] => none
  | tcp_effect.async_write_some start_byte message_length :: es =>
    match started_write queue es with
    | some p => some p
    | none => some ⟨start_byte, message_length,
        ((queue.headD []).drop start_byte).take message_length⟩
  | _ :: es => started_write queue es

/-- The transport together with its socket on the write side: the write in flight and the
bytes the socket has taken so far, in order. -/
structure write_path where
  link : transport
  in_flight : Option pending_write
  written : List Nat
  deriving DecidableEq

/-- What happens on the write side of a connected transport: a call of `send`, or the
completion of the write in flight with `bytes_transferred` bytes taken and no error. -/
inductive write_step where
  | send (buffer : List Nat)
  | completion (bytes_transferred : Nat)
  deriving DecidableEq

/-- One step of the write side. A call of `send` runs `tcp_connection::send`; the write it
starts, if any, is the one in flight from then on. A completion hands the first
`bytes_transferred` bytes of the offered buffer to the socket and runs the completion handler
with the captured `start_byte` and `message_length`. -/
def write_path.step (w : write_path) : write_step → write_path
  | write_step.send buffer =>
    let r := w.link.send buffer
    match started_write r.state._send_buffer r.effects with
    | some p => ⟨r.state, some p, w.written⟩
    | none => ⟨r.state, w.in_flight, w.written⟩
  | write_step.completion bytes_transferred =>
    match w.in_flight with
    | none => w
    | some p =>
      let r := w.link.on_write p.start_byte p.message_length error_code.success
        bytes_transferred
      ⟨r.state, started_write r.state._send_buffer r.effects,
        w.written ++ p.offered.take bytes_transferred⟩

/-- The steps one after the other. -/
def write_path.run (w : write_path) : List write_step → write_path
  | [] => w
  | a :: rest => write_path.run (w.step a) rest

/-- The completion of the write in flight can transfer `bytes_transferred` bytes: a write is
in flight and it offers at least as many. -/
def write_path.offers (w : write_path) (bytes_transferred : Nat) : Prop :=
  match w.in_flight with
  | some p => bytes_transferred ≤ p.message_length
  | none => False

instance write_path.offers_decidable (w : write_path) (bytes_transferred : Nat) :
    Decidable (w.offers bytes_transferred) :=
  match h : w.in_flight with
  | some p =>
    if hk : bytes_transferred ≤ p.message_length then
      isTrue (by unfold write_path.offers; rw [h]; exact hk)
    else isFalse (by unfold write_path.offers; rw [h]; exact hk)
  | none => isFalse (by unfold write_path.offers; rw [h]; exact id)

/-- The steps that can happen one after the other from `w`: every `send` is accepted (it
does not throw), and every completion is that of a write in flight and transfers at most the
`message_length` bytes offered. -/
def write_path.admits (w : write_path) : List write_step → Prop
  | [] => True
  | write_step.send buffer :: rest =>
    (w.link.send buffer).raised = none ∧
      write_path.admits (w.step (write_step.send buffer)) rest
  | write_step.completion bytes_transferred :: rest =>
    w.offers bytes_transferred ∧
      write_path.admits (w.step (write_step.completion bytes_transferred)) rest

instance write_path.admits_decidable : ∀ (steps : List write_step) (w : write_path),
    Decidable (w.admits steps)
  | [], _ => isTrue trivial
  | write_step.send buffer :: rest, w =>
    match write_path.admits_decidable rest (w.step (write_step.send buffer)) with
    | isTrue h2 =>
      if h1 : (w.link.send buffer).raised = none then isTrue ⟨h1, h2⟩
      else isFalse (fun h => h1 h.1)
    | isFalse h2 => isFalse (fun h => h2 h.2)
  | write_step.completion bytes_transferred :: rest, w =>
    match write_path.admits_decidable rest (w.step (write_step.completion bytes_transferred)) with
    | isTrue h2 =>
      if h1 : w.offers bytes_transferred then isTrue ⟨h1, h2⟩
      else isFalse (fun h => h1 h.1)
    | isFalse h2 => isFalse (fun h => h2 h.2)

/-- The blobs passed to `send` among the steps, in order. -/
def sent_blobs : List write_step → List (List Nat)
  | [] => []
  | write_step.send buffer :: rest => buffer :: sent_blobs rest
  | write_step.completion _ :: rest => sent_blobs rest

/-- The relation between the accepted blobs `sent`, the send queue, the write in flight and
the bytes written: the queue holds the blobs not yet written to their last byte, in order
(`done` are the others); no write is in flight exactly when the queue is empty; the write in
flight offers the front from `start_byte` to its end; and the bytes written are the blobs
before the front followed by the first `start_byte` bytes of the front. -/
def write_invariant (w : write_path) (sent : List (List Nat)) : Prop :=
  w.link.connected = true ∧
  (∀ b ∈ w.link._send_buffer, b.length ≤ SEND_BUFFER_LIMIT) ∧
  ∃ done : List (List Nat),
    sent = done ++ w.link._send_buffer ∧
    (w.link._send_buffer = [] → w.in_flight = none ∧ w.written = done.flatten) ∧
    (∀ front rest, w.link._send_buffer = front :: rest →
      ∃ s, w.in_flight = some ⟨s, front.length - s, front.drop s⟩ ∧
        s ≤ front.length ∧ (front ≠ [] → s < front.length) ∧
        w.written = done.flatten ++ front.take s)

/-- The steps of the witness of C36: `PING` and `GET` are sent, then the socket takes 4, 2
and 3 bytes. -/
def sample_steps : List write_step :=
  [write_step.send (bytes "PING\r\n"), write_step.send (bytes "GET\r\n"),
   write_step.completion 4, write_step.completion 2, write_step.completion 3]

/-! # Part 2: theorems -/

/-! ## Lemmas: Decimal text -/

theorem digits_val_append (ds : List Nat) (d : Nat) :
    digits_val (ds ++ [d]) = digits_val ds * 10 + (d - 48) := by
  simp [digits_val, List.foldl_append]

theorem to_string_digits_spec : ∀ (fuel n : Nat) (acc : List Nat), n < fuel →
    ∃ ds, to_string_digits fuel n acc = ds ++ acc ∧ all_digits ds ∧ digits_val ds = n ∧ ds ≠ [] := by
  intro fuel
  induction fuel with
  | zero => intro n acc h; omega
  | succ fuel ih =>
    intro n acc h
    unfold to_string_digits
    by_cases h10 : n < 10
    · refine ⟨[48 + n], ?_, ?_, ?_, ?_⟩
      · simp [h10]
      · intro d hd
        simp at hd
        omega
      · simp [digits_val]
      · simp
    · obtain ⟨ds, h1, h2, h3, h4⟩ := ih (n / 10) ((48 + n % 10) :: acc) (by omega)
      refine ⟨ds ++ [48 + n % 10], ?_, ?_, ?_, ?_⟩
      · simp [h10, h1]
      · intro d hd
        rcases List.mem_append.mp hd with hd | hd
        · exact h2 d hd
        · simp at hd
          omega
      · rw [digits_val_append, h3]
        omega
      · simp

theorem to_string_spec (n : Nat) :
    all_digits (to_string n) ∧ digits_val (to_string n) = n ∧ to_string n ≠ [] := by
  obtain ⟨ds, h1, h2, h3, h4⟩ := to_string_digits_spec (n + 1) n [] (by omega)
  have : to_string n = ds := by simp [to_string, h1]
  rw [this]
  exact ⟨h2, h3, h4⟩

/-! ## Lemmas: Machine arithmetic -/

theorem wrap_int64_of_range (x : Int) (h1 : -2 ^ 63 ≤ x) (h2 : x < 2 ^ 63) : wrap_int64 x = x := by
  unfold wrap_int64
  omega

theorem wrap_int64_step (a v e : Int) (h : a = wrap_int64 v) :
    wrap_int64 (wrap_int64 (a * 10) + e) = wrap_int64 (v * 10 + e) := by
  subst h
  unfold wrap_int64
  omega

theorem wrap_int64_neg (v : Int) : wrap_int64 (wrap_int64 v * (-1)) = wrap_int64 (-v) := by
  unfold wrap_int64
  omega

/-! ## Lemmas: Reading a buffer -/

theorem rd_append (pre rest : List Nat) (x : Nat) :
    rd (pre ++ x :: rest) pre.length = Except.ok x := by
  unfold rd
  rw [List.getElem?_append_right (le_refl _)]
  simp

theorem rd_append_add (pre mid rest : List Nat) (x : Nat) :
    rd (pre ++ (mid ++ x :: rest)) (pre.length + mid.length) = Except.ok x := by
  have := rd_append (pre ++ mid) rest x
  simpa [List.append_assoc] using this

theorem rd_of_lt (buffer : List Nat) (i : Nat) (h : i < buffer.length) :
    rd buffer i = Except.ok buffer[i] := by
  simp [rd, h]

theorem skip_to_newline_spec : ∀ (s pre rest : List Nat) (size fuel : Nat),
    LF ∉ s → pre.length + s.length < size → s.length < fuel →
    skip_to_newline (pre ++ (s ++ LF :: rest)) size fuel pre.length
      = Except.ok (pre.length + s.length) := by
  intro s
  induction s with
  | nil =>
    intro pre rest size fuel _ hsize hfuel
    obtain ⟨fuel, rfl⟩ : ∃ k, fuel = k + 1 := ⟨fuel - 1, by simp at hfuel; omega⟩
    simp at hsize
    simp [skip_to_newline, hsize, rd_append]
  | cons c s ih =>
    intro pre rest size fuel hs hsize hfuel
    obtain ⟨fuel, rfl⟩ : ∃ k, fuel = k + 1 := ⟨fuel - 1, by simp at hfuel; omega⟩
    have hc : c ≠ LF := fun h => hs (by simp [h])
    have hs1 : LF ∉ s := fun h => hs (by simp [h])
    simp only [List.length_cons] at hsize hfuel
    have h1 : pre.length < size := by omega
    have := ih (pre ++ [c]) rest size fuel hs1 (by simp; omega) (by omega)
    simp only [List.append_assoc, List.singleton_append, List.length_append, List.length_singleton] at this
    simp only [skip_to_newline, h1, if_true, List.cons_append, rd_append, hc, ne_eq, not_false_eq_true, List.length_cons]
    rw [this]
    congr 1
    omega

theorem get_integer_loop_spec : ∀ (ds pre rest : List Nat) (size fuel : Nat) (acc : Int),
    all_digits ds → pre.length + ds.length + 1 < size → ds.length + 2 ≤ fuel →
    get_integer_loop (pre ++ (ds ++ CR :: LF :: rest)) size fuel acc pre.length
      = Except.ok (accumulate acc ds, pre.length + ds.length + 1) := by
  intro ds
  induction ds with
  | nil =>
    intro pre rest size fuel acc _ hsize hfuel
    obtain ⟨fuel, rfl⟩ : ∃ k, fuel = k + 2 := ⟨fuel - 2, by simp at hfuel; omega⟩
    simp at hsize
    have h1 : pre.length < size := by omega
    have h2 : pre.length + 1 < size := by omega
    have hr := rd_append (pre ++ [CR]) rest LF
    simp only [List.append_assoc, List.singleton_append, List.length_append, List.length_singleton] at hr
    simp [get_integer_loop, h1, h2, rd_append, hr, accumulate]
  | cons d ds ih =>
    intro pre rest size fuel acc hd hsize hfuel
    obtain ⟨fuel, rfl⟩ : ∃ k, fuel = k + 1 := ⟨fuel - 1, by simp at hfuel; omega⟩
    have hd0 := hd d (by simp)
    have hd1 : all_digits ds := fun x hx => hd x (by simp [hx])
    simp only [List.length_cons] at hsize hfuel
    have h1 : pre.length < size := by omega
    have hLF : d ≠ LF := by simp [LF]; omega
    have hCR : d ≠ CR := by simp [CR]; omega
    have := ih (pre ++ [d]) rest size fuel
      (wrap_int64 (wrap_int64 (acc * 10) + (char_val d - 48))) hd1 (by simp; omega) (by omega)
    simp only [List.append_assoc, List.singleton_append, List.length_append, List.length_singleton] at this
    simp only [get_integer_loop, h1, if_true, List.cons_append, rd_append, hLF, hCR, ne_eq, not_false_eq_true, List.length_cons]
    rw [this]
    simp only [accumulate, List.foldl_cons]
    congr 2
    omega

theorem accumulate_digits : ∀ (ds : List Nat) (acc : Int) (v : Nat),
    all_digits ds → acc = wrap_int64 v →
    accumulate acc ds = wrap_int64 ((ds.foldl (fun a d => a * 10 + (d - 48)) v : Nat) : Int) := by
  intro ds
  induction ds with
  | nil => intro acc v _ h; simpa [accumulate] using h
  | cons d ds ih =>
    intro acc v hd h
    have hd0 := hd d (by simp)
    have hd1 : all_digits ds := fun x hx => hd x (by simp [hx])
    simp only [accumulate, List.foldl_cons]
    have hc : char_val d - 48 = ((d - 48 : Nat) : Int) := by
      unfold char_val
      split <;> omega
    have := ih (wrap_int64 (wrap_int64 (acc * 10) + (char_val d - 48))) (v * 10 + (d - 48)) hd1
      (by rw [wrap_int64_step acc v _ h, hc]; push_cast; rfl)
    simpa [accumulate] using this

theorem accumulate_to_string (n : Nat) : accumulate 0 (to_string n) = wrap_int64 n := by
  obtain ⟨h1, h2, _⟩ := to_string_spec n
  have := accumulate_digits (to_string n) 0 0 h1 (by simp [wrap_int64])
  rw [this]
  simp only [digits_val] at h2
  rw [h2]

theorem rd_at (buffer pre rest : List Nat) (x i : Nat) (hb : buffer = pre ++ x :: rest)
    (hi : i = pre.length) : rd buffer i = Except.ok x := by
  subst hb hi
  exact rd_append pre rest x

theorem get_integer_nonneg (n : Nat) (pre rest : List Nat) (c size : Nat)
    (hn : n < 2 ^ 63) (hsize : pre.length + 1 + (to_string n).length + 2 ≤ size) :
    get_integer (pre ++ (c :: (to_string n ++ CR :: LF :: rest))) size pre.length
      = Except.ok ((n : Int), pre.length + 1 + (to_string n).length + 2) := by
  obtain ⟨hd, _, hne⟩ := to_string_spec n
  obtain ⟨d, ds, hds⟩ := List.exists_cons_of_ne_nil hne
  have hlen : (to_string n).length = ds.length + 1 := by simp [hds]
  have hd0 := hd d (by simp [hds])
  have hloop := get_integer_loop_spec (to_string n) (pre ++ [c]) rest size (size - (pre.length + 1)) 0
    hd (by simp; omega) (by omega)
  simp only [List.append_assoc, List.singleton_append, List.length_append, List.length_singleton] at hloop
  have hr1 : rd (pre ++ (c :: (to_string n ++ CR :: LF :: rest))) (pre.length + 1) = Except.ok d := by
    have := rd_append (pre ++ [c]) (ds ++ CR :: LF :: rest) d
    simpa [hds, List.append_assoc] using this
  have hr2 : rd (pre ++ (c :: (to_string n ++ CR :: LF :: rest))) (pre.length + 1 + (to_string n).length)
      = Except.ok CR := by
    exact rd_at _ (pre ++ c :: to_string n) (LF :: rest) CR _ (by simp) (by simp; omega)
  have hminus : d ≠ MINUS := by simp [MINUS]; omega
  have h4 : ¬ (size - pre.length < 4) := by omega
  have hlt : ¬ (size ≤ pre.length + 1 + (to_string n).length + 1) := by omega
  unfold get_integer
  simp only [h4, if_false, hr1, hminus, decide_False, Bool.false_eq_true, hloop, ge_iff_le, hlt,
    Nat.add_sub_cancel, hr2, ne_eq, not_true_eq_false, accumulate_to_string]
  rw [wrap_int64_of_range _ (by omega) (by omega)]

theorem get_integer_neg (n : Nat) (pre rest : List Nat) (c size : Nat)
    (hsize : pre.length + 2 + (to_string n).length + 2 ≤ size) :
    get_integer (pre ++ (c :: MINUS :: (to_string n ++ CR :: LF :: rest))) size pre.length
      = Except.ok (wrap_int64 (-(n : Int)), pre.length + 2 + (to_string n).length + 2) := by
  obtain ⟨hd, _, hne⟩ := to_string_spec n
  have hloop := get_integer_loop_spec (to_string n) (pre ++ [c, MINUS]) rest size
    (size - (pre.length + 2)) 0 hd (by simp; omega) (by omega)
  simp only [List.append_assoc, List.cons_append, List.nil_append, List.length_append,
    List.length_cons, List.length_nil] at hloop
  have hr1 : rd (pre ++ (c :: MINUS :: (to_string n ++ CR :: LF :: rest))) (pre.length + 1)
      = Except.ok MINUS := by
    have := rd_append (pre ++ [c]) (to_string n ++ CR :: LF :: rest) MINUS
    simpa [List.append_assoc] using this
  have hr2 : rd (pre ++ (c :: MINUS :: (to_string n ++ CR :: LF :: rest)))
      (pre.length + 2 + (to_string n).length) = Except.ok CR := by
    exact rd_at _ (pre ++ c :: MINUS :: to_string n) (LF :: rest) CR _ (by simp) (by simp; omega)
  have h4 : ¬ (size - pre.length < 4) := by omega
  have hlt : ¬ (size ≤ pre.length + 2 + (to_string n).length + 1) := by omega
  unfold get_integer
  simp only [h4, if_false, hr1, decide_True, if_true, hloop, ge_iff_le, hlt,
    Nat.add_sub_cancel, hr2, ne_eq, not_true_eq_false, accumulate_to_string, wrap_int64_neg]

theorem get_integer_text (n : Int) (pre rest : List Nat) (c size : Nat)
    (h1 : -2 ^ 63 ≤ n) (h2 : n < 2 ^ 63)
    (hsize : pre.length + 1 + (int_to_string n).length + 2 ≤ size) :
    get_integer (pre ++ (c :: (int_to_string n ++ CR :: LF :: rest))) size pre.length
      = Except.ok (n, pre.length + 1 + (int_to_string n).length + 2) := by
  by_cases hneg : n < 0
  · have ht : int_to_string n = MINUS :: to_string n.natAbs := by simp [int_to_string, hneg]
    rw [ht] at hsize ⊢
    simp only [List.length_cons] at hsize
    have := get_integer_neg n.natAbs pre rest c size (by omega)
    simp only [List.cons_append, List.length_cons]
    rw [this, wrap_int64_of_range _ (by omega) (by omega)]
    congr 2
    · omega
    · omega
  · have ht : int_to_string n = to_string n.natAbs := by simp [int_to_string, hneg]
    rw [ht] at hsize ⊢
    have := get_integer_nonneg n.natAbs pre rest c size (by omega) hsize
    rw [this]
    congr 2
    omega

theorem substring_at (buffer pre s rest : List Nat) (i k : Nat) (hb : buffer = pre ++ (s ++ rest))
    (hi : i = pre.length) (hk : k = s.length) : substring buffer i k = s := by
  subst hb hi hk
  simp [substring]

theorem parse_simple_string_spec (r : reply) (buffer pre s rest : List Nat) (c size : Nat)
    (hb : buffer = pre ++ (c :: (s ++ CR :: LF :: rest)))
    (hc : c ≠ LF) (hs : LF ∉ s) (hsize : pre.length + s.length + 3 ≤ size) :
    parse_simple_string r buffer size pre.length
      = Except.ok ({ r with type := reply_type.STRING, str := s }, pre.length + s.length + 3) := by
  have hskip : skip_to_newline buffer size (size - pre.length) pre.length
      = Except.ok (pre.length + s.length + 2) := by
    have h := skip_to_newline_spec (c :: (s ++ [CR])) pre rest size (size - pre.length)
      (by simp [Ne.symm hc, hs]) (by simp; omega) (by simp; omega)
    have hb1 : buffer = pre ++ (c :: (s ++ [CR]) ++ LF :: rest) := by simp [hb]
    rw [hb1, h]
    congr 1
    simp
    omega
  have hr : rd buffer (pre.length + s.length + 2 - 1) = Except.ok CR :=
    rd_at _ (pre ++ c :: s) (LF :: rest) CR _ (by simp [hb]) (by simp; omega)
  have h3 : ¬ (size - pre.length < 3) := by omega
  have hlt : ¬ (size ≤ pre.length + s.length + 2) := by omega
  have hsub : substring buffer (pre.length + 1) (pre.length + s.length + 2 - 2 - pre.length) = s :=
    substring_at _ (pre ++ [c]) s (CR :: LF :: rest) _ _ (by simp [hb]) (by simp) (by omega)
  unfold parse_simple_string
  simp only [h3, if_false, hskip, ge_iff_le, hlt, hr, ne_eq, not_true_eq_false, hsub]

theorem parse_integer_spec (r : reply) (buffer pre rest : List Nat) (n : Int) (c size : Nat)
    (hb : buffer = pre ++ (c :: (int_to_string n ++ CR :: LF :: rest)))
    (h1 : -2 ^ 63 ≤ n) (h2 : n < 2 ^ 63)
    (hsize : pre.length + 1 + (int_to_string n).length + 2 ≤ size) :
    parse_integer r buffer size pre.length
      = Except.ok ({ r with type := reply_type.INTEGER, integer := n },
          pre.length + 1 + (int_to_string n).length + 2) := by
  subst hb
  unfold parse_integer
  rw [get_integer_text n pre rest c size h1 h2 hsize]
  simp

theorem parse_bulk_string_spec (r : reply) (buffer pre s rest : List Nat) (c size : Nat)
    (hb : buffer = pre ++ (c :: (to_string s.length ++ CR :: LF :: (s ++ CR :: LF :: rest))))
    (hsize : pre.length + 1 + (to_string s.length).length + 2 + s.length + 2 ≤ size)
    (hbound : size < 2 ^ 63) :
    parse_bulk_string r buffer size pre.length
      = Except.ok ({ r with type := reply_type.STRING, str := s },
          pre.length + 1 + (to_string s.length).length + 2 + s.length + 2) := by
  have hint := get_integer_nonneg s.length pre (s ++ CR :: LF :: rest) c size (by omega) (by omega)
  rw [← hb] at hint
  have hts : to_size_t (s.length : Int) = s.length := by
    unfold to_size_t
    omega
  have hra : rd buffer (pre.length + 1 + (to_string s.length).length + 2 + s.length) = Except.ok CR :=
    rd_at _ (pre ++ c :: (to_string s.length ++ CR :: LF :: s)) (LF :: rest) CR _ (by simp [hb])
      (by simp; omega)
  have hrb : rd buffer (pre.length + 1 + (to_string s.length).length + 2 + s.length + 1) = Except.ok LF :=
    rd_at _ (pre ++ c :: (to_string s.length ++ CR :: LF :: (s ++ [CR]))) rest LF _ (by simp [hb])
      (by simp; omega)
  have hsub : substring buffer (pre.length + 1 + (to_string s.length).length + 2) s.length = s :=
    substring_at _ (pre ++ c :: (to_string s.length ++ [CR, LF])) s (CR :: LF :: rest) _ _
      (by simp [hb]) (by simp; omega) rfl
  have hne : ((s.length : Int) = -1) = False := eq_false (by omega)
  have hnn : ¬ ((s.length : Int) < 0) := by omega
  have hm0 : (pre.length + 1 + (to_string s.length).length + 2 + s.length) % 2 ^ 64
      = pre.length + 1 + (to_string s.length).length + 2 + s.length := Nat.mod_eq_of_lt (by omega)
  have hm1 : (pre.length + 1 + (to_string s.length).length + 2 + s.length + 1) % 2 ^ 64
      = pre.length + 1 + (to_string s.length).length + 2 + s.length + 1 := Nat.mod_eq_of_lt (by omega)
  have hm2 : (pre.length + 1 + (to_string s.length).length + 2 + s.length + 2) % 2 ^ 64
      = pre.length + 1 + (to_string s.length).length + 2 + s.length + 2 := Nat.mod_eq_of_lt (by omega)
  have hgt : ¬ (pre.length + 1 + (to_string s.length).length + 2 + s.length + 2 > size) := by omega
  unfold parse_bulk_string
  simp only [hint, hts, hne, if_false, hm0, hm1, hm2, hgt, hra, hrb, hsub, hnn, ne_eq,
    not_true_eq_false, Nat.add_eq_zero, and_false, false_and, OfNat.ofNat_ne_zero]

/-! ## Lemmas: Wire forms of replies -/

theorem resp_encode_pos (r : reply) (h : r.canonical) : 0 < (resp_encode r).length := by
  obtain ⟨t, s, n, es⟩ := r
  cases t <;>
    simp [resp_encode, reply.canonical, integer_encoding, bulk_string_encoding, error_encoding,
      nil_bulk_string] at h ⊢

theorem length_le_resp_encode_list : ∀ (es : List reply), reply.canonical_list es →
    es.length ≤ (resp_encode_list es).length := by
  intro es
  induction es with
  | nil => intro _; simp
  | cons e es ih =>
    intro h
    simp only [reply.canonical_list] at h
    have h1 := resp_encode_pos e h.1
    have h2 := ih h.2
    simp only [resp_encode_list, List.length_cons, List.length_append]
    omega

theorem parse_nil_bulk_string (r : reply) (buffer pre rest : List Nat) (size : Nat)
    (hb : buffer = pre ++ (nil_bulk_string ++ rest)) (hsize : pre.length + 5 ≤ size) :
    parse_bulk_string r buffer size pre.length
      = Except.ok ({ r with type := reply_type.NIL }, pre.length + 5) := by
  have h := get_integer_text (-1) pre rest DOLLAR size (by omega) (by omega)
    (by simp [int_to_string, to_string, to_string_digits]; omega)
  have hb1 : buffer = pre ++ DOLLAR :: (int_to_string (-1) ++ CR :: LF :: rest) := by
    simp [hb, nil_bulk_string, int_to_string, to_string, to_string_digits]
  rw [← hb1] at h
  unfold parse_bulk_string
  rw [h]
  simp [int_to_string, to_string, to_string_digits]

theorem parse_index_succ (buffer : List Nat) (size fuel : Nat) (r : reply) (index : Nat) :
    parse_index buffer size (fuel + 1) r index =
      match rd buffer index with
      | Except.error e => Except.error e
      | Except.ok c =>
        if c = PLUS then parse_simple_string r buffer size index
        else if c = MINUS then parse_error_string r buffer size index
        else if c = COLON then parse_integer r buffer size index
        else if c = DOLLAR then parse_bulk_string r buffer size index
        else if c = STAR then parse_array buffer size fuel r index
        else Except.error failure.parse_error := by
  rw [parse_index]

theorem parse_array_succ (buffer : List Nat) (size fuel : Nat) (r : reply) (index : Nat) :
    parse_array buffer size (fuel + 1) r index =
      match get_integer buffer size index with
      | Except.error e => Except.error e
      | Except.ok (integer, index1) =>
        if index1 = 0 then Except.ok (r, 0)
        else if integer = -1 then Except.ok ({ r with type := reply_type.NIL }, index1)
        else if to_size_t integer > vector_max_size then Except.error failure.length_error
        else parse_array_loop buffer size fuel integer 0 { r with type := reply_type.ARRAY } index1 := by
  rw [parse_array]

theorem parse_array_loop_succ (buffer : List Nat) (size fuel : Nat) (integer : Int) (i : Nat)
    (r : reply) (index : Nat) :
    parse_array_loop buffer size (fuel + 1) integer i r index =
      if (i : Int) < integer then
        match (r.elements ++ [reply.new])[i]? with
        | none => Except.error failure.memory_fault
        | some e =>
          match parse_index buffer size fuel e index with
          | Except.error err => Except.error err
          | Except.ok (e1, index1) =>
            if index1 = 0 then
              Except.ok ({ r with elements := (r.elements ++ [reply.new]).set i e1 }, 0)
            else parse_array_loop buffer size fuel integer ((i + 1) % 2 ^ 32)
              { r with elements := (r.elements ++ [reply.new]).set i e1 } index1
      else Except.ok (r, index) := by
  rw [parse_array_loop]

theorem parse_index_integer (buffer pre rest : List Nat) (n : Int) (size fuel : Nat)
    (hb : buffer = pre ++ (integer_encoding n ++ rest))
    (h1 : -2 ^ 63 ≤ n) (h2 : n < 2 ^ 63) (hsize : pre.length + (integer_encoding n).length ≤ size) :
    parse_index buffer size (fuel + 1) reply.new pre.length
      = Except.ok (⟨reply_type.INTEGER, [], n, []⟩, pre.length + (integer_encoding n).length) := by
  have hb1 : buffer = pre ++ (COLON :: (int_to_string n ++ CR :: LF :: rest)) := by
    simp [hb, integer_encoding]
  have hlen : (integer_encoding n).length = 1 + (int_to_string n).length + 2 := by
    simp [integer_encoding]; omega
  rw [parse_index_succ, rd_at buffer pre _ COLON _ hb1 rfl]
  dsimp only
  rw [if_neg (by decide), if_neg (by decide), if_pos rfl]
  rw [parse_integer_spec reply.new buffer pre rest n COLON size hb1 h1 h2 (by omega), hlen]
  simp [reply.new, Nat.add_assoc]

theorem parse_index_bulk_string (buffer pre s rest : List Nat) (size fuel : Nat)
    (hb : buffer = pre ++ (bulk_string_encoding s ++ rest))
    (hsize : pre.length + (bulk_string_encoding s).length ≤ size) (hbound : size < 2 ^ 63) :
    parse_index buffer size (fuel + 1) reply.new pre.length
      = Except.ok (⟨reply_type.STRING, s, 0, []⟩, pre.length + (bulk_string_encoding s).length) := by
  have hb1 : buffer = pre ++ (DOLLAR :: (to_string s.length ++ CR :: LF :: (s ++ CR :: LF :: rest))) := by
    simp [hb, bulk_string_encoding]
  have hlen : (bulk_string_encoding s).length = 1 + (to_string s.length).length + 2 + s.length + 2 := by
    simp [bulk_string_encoding]; omega
  rw [parse_index_succ, rd_at buffer pre _ DOLLAR _ hb1 rfl]
  dsimp only
  rw [if_neg (by decide), if_neg (by decide), if_neg (by decide), if_pos rfl]
  rw [parse_bulk_string_spec reply.new buffer pre s rest DOLLAR size hb1 (by omega) hbound, hlen]
  simp [reply.new, Nat.add_assoc]

theorem parse_index_nil_bulk_string (buffer pre rest : List Nat) (size fuel : Nat)
    (hb : buffer = pre ++ (nil_bulk_string ++ rest)) (hsize : pre.length + 5 ≤ size) :
    parse_index buffer size (fuel + 1) reply.new pre.length
      = Except.ok (⟨reply_type.NIL, [], 0, []⟩, pre.length + 5) := by
  have hb1 : buffer = pre ++ (DOLLAR :: ([MINUS, 49, CR, LF] ++ rest)) := by
    simp [hb, nil_bulk_string]
  rw [parse_index_succ, rd_at buffer pre _ DOLLAR _ hb1 rfl]
  dsimp only
  rw [if_neg (by decide), if_neg (by decide), if_neg (by decide), if_pos rfl]
  rw [parse_nil_bulk_string reply.new buffer pre rest size hb hsize]
  simp [reply.new]

theorem parse_index_simple_string (buffer pre s rest : List Nat) (size fuel : Nat)
    (hb : buffer = pre ++ (simple_string_encoding s ++ rest))
    (hs : LF ∉ s) (hsize : pre.length + s.length + 3 ≤ size) :
    parse_index buffer size (fuel + 1) reply.new pre.length
      = Except.ok (⟨reply_type.STRING, s, 0, []⟩, pre.length + s.length + 3) := by
  have hb1 : buffer = pre ++ (PLUS :: (s ++ CR :: LF :: rest)) := by
    simp [hb, simple_string_encoding]
  rw [parse_index_succ, rd_at buffer pre _ PLUS _ hb1 rfl]
  simp only [if_true]
  rw [parse_simple_string_spec reply.new buffer pre s rest PLUS size hb1 (by decide) hs hsize]
  simp [reply.new]

theorem parse_index_error (buffer pre s rest : List Nat) (size fuel : Nat)
    (hb : buffer = pre ++ (error_encoding s ++ rest))
    (hs : LF ∉ s) (hsize : pre.length + s.length + 3 ≤ size) :
    parse_index buffer size (fuel + 1) reply.new pre.length
      = Except.ok (⟨reply_type.ERROR, s, 0, []⟩, pre.length + s.length + 3) := by
  have hb1 : buffer = pre ++ (MINUS :: (s ++ CR :: LF :: rest)) := by
    simp [hb, error_encoding]
  rw [parse_index_succ, rd_at buffer pre _ MINUS _ hb1 rfl]
  dsimp only
  rw [if_neg (by decide), if_pos rfl]
  unfold parse_error_string
  rw [parse_simple_string_spec reply.new buffer pre s rest MINUS size hb1 (by decide) hs hsize]
  simp [reply.new]

theorem to_size_t_of_nat (n : Nat) (h : n < 2 ^ 64) : to_size_t (n : Int) = n := by
  unfold to_size_t
  omega

mutual
theorem parse_index_resp_encode : ∀ (r : reply) (fuel size : Nat) (buffer pre rest : List Nat),
    r.canonical → buffer = pre ++ (resp_encode r ++ rest) → (resp_encode r).length ≤ fuel →
    pre.length + (resp_encode r).length ≤ size → size < 2 ^ 32 →
    parse_index buffer size fuel reply.new pre.length
      = Except.ok (r, pre.length + (resp_encode r).length)
  | ⟨reply_type.INVALID, s, n, es⟩, fuel, size, buffer, pre, rest, hc, hb, hf, hs, hlt => by
    simp [reply.canonical] at hc
  | ⟨reply_type.INTEGER, s, n, es⟩, fuel, size, buffer, pre, rest, hc, hb, hf, hs, hlt => by
    simp only [reply.canonical] at hc
    obtain ⟨rfl, rfl, h1, h2⟩ := hc
    simp only [resp_encode] at hb hf hs ⊢
    obtain ⟨fuel, rfl⟩ : ∃ k, fuel = k + 1 := ⟨fuel - 1, by simp [integer_encoding] at hf; omega⟩
    exact parse_index_integer buffer pre rest n size fuel hb h1 h2 hs
  | ⟨reply_type.STRING, s, n, es⟩, fuel, size, buffer, pre, rest, hc, hb, hf, hs, hlt => by
    simp only [reply.canonical] at hc
    obtain ⟨rfl, rfl⟩ := hc
    simp only [resp_encode] at hb hf hs ⊢
    obtain ⟨fuel, rfl⟩ : ∃ k, fuel = k + 1 := ⟨fuel - 1, by simp [bulk_string_encoding] at hf; omega⟩
    exact parse_index_bulk_string buffer pre s rest size fuel hb hs (by omega)
  | ⟨reply_type.ERROR, s, n, es⟩, fuel, size, buffer, pre, rest, hc, hb, hf, hs, hlt => by
    simp only [reply.canonical] at hc
    obtain ⟨rfl, rfl, _, hLF⟩ := hc
    simp only [resp_encode] at hb hf hs ⊢
    have hlen : (error_encoding s).length = s.length + 3 := by simp [error_encoding]
    obtain ⟨fuel, rfl⟩ : ∃ k, fuel = k + 1 := ⟨fuel - 1, by omega⟩
    rw [hlen] at hs ⊢
    exact parse_index_error buffer pre s rest size fuel hb hLF (by omega)
  | ⟨reply_type.NIL, s, n, es⟩, fuel, size, buffer, pre, rest, hc, hb, hf, hs, hlt => by
    simp only [reply.canonical] at hc
    obtain ⟨rfl, rfl, rfl⟩ := hc
    simp only [resp_encode] at hb hf hs ⊢
    have hlen : nil_bulk_string.length = 5 := rfl
    obtain ⟨fuel, rfl⟩ : ∃ k, fuel = k + 1 := ⟨fuel - 1, by omega⟩
    rw [hlen] at hs ⊢
    exact parse_index_nil_bulk_string buffer pre rest size fuel hb hs
  | ⟨reply_type.ARRAY, s, n, es⟩, fuel, size, buffer, pre, rest, hc, hb, hf, hs, hlt => by
    simp only [reply.canonical] at hc
    obtain ⟨rfl, rfl, hes⟩ := hc
    simp only [resp_encode] at hb hf hs ⊢
    have hlen : (STAR :: (to_string es.length ++ CR :: LF :: resp_encode_list es)).length
        = 1 + (to_string es.length).length + 2 + (resp_encode_list es).length := by
      simp; omega
    rw [hlen] at hf hs ⊢
    have hcount := length_le_resp_encode_list es hes
    obtain ⟨fuel, rfl⟩ : ∃ k, fuel = k + 2 := ⟨fuel - 2, by omega⟩
    have hb1 : buffer = pre ++ (STAR :: (to_string es.length ++ CR :: LF :: (resp_encode_list es ++ rest))) := by
      simp [hb]
    have hint := get_integer_nonneg es.length pre (resp_encode_list es ++ rest) STAR size
      (by omega) (by omega)
    rw [← hb1] at hint
    rw [parse_index_succ, rd_at buffer pre _ STAR _ hb1 rfl]
    dsimp only
    rw [if_neg (by decide), if_neg (by decide), if_neg (by decide), if_neg (by decide), if_pos rfl]
    rw [parse_array_succ, hint]
    dsimp only
    rw [if_neg (by omega), if_neg (by omega), to_size_t_of_nat _ (by omega),
      if_neg (by simp [vector_max_size]; omega)]
    have hloop := parse_array_loop_resp_encode es fuel size buffer
      (pre ++ STAR :: (to_string es.length ++ [CR, LF])) rest [] (es.length : Int) hes
      (by simp [hb]) (by omega) (by simp; omega) hlt (by simp) (by simp; omega)
    simp only [List.length_append, List.length_cons, List.length_nil, List.nil_append] at hloop
    have e1 : pre.length + ((to_string es.length).length + 1 + 1 + 1)
        = pre.length + 1 + (to_string es.length).length + 2 := by omega
    rw [e1] at hloop
    simp only [reply.new]
    rw [hloop]
    congr 2
    omega
theorem parse_array_loop_resp_encode : ∀ (es : List reply) (fuel size : Nat)
    (buffer pre rest : List Nat) (done : List reply) (count : Int),
    reply.canonical_list es → buffer = pre ++ (resp_encode_list es ++ rest) →
    (resp_encode_list es).length + 1 ≤ fuel →
    pre.length + (resp_encode_list es).length ≤ size → size < 2 ^ 32 →
    count = ((done.length + es.length : Nat) : Int) → done.length + es.length < 2 ^ 32 →
    parse_array_loop buffer size fuel count done.length ⟨reply_type.ARRAY, [], 0, done⟩ pre.length
      = Except.ok (⟨reply_type.ARRAY, [], 0, done ++ es⟩, pre.length + (resp_encode_list es).length)
  | [], fuel, size, buffer, pre, rest, done, count, hc, hb, hf, hs, hlt, hcount, hn => by
    obtain ⟨fuel, rfl⟩ : ∃ k, fuel = k + 1 := ⟨fuel - 1, by omega⟩
    rw [parse_array_loop_succ, if_neg (by simp [hcount])]
    simp [resp_encode_list]
  | e :: es, fuel, size, buffer, pre, rest, done, count, hc, hb, hf, hs, hlt, hcount, hn => by
    simp only [reply.canonical_list] at hc
    simp only [resp_encode_list, List.length_append, List.length_cons] at hb hf hs hcount hn ⊢
    have hpos := resp_encode_pos e hc.1
    obtain ⟨fuel, rfl⟩ : ∃ k, fuel = k + 1 := ⟨fuel - 1, by omega⟩
    have helem := parse_index_resp_encode e fuel size buffer pre (resp_encode_list es ++ rest) hc.1
      (by simp [hb]) (by omega) (by omega) hlt
    have hrest := parse_array_loop_resp_encode es fuel size buffer (pre ++ resp_encode e) rest
      (done ++ [e]) count hc.2 (by simp [hb]) (by omega) (by simp; omega) hlt
      (by simp [hcount]; omega) (by simp; omega)
    simp only [List.length_append, List.length_singleton, List.append_assoc,
      List.singleton_append] at hrest
    rw [parse_array_loop_succ, if_pos (by rw [hcount]; push_cast; omega)]
    have hget : (done ++ [reply.new])[done.length]? = some reply.new := by simp
    have hset : (done ++ [reply.new]).set done.length e = done ++ [e] := by simp
    dsimp only
    rw [hget]
    dsimp only
    rw [helem]
    dsimp only
    rw [if_neg (by omega), hset, Nat.mod_eq_of_lt (by omega), hrest]
    congr 2
    omega
end

/-- The loop of `parse_array` over the encodings of complete elements: after them the loop
goes on at the next index with the elements appended. -/
theorem parse_array_loop_complete : ∀ (es : List reply) (fuel size : Nat)
    (buffer pre rest : List Nat) (done : List reply) (count : Int),
    reply.canonical_list es → buffer = pre ++ (resp_encode_list es ++ rest) →
    (resp_encode_list es).length + 1 ≤ fuel →
    pre.length + (resp_encode_list es).length ≤ size → size < 2 ^ 32 →
    ((done.length + es.length : Nat) : Int) ≤ count → done.length + es.length < 2 ^ 32 →
    parse_array_loop buffer size fuel count done.length ⟨reply_type.ARRAY, [], 0, done⟩ pre.length
      = parse_array_loop buffer size (fuel - es.length) count (done.length + es.length)
          ⟨reply_type.ARRAY, [], 0, done ++ es⟩ (pre.length + (resp_encode_list es).length) := by
  intro es
  induction es with
  | nil =>
    intro fuel size buffer pre rest done count _ _ _ _ _ _ _
    simp [resp_encode_list]
  | cons e es ih =>
    intro fuel size buffer pre rest done count hc hb hf hs hlt hcount hn
    simp only [reply.canonical_list] at hc
    simp only [resp_encode_list, List.length_append, List.length_cons] at hb hf hs hcount hn ⊢
    have hpos := resp_encode_pos e hc.1
    obtain ⟨fuel, rfl⟩ : ∃ k, fuel = k + 1 := ⟨fuel - 1, by omega⟩
    have helem := parse_index_resp_encode e fuel size buffer pre (resp_encode_list es ++ rest) hc.1
      (by simp [hb]) (by omega) (by omega) hlt
    have hrest := ih fuel size buffer (pre ++ resp_encode e) rest (done ++ [e]) count hc.2
      (by simp [hb]) (by omega) (by simp; omega) hlt (by simp; omega) (by simp; omega)
    simp only [List.length_append, List.length_singleton, List.append_assoc,
      List.singleton_append] at hrest
    rw [parse_array_loop_succ, if_pos (by omega)]
    have hget : (done ++ [reply.new])[done.length]? = some reply.new := by simp
    have hset : (done ++ [reply.new]).set done.length e = done ++ [e] := by simp
    dsimp only
    rw [hget]
    dsimp only
    rw [helem]
    dsimp only
    rw [if_neg (by omega), hset, Nat.mod_eq_of_lt (by omega), hrest]
    have e1 : fuel - es.length = fuel + 1 - (es.length + 1) := by omega
    have e2 : done.length + 1 + es.length = done.length + (es.length + 1) := by omega
    have e3 : pre.length + (resp_encode e).length + (resp_encode_list es).length
        = pre.length + ((resp_encode e).length + (resp_encode_list es).length) := by omega
    rw [e1, e2, e3]

/-- The reply `parse` starts from is `reply()`, whatever the reply passed in held. -/
theorem parse_eq (r0 : reply) (buffer : List Nat) (size : Nat) :
    parse r0 buffer size = parse_index buffer size (size + 2) reply.new 0 := rfl

/-! ## Lemmas: Command connection (`redis-connection.h`) -/

theorem append_bulk_string_eq : ∀ (ts : List (List Nat)) (target t : List Nat),
    append_bulk_string target t ts = target ++ ((t :: ts).map bulk_string_encoding).flatten := by
  intro ts
  induction ts with
  | nil =>
    intro target t
    simp [append_bulk_string, bulk_string_encoding, bytes]
  | cons t1 ts ih =>
    intro target t
    rw [append_bulk_string, ih]
    simp [bulk_string_encoding, bytes]

theorem execute_message_eq (t : List Nat) (ts : List (List Nat)) :
    execute_message t ts = resp_command (t :: ts) := by
  rw [execute_message, append_bulk_string_eq]
  simp [resp_command, bytes]

theorem parse_index_nil_array (buffer pre rest : List Nat) (size fuel : Nat)
    (hb : buffer = pre ++ (nil_array ++ rest)) (hsize : pre.length + 5 ≤ size) :
    parse_index buffer size (fuel + 2) reply.new pre.length
      = Except.ok (⟨reply_type.NIL, [], 0, []⟩, pre.length + 5) := by
  have hb1 : buffer = pre ++ (STAR :: (int_to_string (-1) ++ CR :: LF :: rest)) := by
    simp [hb, nil_array, int_to_string, to_string, to_string_digits]
  have h := get_integer_text (-1) pre rest STAR size (by omega) (by omega)
    (by simp [int_to_string, to_string, to_string_digits]; omega)
  rw [← hb1] at h
  rw [parse_index_succ, rd_at buffer pre _ STAR _ hb1 rfl]
  dsimp only
  rw [if_neg (by decide), if_neg (by decide), if_neg (by decide), if_neg (by decide), if_pos rfl]
  rw [parse_array_succ, h]
  simp [int_to_string, to_string, to_string_digits, reply.new]

/-- Either nil form, as the next element of an array, gives a NIL element and five
consumed bytes. -/
theorem parse_index_nil (form buffer pre rest : List Nat) (size fuel : Nat)
    (hnil : form = nil_bulk_string ∨ form = nil_array)
    (hb : buffer = pre ++ (form ++ rest)) (hsize : pre.length + 5 ≤ size) :
    parse_index buffer size (fuel + 2) reply.new pre.length
      = Except.ok (⟨reply_type.NIL, [], 0, []⟩, pre.length + 5) := by
  rcases hnil with rfl | rfl
  · exact parse_index_nil_bulk_string buffer pre rest size (fuel + 1) hb hsize
  · exact parse_index_nil_array buffer pre rest size fuel hb hsize

/-- The header `*<n>\r\n` of an array. -/
theorem parse_array_header (buffer rest : List Nat) (n size : Nat) (r0 : reply)
    (hb : buffer = STAR :: (to_string n ++ CR :: LF :: rest))
    (hn : n ≤ vector_max_size) (hsize : 1 + (to_string n).length + 2 ≤ size) :
    parse r0 buffer size
      = parse_array_loop buffer size size (n : Int) 0 ⟨reply_type.ARRAY, [], 0, []⟩
          (1 + (to_string n).length + 2) := by
  have hv : vector_max_size < 2 ^ 63 := by decide
  have hb1 : buffer = [] ++ (STAR :: (to_string n ++ CR :: LF :: rest)) := by simp [hb]
  have hint := get_integer_nonneg n [] rest STAR size (by omega) (by simp; omega)
  rw [← hb1] at hint
  simp only [List.length_nil, Nat.zero_add] at hint
  rw [parse_eq, parse_index_succ]
  have hrd := rd_at buffer [] _ STAR 0 hb1 rfl
  rw [hrd]
  dsimp only
  rw [if_neg (by decide), if_neg (by decide), if_neg (by decide), if_neg (by decide), if_pos rfl]
  rw [parse_array_succ, hint]
  dsimp only
  rw [if_neg (by omega), if_neg (by omega), to_size_t_of_nat _ (by omega), if_neg (by omega)]
  rfl

/-- An array whose next element starts with a byte outside `+ - : $ *`, after any number of
complete elements: the dispatch raises `parse_error`, whether that byte is below `size` or
just behind it. -/
theorem parse_array_unknown_element (es : List reply) (n c size : Nat) (rest : List Nat)
    (r0 : reply) (hes : reply.canonical_list es) (hn : es.length < n) (hmax : n ≤ vector_max_size)
    (hc : c ≠ PLUS ∧ c ≠ MINUS ∧ c ≠ COLON ∧ c ≠ DOLLAR ∧ c ≠ STAR)
    (hsize : 1 + (to_string n).length + 2 + (resp_encode_list es).length ≤ size)
    (hbound : size < 2 ^ 32) :
    parse r0 (STAR :: (to_string n ++ CR :: LF :: (resp_encode_list es ++ c :: rest))) size
      = Except.error failure.parse_error := by
  have hlen := length_le_resp_encode_list es hes
  rw [parse_array_header _ (resp_encode_list es ++ c :: rest) n size r0 rfl hmax (by omega)]
  have hcomp := parse_array_loop_complete es size size
    (STAR :: (to_string n ++ CR :: LF :: (resp_encode_list es ++ c :: rest)))
    (STAR :: (to_string n ++ [CR, LF])) (c :: rest) [] (n : Int) hes (by simp)
    (by omega) (by simp; omega) hbound (by simp; omega) (by simp; omega)
  simp only [List.length_cons, List.length_append, List.length_nil, List.nil_append,
    Nat.zero_add] at hcomp
  have e1 : (to_string n).length + (0 + 1 + 1) + 1 = 1 + (to_string n).length + 2 := by omega
  rw [e1] at hcomp
  rw [hcomp]
  obtain ⟨k, hk⟩ : ∃ k, size - es.length = k + 2 := ⟨size - es.length - 2, by omega⟩
  rw [hk, parse_array_loop_succ, if_pos (by omega)]
  have hget : (es ++ [reply.new])[es.length]? = some reply.new := by simp
  dsimp only
  rw [hget]
  dsimp only
  rw [parse_index_succ]
  have hrd := rd_at (STAR :: (to_string n ++ CR :: LF :: (resp_encode_list es ++ c :: rest)))
    (STAR :: (to_string n ++ CR :: LF :: resp_encode_list es)) rest c
    (1 + (to_string n).length + 2 + (resp_encode_list es).length) (by simp) (by simp; omega)
  rw [hrd]
  dsimp only
  rw [if_neg hc.1, if_neg hc.2.1, if_neg hc.2.2.1, if_neg hc.2.2.2.1, if_neg hc.2.2.2.2]

/-! ## Claims C1 to C10 -/

/-- Claim C1. Bulk-string round trip: for every byte string `s` (any bytes, embedded CR LF
included), parsing a buffer that starts with `$` ++ decimal(|s|) ++ CR LF ++ `s` ++ CR LF
yields a reply of type STRING whose `str` is `s` (the other fields as in `reply()`), and the
returned count is the length of the encoding. `size` is the number of valid bytes (the
encoding, possibly followed by more input, below `2^63`), `rest` is whatever the buffer holds
behind the encoding, `r0` is the previous content of the reply object. -/
theorem bulk_string_round_trip (s rest : List Nat) (r0 : reply) (size : Nat)
    (hsize : (bulk_string_encoding s).length ≤ size) (hbound : size < 2 ^ 63) :
    parse r0 (bulk_string_encoding s ++ rest) size
      = Except.ok (⟨reply_type.STRING, s, 0, []⟩, (bulk_string_encoding s).length) := by
  rw [parse_eq]
  have h := parse_index_bulk_string (bulk_string_encoding s ++ rest) [] s rest size (size + 1)
    (by simp) (by simpa using hsize) hbound
  simpa using h

/-- Witness of C1: the payload `a\r\nb`, with an embedded CR LF. -/
theorem bulk_string_round_trip_witness :
    (bulk_string_encoding (bytes "a\r\nb")).length ≤ 10 ∧ 10 < 2 ^ 63 ∧
    parse reply.new (bulk_string_encoding (bytes "a\r\nb") ++ bytes "stale") 10
      = Except.ok (⟨reply_type.STRING, bytes "a\r\nb", 0, []⟩,
          (bulk_string_encoding (bytes "a\r\nb")).length) :=
  ⟨by decide, by decide,
    bulk_string_round_trip (bytes "a\r\nb") (bytes "stale") reply.new 10 (by decide) (by decide)⟩

/-- Claim C2. Integer round trip: for every `n` of the `int64_t` range (zero, negative values
and both extremes included), parsing a buffer that starts with `:` ++ decimal(n) ++ CR LF
yields a reply of type INTEGER whose `integer` is `n`, and the returned count is the length
of the encoding. -/
theorem integer_round_trip (n : Int) (rest : List Nat) (r0 : reply) (size : Nat)
    (h1 : -2 ^ 63 ≤ n) (h2 : n < 2 ^ 63) (hsize : (integer_encoding n).length ≤ size) :
    parse r0 (integer_encoding n ++ rest) size
      = Except.ok (⟨reply_type.INTEGER, [], n, []⟩, (integer_encoding n).length) := by
  rw [parse_eq]
  have h := parse_index_integer (integer_encoding n ++ rest) [] rest n size (size + 1)
    (by simp) h1 h2 (by simpa using hsize)
  simpa using h

/-- Witness of C2: the least value of the range, `-2^63`. -/
theorem integer_round_trip_witness :
    (-2 ^ 63 : Int) ≤ -9223372036854775808 ∧ (-9223372036854775808 : Int) < 2 ^ 63 ∧
    (integer_encoding (-9223372036854775808)).length ≤ 23 ∧
    parse reply.new (integer_encoding (-9223372036854775808) ++ []) 23
      = Except.ok (⟨reply_type.INTEGER, [], -9223372036854775808, []⟩,
          (integer_encoding (-9223372036854775808)).length) :=
  ⟨by decide, by decide, by decide,
    integer_round_trip (-9223372036854775808) [] reply.new 23 (by decide) (by decide) (by decide)⟩

/-- Claim C3. Array round trip: for every canonical reply tree `r` (INTEGER, STRING, ERROR,
NIL and ARRAY nodes, nested to any depth) whose encoding lies in a buffer of fewer than
`2^32` valid bytes, parsing the standard RESP encoding of `r` yields `r` itself (same tags,
payloads and element order at every level) and the returned count is the length of the
encoding. -/
theorem array_round_trip (r : reply) (rest : List Nat) (r0 : reply) (size : Nat)
    (hc : r.canonical) (hsize : (resp_encode r).length ≤ size) (hbound : size < 2 ^ 32) :
    parse r0 (resp_encode r ++ rest) size = Except.ok (r, (resp_encode r).length) := by
  rw [parse_eq]
  have h := parse_index_resp_encode r (size + 2) size (resp_encode r ++ rest) [] rest hc
    (by simp) (by omega) (by simpa using hsize) hbound
  simpa using h

/-- Witness of C3: a tree of depth three. -/
theorem array_round_trip_witness :
    nested_reply.canonical ∧ (resp_encode nested_reply).length ≤ 52 ∧ 52 < 2 ^ 32 ∧
    parse reply.new (resp_encode nested_reply ++ []) 52
      = Except.ok (nested_reply, (resp_encode nested_reply).length) :=
  ⟨by simp [nested_reply, reply.canonical, reply.canonical_list, bytes], by decide, by decide,
    array_round_trip nested_reply [] reply.new 52
      (by simp [nested_reply, reply.canonical, reply.canonical_list, bytes])
      (by decide) (by decide)⟩

/-- Claim C4. Simple-string and error round trip: for every `s` without CR and LF (the empty
string included), parsing `+` ++ `s` ++ CR LF yields type STRING with `str = s`, and parsing
`-` ++ `s` ++ CR LF yields type ERROR with `str = s`; in both cases the returned count is
`|s| + 3` and the replies differ only by the tag. -/
theorem simple_string_and_error_round_trip (s rest : List Nat) (r0 : reply) (size : Nat)
    (hCR : CR ∉ s) (hLF : LF ∉ s) (hsize : s.length + 3 ≤ size) :
    parse r0 (simple_string_encoding s ++ rest) size
        = Except.ok (⟨reply_type.STRING, s, 0, []⟩, s.length + 3) ∧
    parse r0 (error_encoding s ++ rest) size
        = Except.ok (⟨reply_type.ERROR, s, 0, []⟩, s.length + 3) := by
  have _ := hCR
  constructor
  · rw [parse_eq]
    have h := parse_index_simple_string (simple_string_encoding s ++ rest) [] s rest size
      (size + 1) (by simp) hLF (by simpa using hsize)
    simpa using h
  · rw [parse_eq]
    have h := parse_index_error (error_encoding s ++ rest) [] s rest size
      (size + 1) (by simp) hLF (by simpa using hsize)
    simpa using h

/-- Witness of C4: the empty string. -/
theorem simple_string_and_error_round_trip_witness :
    CR ∉ ([] : List Nat) ∧ LF ∉ ([] : List Nat) ∧ ([] : List Nat).length + 3 ≤ 3 ∧
    (parse reply.new (simple_string_encoding [] ++ []) 3
        = Except.ok (⟨reply_type.STRING, [], 0, []⟩, ([] : List Nat).length + 3) ∧
     parse reply.new (error_encoding [] ++ []) 3
        = Except.ok (⟨reply_type.ERROR, [], 0, []⟩, ([] : List Nat).length + 3)) :=
  ⟨by decide, by decide, by decide,
    simple_string_and_error_round_trip [] [] reply.new 3 (by decide) (by decide) (by decide)⟩

/-- Claim C7. Fatal on garbage: for every buffer whose first byte `c` is none of
`+ - : $ *`, the top-level parse raises `parse_error` (it neither returns 0 nor yields a
reply); the same holds when `c` is the first byte of an element of an array, after any
number of complete elements (the array announcing `n` elements, `n` within the limit of
`reserve`). -/
theorem fatal_on_garbage (c : Nat)
    (hc : c ≠ PLUS ∧ c ≠ MINUS ∧ c ≠ COLON ∧ c ≠ DOLLAR ∧ c ≠ STAR)
    (r0 : reply) (tail : List Nat) (size0 : Nat)
    (es : List reply) (n size : Nat) (rest : List Nat)
    (hes : reply.canonical_list es) (hn : es.length < n) (hmax : n ≤ vector_max_size)
    (hsize : 1 + (to_string n).length + 2 + (resp_encode_list es).length + 1 ≤ size)
    (hbound : size < 2 ^ 32) :
    parse r0 (c :: tail) size0 = Except.error failure.parse_error ∧
    parse r0 (STAR :: (to_string n ++ CR :: LF :: (resp_encode_list es ++ c :: rest))) size
      = Except.error failure.parse_error := by
  constructor
  · rw [parse_eq, parse_index_succ]
    have hrd := rd_at (c :: tail) [] tail c 0 rfl rfl
    rw [hrd]
    dsimp only
    rw [if_neg hc.1, if_neg hc.2.1, if_neg hc.2.2.1, if_neg hc.2.2.2.1, if_neg hc.2.2.2.2]
  · exact parse_array_unknown_element es n c size rest r0 hes hn hmax hc (by omega) hbound

/-- Witness of C7: the byte `A`, alone and as the second element of `*2\r\n:1\r\n`. -/
theorem fatal_on_garbage_witness :
    ((65 : Nat) ≠ PLUS ∧ (65 : Nat) ≠ MINUS ∧ (65 : Nat) ≠ COLON ∧ (65 : Nat) ≠ DOLLAR ∧
      (65 : Nat) ≠ STAR) ∧
    reply.canonical_list [⟨reply_type.INTEGER, [], 1, []⟩] ∧
    [(⟨reply_type.INTEGER, [], 1, []⟩ : reply)].length < 2 ∧ 2 ≤ vector_max_size ∧
    1 + (to_string 2).length + 2
      + (resp_encode_list [⟨reply_type.INTEGER, [], 1, []⟩]).length + 1 ≤ 9 ∧
    9 < 2 ^ 32 ∧
    (parse reply.new (65 :: bytes "BC") 3 = Except.error failure.parse_error ∧
     parse reply.new
        (STAR :: (to_string 2 ++ CR :: LF ::
          (resp_encode_list [⟨reply_type.INTEGER, [], 1, []⟩] ++ 65 :: []))) 9
        = Except.error failure.parse_error) :=
  ⟨by decide, by simp [reply.canonical_list, reply.canonical], by decide, by decide, by decide,
    by decide,
    fatal_on_garbage 65 (by decide) reply.new (bytes "BC") 3 [⟨reply_type.INTEGER, [], 1, []⟩] 2 9 []
      (by simp [reply.canonical_list, reply.canonical]) (by decide) (by decide) (by decide)
      (by decide)⟩

/-- Claim C8. Null: the nil bulk string `$-1\r\n` and the nil array `*-1\r\n` both parse to
a reply of type NIL with empty `str` and no elements, the returned count being 5; and an
array that has either form as one of its elements (between any canonical elements) parses to
an ARRAY with a NIL element at that position, five bytes being consumed for it. -/
theorem null_forms (form : List Nat) (hform : form = nil_bulk_string ∨ form = nil_array)
    (r0 : reply) (rest : List Nat) (size0 : Nat) (hsize0 : 5 ≤ size0)
    (before after : List reply) (size : Nat)
    (hb : reply.canonical_list before) (ha : reply.canonical_list after)
    (hsize : (STAR :: (to_string (before.length + 1 + after.length) ++ CR :: LF ::
        (resp_encode_list before ++ (form ++ resp_encode_list after)))).length ≤ size)
    (hbound : size < 2 ^ 32) :
    parse r0 (form ++ rest) size0 = Except.ok (⟨reply_type.NIL, [], 0, []⟩, 5) ∧
    parse r0 (STAR :: (to_string (before.length + 1 + after.length) ++ CR :: LF ::
        (resp_encode_list before ++ (form ++ resp_encode_list after))) ++ rest) size
      = Except.ok (⟨reply_type.ARRAY, [], 0, before ++ ⟨reply_type.NIL, [], 0, []⟩ :: after⟩,
          1 + (to_string (before.length + 1 + after.length)).length + 2
            + (resp_encode_list before).length + 5 + (resp_encode_list after).length) := by
  have hform5 : form.length = 5 := by rcases hform with rfl | rfl <;> rfl
  constructor
  · rw [parse_eq]
    obtain ⟨k, hk⟩ : ∃ k, size0 + 2 = k + 2 := ⟨size0, rfl⟩
    rw [hk]
    have h := parse_index_nil form (form ++ rest) [] rest size0 k hform (by simp)
      (by simpa using hsize0)
    simpa using h
  · have hlb := length_le_resp_encode_list before hb
    have hla := length_le_resp_encode_list after ha
    simp only [List.length_cons, List.length_append, hform5] at hsize
    have hv : (2 : Nat) ^ 32 ≤ vector_max_size := by decide
    rw [parse_array_header _
      (resp_encode_list before ++ (form ++ resp_encode_list after) ++ rest)
      (before.length + 1 + after.length) size r0 (by simp) (by omega) (by omega)]
    have hcomp := parse_array_loop_complete before size size
      (STAR :: (to_string (before.length + 1 + after.length) ++ CR :: LF ::
        (resp_encode_list before ++ (form ++ resp_encode_list after))) ++ rest)
      (STAR :: (to_string (before.length + 1 + after.length) ++ [CR, LF]))
      (form ++ (resp_encode_list after ++ rest)) []
      ((before.length + 1 + after.length : Nat) : Int) hb (by simp)
      (by omega) (by simp; omega) hbound (by simp; omega) (by simp; omega)
    simp only [List.length_cons, List.length_append, List.length_nil, List.nil_append,
      Nat.zero_add] at hcomp
    have e1 : (to_string (before.length + 1 + after.length)).length + (0 + 1 + 1) + 1
        = 1 + (to_string (before.length + 1 + after.length)).length + 2 := by omega
    rw [e1] at hcomp
    rw [hcomp]
    obtain ⟨k, hk⟩ : ∃ k, size - before.length = k + 3 := ⟨size - before.length - 3, by omega⟩
    rw [hk, parse_array_loop_succ, if_pos (by omega)]
    have hget : (before ++ [reply.new])[before.length]? = some reply.new := by simp
    have hset : (before ++ [reply.new]).set before.length ⟨reply_type.NIL, [], 0, []⟩
        = before ++ [⟨reply_type.NIL, [], 0, []⟩] := by simp
    dsimp only
    rw [hget]
    dsimp only
    have helem := parse_index_nil form
      (STAR :: (to_string (before.length + 1 + after.length) ++ CR :: LF ::
        (resp_encode_list before ++ (form ++ resp_encode_list after))) ++ rest)
      (STAR :: (to_string (before.length + 1 + after.length) ++ CR :: LF ::
        resp_encode_list before)) (resp_encode_list after ++ rest) size k hform (by simp)
      (by simp; omega)
    simp only [List.length_cons, List.length_append] at helem
    have e2 : (to_string (before.length + 1 + after.length)).length
          + ((resp_encode_list before).length + 1 + 1) + 1
        = 1 + (to_string (before.length + 1 + after.length)).length + 2
          + (resp_encode_list before).length := by omega
    rw [e2] at helem
    rw [helem]
    dsimp only
    rw [if_neg (by omega), hset, Nat.mod_eq_of_lt (by omega)]
    have hrest := parse_array_loop_resp_encode after (k + 2) size
      (STAR :: (to_string (before.length + 1 + after.length) ++ CR :: LF ::
        (resp_encode_list before ++ (form ++ resp_encode_list after))) ++ rest)
      (STAR :: (to_string (before.length + 1 + after.length) ++ CR :: LF ::
        (resp_encode_list before ++ form))) rest (before ++ [⟨reply_type.NIL, [], 0, []⟩])
      ((before.length + 1 + after.length : Nat) : Int) ha (by simp)
      (by omega) (by simp; omega) hbound (by simp) (by simp; omega)
    simp only [List.length_cons, List.length_append, List.length_nil, hform5,
      List.append_assoc, List.singleton_append] at hrest
    have e3 : (to_string (before.length + 1 + after.length)).length
          + ((resp_encode_list before).length + 5 + 1 + 1) + 1
        = 1 + (to_string (before.length + 1 + after.length)).length + 2
          + (resp_encode_list before).length + 5 := by omega
    rw [e3] at hrest
    rw [hrest]

/-- Witness of C8: the nil array between an integer and a nil bulk string,
`*3\r\n:1\r\n*-1\r\n$-1\r\n`. -/
theorem null_forms_witness :
    (nil_array = nil_bulk_string ∨ nil_array = nil_array) ∧ 5 ≤ 5 ∧
    reply.canonical_list [⟨reply_type.INTEGER, [], 1, []⟩] ∧
    reply.canonical_list [⟨reply_type.NIL, [], 0, []⟩] ∧
    (STAR :: (to_string ([(⟨reply_type.INTEGER, [], 1, []⟩ : reply)].length + 1
        + [(⟨reply_type.NIL, [], 0, []⟩ : reply)].length) ++ CR :: LF ::
        (resp_encode_list [⟨reply_type.INTEGER, [], 1, []⟩]
          ++ (nil_array ++ resp_encode_list [⟨reply_type.NIL, [], 0, []⟩])))).length ≤ 18 ∧
    18 < 2 ^ 32 ∧
    (parse reply.new (nil_array ++ []) 5 = Except.ok (⟨reply_type.NIL, [], 0, []⟩, 5) ∧
     parse reply.new
        (STAR :: (to_string ([(⟨reply_type.INTEGER, [], 1, []⟩ : reply)].length + 1
          + [(⟨reply_type.NIL, [], 0, []⟩ : reply)].length) ++ CR :: LF ::
          (resp_encode_list [⟨reply_type.INTEGER, [], 1, []⟩]
            ++ (nil_array ++ resp_encode_list [⟨reply_type.NIL, [], 0, []⟩]))) ++ []) 18
        = Except.ok (⟨reply_type.ARRAY, [], 0,
            [⟨reply_type.INTEGER, [], 1, []⟩] ++ ⟨reply_type.NIL, [], 0, []⟩
              :: [⟨reply_type.NIL, [], 0, []⟩]⟩,
            1 + (to_string ([(⟨reply_type.INTEGER, [], 1, []⟩ : reply)].length + 1
              + [(⟨reply_type.NIL, [], 0, []⟩ : reply)].length)).length + 2
              + (resp_encode_list [⟨reply_type.INTEGER, [], 1, []⟩]).length + 5
              + (resp_encode_list [⟨reply_type.NIL, [], 0, []⟩]).length)) :=
  ⟨Or.inr rfl, by decide, by simp [reply.canonical_list, reply.canonical],
    by simp [reply.canonical_list, reply.canonical], by decide, by decide,
    null_forms nil_array (Or.inr rfl) reply.new [] 5 (by decide)
      [⟨reply_type.INTEGER, [], 1, []⟩] [⟨reply_type.NIL, [], 0, []⟩] 18
      (by simp [reply.canonical_list, reply.canonical])
      (by simp [reply.canonical_list, reply.canonical]) (by decide) (by decide)⟩

/-- Claim C5, evaluated where it fails. The stream
`+AAAAAAAA\r\n*2\r\n:1\r\n:2\r\n` fed in one read delivers two replies and raises nothing;
fed as `+AAAAAAAA\r\n`, `*2\r\n:1\r\n`, `:2\r\n` it delivers the first reply and then raises
`parse_error` on the second read: the array has one complete element, the dispatch for the
next element reads the byte behind the valid bytes, which is the `A` left by the first
message. -/
theorem incremental_feed_differs :
    (parser_base.feed_all ⟨32, 0, List.replicate 32 0, reply.new⟩
        [bytes "+AAAAAAAA\r\n*2\r\n:1\r\n:2\r\n"]).delivered
      = [⟨reply_type.STRING, bytes "AAAAAAAA", 0, []⟩,
         ⟨reply_type.ARRAY, [], 0,
            [⟨reply_type.INTEGER, [], 1, []⟩, ⟨reply_type.INTEGER, [], 2, []⟩]⟩] ∧
    (parser_base.feed_all ⟨32, 0, List.replicate 32 0, reply.new⟩
        [bytes "+AAAAAAAA\r\n*2\r\n:1\r\n:2\r\n"]).raised = none ∧
    (parser_base.feed_all ⟨32, 0, List.replicate 32 0, reply.new⟩
        [bytes "+AAAAAAAA\r\n", bytes "*2\r\n:1\r\n", bytes ":2\r\n"]).delivered
      = [⟨reply_type.STRING, bytes "AAAAAAAA", 0, []⟩] ∧
    (parser_base.feed_all ⟨32, 0, List.replicate 32 0, reply.new⟩
        [bytes "+AAAAAAAA\r\n", bytes "*2\r\n:1\r\n", bytes ":2\r\n"]).raised
      = some failure.parse_error := by
  decide

/-- Claim C6, evaluated where it fails. `*2\r\n:1\r\n` is a proper prefix of the encoding
`*2\r\n:1\r\n:2\r\n`, which parses to the array of 1 and 2; the parse of the eight bytes of
the prefix raises `parse_error` when the byte behind them is `A`, and returns 0 only when
that byte happens to be one of `+ - : $ *`. -/
theorem array_prefix_raises :
    parse reply.new (bytes "*2\r\n:1\r\n:2\r\n") 12
      = Except.ok (⟨reply_type.ARRAY, [], 0,
          [⟨reply_type.INTEGER, [], 1, []⟩, ⟨reply_type.INTEGER, [], 2, []⟩]⟩, 12) ∧
    parse reply.new (bytes "*2\r\n:1\r\n" ++ bytes "A\r\n") 8
      = Except.error failure.parse_error ∧
    (parser_base.feed_all ⟨32, 0, List.replicate 32 0, reply.new⟩
        [bytes "+AAAAAAAA\r\n", bytes "*2\r\n:1\r\n"]).raised = some failure.parse_error ∧
    (parse reply.new (bytes "*2\r\n:1\r\n" ++ bytes "+\r\n") 8).map Prod.snd = Except.ok 0 := by
  decide

/-- Claim C9. Command encoding: for every argument list `t, ts...` the message built by
`execute` is `*` ++ decimal(N) ++ CR LF followed, for each argument in order, by
`$` ++ decimal(L) ++ CR LF ++ argument ++ CR LF, with `L` the number of bytes of the argument;
on a connected connection whose send queue has room for it, `execute` appends exactly this
blob at the tail of the send queue of the transport. -/
theorem command_encoding (c : redis_connection) (cb : Option callback) (t : List Nat)
    (ts : List (List Nat)) (hconn : c.connected = true)
    (hroom : c._tcp._send_buffer_size + (resp_command (t :: ts)).length ≤ SEND_BUFFER_LIMIT) :
    execute_message t ts = resp_command (t :: ts) ∧
    ∃ c1 effects, c.execute cb t ts = Except.ok (c1, effects) ∧
      c1._tcp._send_buffer = c._tcp._send_buffer ++ [resp_command (t :: ts)] ∧
      c1._tcp._send_buffer_size = c._tcp._send_buffer_size + (resp_command (t :: ts)).length := by
  have hmsg := execute_message_eq t ts
  refine ⟨hmsg, ?_⟩
  have hconn1 : c._tcp.connected = true := hconn
  cases cb with
  | none =>
    simp [redis_connection.execute, hconn1, tcp_connection.send, hmsg, Nat.not_lt.mpr hroom]
  | some f =>
    simp [redis_connection.execute, hconn1, tcp_connection.send, hmsg, Nat.not_lt.mpr hroom]

/-- Witness of C9: `GET k` on a connected connection with an empty send queue; the blob is
`*2\r\n$3\r\nGET\r\n$1\r\nk\r\n`. -/
theorem command_encoding_witness :
    connected_connection.connected = true ∧
    connected_connection._tcp._send_buffer_size + (resp_command (bytes "GET" :: [bytes "k"])).length
      ≤ SEND_BUFFER_LIMIT ∧
    resp_command (bytes "GET" :: [bytes "k"]) = bytes "*2\r\n$3\r\nGET\r\n$1\r\nk\r\n" ∧
    (execute_message (bytes "GET") [bytes "k"] = resp_command (bytes "GET" :: [bytes "k"]) ∧
     ∃ c1 effects,
      connected_connection.execute (some (callback.user 7)) (bytes "GET") [bytes "k"]
        = Except.ok (c1, effects) ∧
      c1._tcp._send_buffer
        = connected_connection._tcp._send_buffer ++ [resp_command (bytes "GET" :: [bytes "k"])] ∧
      c1._tcp._send_buffer_size
        = connected_connection._tcp._send_buffer_size
          + (resp_command (bytes "GET" :: [bytes "k"])).length) :=
  ⟨by decide, by decide, by decide,
    command_encoding connected_connection (some (callback.user 7)) (bytes "GET") [bytes "k"]
      (by decide) (by decide)⟩

/-- Claim C10. Execute while not connected: for every command and every state in which
`connected()` is false, `execute(cb, ...)` with a callback `cb` of the caller invokes `cb`
exactly once, within the call, with a reply of type ERROR and `str`
"TCP CANNOT SEND MESSAGE", and leaves the connection (pending-callback queue and send queue
of the transport included) as it was: nothing is enqueued or sent. -/
theorem execute_not_connected (c : redis_connection) (id : Nat) (t : List Nat)
    (ts : List (List Nat)) (hconn : c.connected = false) :
    c.execute (some (callback.user id)) t ts
      = Except.ok (c, [effect.invoke (callback.user id)
          ⟨reply_type.ERROR, bytes "TCP CANNOT SEND MESSAGE", 0, []⟩]) := by
  have hconn1 : c._tcp.connected = false := hconn
  simp [redis_connection.execute, redis_connection.invoke, hconn1, error_reply,
    ERROR_TCP_CANNOT_SEND_MESSAGE, reply.new]

/-- Witness of C10: `GET k` on a connection that was never connected and has two pending
callbacks and one queued blob. -/
theorem execute_not_connected_witness :
    waiting_connection.connected = false ∧
    waiting_connection.execute (some (callback.user 7)) (bytes "GET") [bytes "k"]
      = Except.ok (waiting_connection, [effect.invoke (callback.user 7)
          ⟨reply_type.ERROR, bytes "TCP CANNOT SEND MESSAGE", 0, []⟩]) :=
  ⟨by decide, execute_not_connected waiting_connection 7 (bytes "GET") [bytes "k"] (by decide)⟩

/-! ## Lemmas: reply dispatch of the command connection -/

theorem on_subscribe_branch_cases (c : redis_connection) (r : reply) (c1 : redis_connection)
    (es : List effect) (h : c.on_subscribe_branch r = Except.ok (c1, es)) :
    handler_result c c1 es := by
  unfold redis_connection.on_subscribe_branch at h
  simp only [redis_connection.ferror_reconnect] at h
  unfold handler_result
  repeat' split at h
  all_goals first
    | (left; simp only [Except.ok.injEq, Prod.mk.injEq] at h; exact ⟨_, h.1.symm, h.2.symm⟩)
    | (right; simp only [Except.ok.injEq, Prod.mk.injEq] at h; obtain ⟨rfl, rfl⟩ := h
       simp [invocations])
    | (cases h)

theorem on_message_branch_cases (c : redis_connection) (r : reply) (c1 : redis_connection)
    (es : List effect) (h : c.on_message_branch r = Except.ok (c1, es)) :
    handler_result c c1 es := by
  unfold redis_connection.on_message_branch at h
  simp only [redis_connection.ferror_reconnect] at h
  unfold handler_result
  repeat' split at h
  all_goals first
    | (left; simp only [Except.ok.injEq, Prod.mk.injEq] at h; exact ⟨_, h.1.symm, h.2.symm⟩)
    | (right; simp only [Except.ok.injEq, Prod.mk.injEq] at h; obtain ⟨rfl, rfl⟩ := h
       simp [invocations])
    | (cases h)

theorem on_unsubscribe_branch_cases (c : redis_connection) (r : reply) (c1 : redis_connection)
    (es : List effect) (h : c.on_unsubscribe_branch r = Except.ok (c1, es)) :
    handler_result c c1 es := by
  unfold redis_connection.on_unsubscribe_branch at h
  simp only [redis_connection.ferror_reconnect] at h
  unfold handler_result
  repeat' split at h
  all_goals first
    | (left; simp only [Except.ok.injEq, Prod.mk.injEq] at h; exact ⟨_, h.1.symm, h.2.symm⟩)
    | (right; simp only [Except.ok.injEq, Prod.mk.injEq] at h; obtain ⟨rfl, rfl⟩ := h
       simp [invocations])
    | (cases h)

theorem on_pmessage_branch_cases (c : redis_connection) (r : reply) (c1 : redis_connection)
    (es : List effect) (h : c.on_pmessage_branch r = Except.ok (c1, es)) :
    handler_result c c1 es := by
  unfold redis_connection.on_pmessage_branch at h
  simp only [redis_connection.ferror_reconnect] at h
  unfold handler_result
  repeat' split at h
  all_goals first
    | (left; simp only [Except.ok.injEq, Prod.mk.injEq] at h; exact ⟨_, h.1.symm, h.2.symm⟩)
    | (right; simp only [Except.ok.injEq, Prod.mk.injEq] at h; obtain ⟨rfl, rfl⟩ := h
       simp [invocations])
    | (cases h)

theorem on_subscribe_callback_cases (c : redis_connection) (r : reply) (c1 : redis_connection)
    (es : List effect) (h : c.on_subscribe_callback r = Except.ok (c1, es)) :
    handler_result c c1 es := by
  unfold redis_connection.on_subscribe_callback at h
  have hfail : ∀ m, (Except.ok (c.ferror_reconnect m) : Except exception _) = Except.ok (c1, es) →
      handler_result c c1 es := by
    intro m hm
    simp only [redis_connection.ferror_reconnect, Except.ok.injEq, Prod.mk.injEq] at hm
    exact Or.inl ⟨m, hm.1.symm, hm.2.symm⟩
  split at h
  · split at h
    · split at h
      · unfold redis_connection.on_subscribe_command at h
        split at h
        · exact on_subscribe_branch_cases c r c1 es h
        · split at h
          · exact on_message_branch_cases c r c1 es h
          · split at h
            · exact on_unsubscribe_branch_cases c r c1 es h
            · split at h
              · exact on_pmessage_branch_cases c r c1 es h
              · split at h
                · exact on_unsubscribe_branch_cases c r c1 es h
                · simp only [Except.ok.injEq, Prod.mk.injEq] at h
                  obtain ⟨rfl, rfl⟩ := h
                  right
                  simp [invocations]
      · exact hfail _ h
    · exact hfail _ h
  · exact hfail _ h

/-- With an error reply the pub/sub handler fails its first check. -/
theorem on_subscribe_callback_error_reply (c : redis_connection) (m : List Nat) :
    c.on_subscribe_callback (error_reply m)
      = Except.ok (c.ferror_reconnect log_message.non_valid_subscribe_response) := by
  simp [redis_connection.on_subscribe_callback, error_reply]

theorem invoke_error_reply (c : redis_connection) (cb : callback) (m : List Nat) :
    ∃ c1, c.invoke cb (error_reply m) = Except.ok (c1, invoke_error_effects cb m) ∧
      c1._op_callbacks = c._op_callbacks ∧
      c1._disconnected_callback = c._disconnected_callback ∧
      c1._pubsub_mode = c._pubsub_mode ∧ c1._subs = c._subs ∧
      c1._tcp._send_buffer = c._tcp._send_buffer ∧
      c1._tcp._send_buffer_size = c._tcp._send_buffer_size := by
  cases cb with
  | user id => exact ⟨c, by simp [redis_connection.invoke, invoke_error_effects]⟩
  | on_subscribe_callback =>
    have hq : ∀ t : tcp_connection, t.reconnect._send_buffer = t._send_buffer ∧
        t.reconnect._send_buffer_size = t._send_buffer_size := by
      intro t
      unfold tcp_connection.reconnect tcp_connection.disconnect_end
      dsimp only
      split <;> exact ⟨rfl, rfl⟩
    exact ⟨{ c with _tcp := c._tcp.reconnect },
      by simp [redis_connection.invoke, on_subscribe_callback_error_reply,
        redis_connection.ferror_reconnect, invoke_error_effects],
      rfl, rfl, rfl, rfl, (hq c._tcp).1, (hq c._tcp).2⟩

theorem invocations_append (a b : List effect) :
    invocations (a ++ b) = invocations a ++ invocations b := by
  induction a with
  | nil => rfl
  | cons e a ih => cases e <;> simp [invocations, ih]

theorem invocations_invoke_error_effects (cb : callback) (m : List Nat) :
    invocations (invoke_error_effects cb m) = [(cb, error_reply m)] := by
  cases cb <;> rfl

theorem no_hook_invoke_error_effects (cb : callback) (m : List Nat) (x : Nat) (e : error_code) :
    effect.disconnected_hook x e ∉ invoke_error_effects cb m := by
  cases cb <;> simp [invoke_error_effects]

/-- The loop of `notify_all_pending_requests` runs to the end of the queue: every callback
is invoked once, in order, with the error reply, and the queue is empty afterwards. -/
theorem notify_loop_spec (m : List Nat) : ∀ (pending : List callback) (c : redis_connection),
    c._op_callbacks = pending →
    ∃ c1 es, redis_connection.notify_loop m pending c = Except.ok (c1, es) ∧
      c1._op_callbacks = [] ∧
      c1._disconnected_callback = c._disconnected_callback ∧
      c1._pubsub_mode = c._pubsub_mode ∧ c1._subs = c._subs ∧
      c1._tcp._send_buffer = c._tcp._send_buffer ∧
      c1._tcp._send_buffer_size = c._tcp._send_buffer_size ∧
      invocations es = pending.map (fun cb => (cb, error_reply m)) ∧
      (∀ x e, effect.disconnected_hook x e ∉ es) := by
  intro pending
  induction pending with
  | nil =>
    intro c hc
    exact ⟨c, [], rfl, hc, rfl, rfl, rfl, rfl, rfl, rfl, by simp⟩
  | cons cb rest ih =>
    intro c hc
    obtain ⟨c1, h1, hq, hd, hp, hs, hb, hbs⟩ := invoke_error_reply c cb m
    obtain ⟨c2, es2, h2, hq2, hd2, hp2, hs2, hb2, hbs2, hi2, hh2⟩ :=
      ih { c1 with _op_callbacks := c1._op_callbacks.tail } (by simp [hq, hc])
    refine ⟨c2, invoke_error_effects cb m ++ es2, ?_, hq2, ?_, ?_, ?_, ?_, ?_, ?_, ?_⟩
    · simp only [redis_connection.notify_loop, h1, h2]
    · rw [hd2]; exact hd
    · rw [hp2]; exact hp
    · rw [hs2]; exact hs
    · rw [hb2]; exact hb
    · rw [hbs2]; exact hbs
    · rw [invocations_append, invocations_invoke_error_effects, hi2]
      rfl
    · intro x e hmem
      rcases List.mem_append.mp hmem with hmem | hmem
      · exact no_hook_invoke_error_effects cb m x e hmem
      · exact hh2 x e hmem

/-- Claim C12. Pending drain on transport loss: when the transport reports a disconnection
to the command connection (`on_disconnected(error)`) with the callbacks `c1..ck` pending,
each `ci` is invoked exactly once, in FIFO order, with a reply of type ERROR and `str`
"TCP DISCONNECTED"; the pending queue is empty afterwards; and the disconnected callback of
the caller, when there is one, is the last effect, after all of them. -/
theorem pending_drain_on_disconnected (c : redis_connection) (error : error_code) :
    ∃ c1 body, c.on_disconnected error
        = Except.ok (c1, body ++ (match c._disconnected_callback with
                                  | some h => [effect.disconnected_hook h error]
                                  | none => [])) ∧
      c1._op_callbacks = [] ∧
      invocations body = c._op_callbacks.map
        (fun cb => (cb, ⟨reply_type.ERROR, bytes "TCP DISCONNECTED", 0, []⟩)) ∧
      (∀ x e, effect.disconnected_hook x e ∉ body) := by
  obtain ⟨c1, es, h, hq, hd, _, _, _, _, hi, hh⟩ :=
    notify_loop_spec ERROR_TCP_DISCONNECTED c._op_callbacks c rfl
  refine ⟨c1, effect.ferror log_message.disconnected_ungracefully :: es, ?_, hq, ?_, ?_⟩
  · simp only [redis_connection.on_disconnected, redis_connection.notify_all_pending_requests, h,
      hd, List.singleton_append, List.cons_append, List.nil_append]
  · simpa [invocations] using hi
  · intro x e hmem
    rcases List.mem_cons.mp hmem with hmem | hmem
    · cases hmem
    · exact hh x e hmem

/-- Evaluation of C12 on a queue of two callbacks. -/
theorem pending_drain_on_disconnected_example :
    subscribed_connection.on_disconnected (error_code.other 104)
      = Except.ok ({ subscribed_connection with _op_callbacks := [] },
          [effect.ferror log_message.disconnected_ungracefully,
           effect.invoke (callback.user 1) ⟨reply_type.ERROR, bytes "TCP DISCONNECTED", 0, []⟩,
           effect.invoke (callback.user 2) ⟨reply_type.ERROR, bytes "TCP DISCONNECTED", 0, []⟩,
           effect.disconnected_hook 9 (error_code.other 104)]) := by
  decide

/-! ## Claims C11 to C20 -/

/-- Claim C14. Send failure inside `execute` is atomic for the pending queue: on a connected
connection, when `send` raises `tcp_send_buffer_full` for the encoded command, a non-null
callback is invoked exactly once, with a reply of type ERROR whose `str` is the text of the
exception, and the pending queue after `execute` is the queue before the call; the send
queue is untouched as well. For a callback of the caller the whole state is unchanged. -/
theorem send_failure_is_atomic (c : redis_connection) (cb : callback) (t : List Nat)
    (ts : List (List Nat)) (hconn : c.connected = true)
    (hfull : c._tcp._send_buffer_size + (execute_message t ts).length > SEND_BUFFER_LIMIT) :
    ∃ c1 es, c.execute (some cb) t ts = Except.ok (c1, es) ∧
      invocations es = [(cb, ⟨reply_type.ERROR, send_buffer_full_what, 0, []⟩)] ∧
      c1._op_callbacks = c._op_callbacks ∧
      c1._tcp._send_buffer = c._tcp._send_buffer ∧
      c1._tcp._send_buffer_size = c._tcp._send_buffer_size ∧
      (∀ id, cb = callback.user id → c1 = c ∧
        es = [effect.invoke cb ⟨reply_type.ERROR, send_buffer_full_what, 0, []⟩]) := by
  have hconn1 : c._tcp.connected = true := hconn
  obtain ⟨c2, h2, hq, _, _, _, hb, hbs⟩ :=
    invoke_error_reply { c with _op_callbacks := c._op_callbacks ++ [cb] } cb send_buffer_full_what
  refine ⟨{ c2 with _op_callbacks := c2._op_callbacks.dropLast },
    invoke_error_effects cb send_buffer_full_what, ?_, ?_, ?_, hb, hbs, ?_⟩
  · simp [redis_connection.execute, hconn1, tcp_connection.send, hfull, h2]
  · exact invocations_invoke_error_effects cb send_buffer_full_what
  · simp [hq]
  · intro id hid
    subst hid
    simp only [redis_connection.invoke, Except.ok.injEq, Prod.mk.injEq] at h2
    obtain ⟨rfl, _⟩ := h2
    simp [invoke_error_effects, error_reply, reply.new]

/-- Witness of C14: `GET k` on a connection whose send queue is full. -/
theorem send_failure_is_atomic_witness :
    full_connection.connected = true ∧
    full_connection._tcp._send_buffer_size + (execute_message (bytes "GET") [bytes "k"]).length
      > SEND_BUFFER_LIMIT ∧
    send_buffer_full_what = bytes "ERROR: TCP send buffer is full. Current limit is: 10485760" ∧
    ∃ c1 es, full_connection.execute (some (callback.user 7)) (bytes "GET") [bytes "k"]
        = Except.ok (c1, es) ∧
      invocations es = [(callback.user 7, ⟨reply_type.ERROR, send_buffer_full_what, 0, []⟩)] ∧
      c1._op_callbacks = full_connection._op_callbacks ∧
      c1._tcp._send_buffer = full_connection._tcp._send_buffer ∧
      c1._tcp._send_buffer_size = full_connection._tcp._send_buffer_size ∧
      (∀ id, callback.user 7 = callback.user id → c1 = full_connection ∧
        es = [effect.invoke (callback.user 7)
          ⟨reply_type.ERROR, send_buffer_full_what, 0, []⟩]) :=
  ⟨by decide, by decide, by decide,
    send_failure_is_atomic full_connection (callback.user 7) (bytes "GET") [bytes "k"]
      (by decide) (by decide)⟩

/-- Claim C15. Send cap is strict: for every state of the send queue with running total `T`
and every blob `b`, `send(b)` fails (with `tcp_send_buffer_full`) if and only if
`T + |b| > 10485760`; when it fails the transport is as it was; when it succeeds `b` is
appended at the tail of the queue and the total becomes `T + |b|`. -/
theorem send_cap_is_strict (t : tcp_connection) (b : List Nat) :
    SEND_BUFFER_LIMIT = 10485760 ∧
    ((∃ what, t.send b = Except.error what) ↔ t._send_buffer_size + b.length > 10485760) ∧
    (t._send_buffer_size + b.length > 10485760 →
      t.send b = Except.error send_buffer_full_what ∧ t.after_send b = t) ∧
    (t._send_buffer_size + b.length ≤ 10485760 →
      t.send b = Except.ok ({ t with _send_buffer := t._send_buffer ++ [b],
                                     _send_buffer_size := t._send_buffer_size + b.length },
                            t._send_buffer.isEmpty)) := by
  refine ⟨rfl, ?_, ?_, ?_⟩
  · by_cases h : t._send_buffer_size + b.length > 10485760
    · simp [tcp_connection.send, SEND_BUFFER_LIMIT, h]
    · simp [tcp_connection.send, SEND_BUFFER_LIMIT, h]
  · intro h
    simp [tcp_connection.after_send, tcp_connection.send, SEND_BUFFER_LIMIT, h]
  · intro h
    have h1 : ¬ (t._send_buffer_size + b.length > 10485760) := by omega
    simp [tcp_connection.send, SEND_BUFFER_LIMIT, h1]

/-- Witness of C15: a queue filled to one byte below the cap takes one byte and refuses
two. -/
theorem send_cap_is_strict_witness :
    ({ tcp_connection.new with _send_buffer_size := 10485759 } : tcp_connection)._send_buffer_size
        + [0, 0].length > 10485760 ∧
    ({ tcp_connection.new with _send_buffer_size := 10485759 } : tcp_connection)._send_buffer_size
        + [0].length ≤ 10485760 ∧
    ({ tcp_connection.new with _send_buffer_size := 10485759 } : tcp_connection).send [0, 0]
        = Except.error send_buffer_full_what ∧
    ({ tcp_connection.new with _send_buffer_size := 10485759 } : tcp_connection).send [0]
        = Except.ok ({ tcp_connection.new with _send_buffer := [[0]],
                                               _send_buffer_size := 10485760 }, true) :=
  ⟨by decide, by decide,
    ((send_cap_is_strict { tcp_connection.new with _send_buffer_size := 10485759 } [0, 0]).2.2.1
      (by decide)).1,
    (send_cap_is_strict { tcp_connection.new with _send_buffer_size := 10485759 } [0]).2.2.2
      (by decide)⟩

/-- Claim C19. Duplicate subscription is rejected atomically: for every key `k` already in
the subscription table (of a state with `pubsub_invariant`: pub/sub mode is on whenever the
table is not empty, as in every state the connection reaches), `subscribe(k, ...)` and
`psubscribe(k, ...)` fail with `subscription_already_exists` whose text is exactly `k`, and
leave the whole connection as it was: subscription table with the handlers of `k`, pub/sub
mode, pending queue, send queue; nothing is sent and no callback is invoked. -/
theorem duplicate_subscription_rejected (c : redis_connection) (k : List Nat)
    (callbacks : pubsub_callbacks) (s m u : Option Nat)
    (hk : subs_find c._subs k = some callbacks) (hinv : pubsub_invariant c) :
    c.subscribe k s m u = ⟨c, [], some (exception.subscription_already_exists k)⟩ ∧
    c.psubscribe k s m u = ⟨c, [], some (exception.subscription_already_exists k)⟩ := by
  have hne : c._subs ≠ [] := by
    intro h
    rw [h] at hk
    simp [subs_find] at hk
  have hp := hinv hne
  have hc : { c with _pubsub_mode := true } = c := by
    cases c
    simp only [redis_connection.mk.injEq, true_and, and_true]
    exact hp.symm
  constructor
  · simp [redis_connection.subscribe, hk, hc]
  · simp [redis_connection.psubscribe, hk, hc]

/-- Witness of C19: a second `subscribe("ch")` and a `psubscribe("ch")`. -/
theorem duplicate_subscription_rejected_witness :
    subs_find subscribed_connection._subs (bytes "ch") = some ⟨some 11, some 12, none, some 13⟩ ∧
    pubsub_invariant subscribed_connection ∧
    (subscribed_connection.subscribe (bytes "ch") (some 1) (some 2) (some 3)
        = ⟨subscribed_connection, [], some (exception.subscription_already_exists (bytes "ch"))⟩ ∧
     subscribed_connection.psubscribe (bytes "ch") (some 1) (some 2) (some 3)
        = ⟨subscribed_connection, [],
            some (exception.subscription_already_exists (bytes "ch"))⟩) :=
  ⟨by decide, fun _ => by decide,
    duplicate_subscription_rejected subscribed_connection (bytes "ch")
      ⟨some 11, some 12, none, some 13⟩ (some 1) (some 2) (some 3) (by decide)
      (fun _ => by decide)⟩

/-- Claim C20. Unsubscribing an absent key is rejected: for every key `k` that is not in the
subscription table, `unsubscribe(k)` and `punsubscribe(k)` fail with
`subscription_does_not_exist` whose text is exactly `k`, issue no wire command (no effect,
send queue as it was), and leave the subscription table and the pending queue unchanged. -/
theorem unsubscribe_absent_rejected (c : redis_connection) (k : List Nat)
    (hk : subs_find c._subs k = none) :
    c.unsubscribe k = ⟨c, [], some (exception.subscription_does_not_exist k)⟩ ∧
    c.punsubscribe k = ⟨c, [], some (exception.subscription_does_not_exist k)⟩ := by
  constructor
  · simp [redis_connection.unsubscribe, hk]
  · simp [redis_connection.punsubscribe, hk]

/-- Witness of C20: the key `zz` in a table that holds `ch` and `news.*`. -/
theorem unsubscribe_absent_rejected_witness :
    subs_find subscribed_connection._subs (bytes "zz") = none ∧
    (subscribed_connection.unsubscribe (bytes "zz")
        = ⟨subscribed_connection, [], some (exception.subscription_does_not_exist (bytes "zz"))⟩ ∧
     subscribed_connection.punsubscribe (bytes "zz")
        = ⟨subscribed_connection, [],
            some (exception.subscription_does_not_exist (bytes "zz"))⟩) :=
  ⟨by decide, unsubscribe_absent_rejected subscribed_connection (bytes "zz") (by decide)⟩

theorem toupper_eq_iff (x y : Nat) (hy : 65 ≤ y ∧ y ≤ 90) : toupper x = y ↔ same_letter x y := by
  unfold toupper same_letter
  constructor
  · intro h
    split at h <;> omega
  · intro h
    split <;> omega

theorem map_toupper_eq_iff : ∀ (a target : List Nat), (∀ y ∈ target, 65 ≤ y ∧ y ≤ 90) →
    (a.map toupper = target ↔ eq_ignoring_case a target) := by
  intro a
  induction a with
  | nil =>
    intro target _
    cases target <;> simp [eq_ignoring_case]
  | cons x a ih =>
    intro target ht
    cases target with
    | nil => simp [eq_ignoring_case]
    | cons y target =>
      have hy := ht y (by simp)
      have ht1 : ∀ z ∈ target, 65 ≤ z ∧ z ≤ 90 := fun z hz => ht z (by simp [hz])
      have := ih target ht1
      simp only [eq_ignoring_case] at this ⊢
      simp only [List.map_cons, List.cons.injEq, List.forall₂_cons, toupper_eq_iff x y hy, this]

/-- The condition `check_subscribe_callback` tests is the routing condition `is_push`. -/
theorem is_push_iff (r : reply) :
    is_push r ↔ (r.type = reply_type.ARRAY ∧ ¬ r.elements.length = 0 ∧
      (r.elements.getD 0 reply.new).type = reply_type.STRING ∧
      ((r.elements.getD 0 reply.new).str.map toupper = bytes "MESSAGE" ∨
       (r.elements.getD 0 reply.new).str.map toupper = bytes "UNSUBSCRIBE" ∨
       (r.elements.getD 0 reply.new).str.map toupper = bytes "PMESSAGE" ∨
       (r.elements.getD 0 reply.new).str.map toupper = bytes "PUNSUBSCRIBE")) := by
  have h1 := fun a => map_toupper_eq_iff a (bytes "MESSAGE") (by decide)
  have h2 := fun a => map_toupper_eq_iff a (bytes "UNSUBSCRIBE") (by decide)
  have h3 := fun a => map_toupper_eq_iff a (bytes "PMESSAGE") (by decide)
  have h4 := fun a => map_toupper_eq_iff a (bytes "PUNSUBSCRIBE") (by decide)
  unfold is_push
  constructor
  · rintro ⟨ht, first, rest, he, hs, hc⟩
    rw [he]
    refine ⟨ht, by simp, by simpa using hs, ?_⟩
    simp only [List.getD_cons_zero, h1, h2, h3, h4]
    tauto
  · rintro ⟨ht, hl, hs, hc⟩
    cases he : r.elements with
    | nil => simp [he] at hl
    | cons first rest =>
      rw [he] at hs hc
      simp only [List.getD_cons_zero, h1, h2, h3, h4] at hs hc
      exact ⟨ht, first, rest, rfl, hs, by tauto⟩

theorem handler_result_frame (c c1 : redis_connection) (es : List effect)
    (h : handler_result c c1 es) : c1._op_callbacks = c._op_callbacks ∧ invocations es = [] := by
  rcases h with ⟨m, rfl, rfl⟩ | ⟨_, hq, _, _, _, _, hi, _⟩
  · exact ⟨rfl, rfl⟩
  · exact ⟨hq, hi⟩

theorem on_read_routed (c : redis_connection) (r : reply) (hmode : c._pubsub_mode = true)
    (hpush : is_push r) : c.on_read r = c.on_subscribe_callback r := by
  obtain ⟨ht, hl, hs, hc⟩ := (is_push_iff r).mp hpush
  unfold redis_connection.on_read redis_connection.check_subscribe_callback
  rw [if_pos hmode, if_pos ht, if_neg hl, if_pos hs]
  dsimp only
  rw [if_pos hc]
  cases c.on_subscribe_callback r with
  | error e => rfl
  | ok v => rfl

theorem on_read_not_routed (c : redis_connection) (r : reply)
    (h : ¬ (c._pubsub_mode = true ∧ is_push r)) :
    c.on_read r =
      match c._op_callbacks with
      | [] => Except.ok (c.ferror_reconnect log_message.no_stored_callback)
      | op_callback :: _ =>
        match c.invoke op_callback r with
        | Except.error e => Except.error e
        | Except.ok (c1, effects) =>
          Except.ok ({ c1 with _op_callbacks := c1._op_callbacks.tail }, effects) := by
  unfold redis_connection.on_read
  by_cases hmode : c._pubsub_mode = true
  · have hp : ¬ is_push r := fun hp => h ⟨hmode, hp⟩
    rw [is_push_iff] at hp
    rw [if_pos hmode]
    unfold redis_connection.check_subscribe_callback
    by_cases ht : r.type = reply_type.ARRAY
    · rw [if_pos ht]
      by_cases hl : r.elements.length = 0
      · rw [if_pos hl]
      · rw [if_neg hl]
        by_cases hs : (r.elements.getD 0 reply.new).type = reply_type.STRING
        · rw [if_pos hs]
          dsimp only
          rw [if_neg (fun hc => hp ⟨ht, hl, hs, hc⟩)]
        · rw [if_neg hs]
    · rw [if_neg ht]
  · rw [if_neg hmode]

theorem invoke_frame (c : redis_connection) (cb : callback) (r : reply) (c1 : redis_connection)
    (es : List effect) (h : c.invoke cb r = Except.ok (c1, es)) :
    c1._op_callbacks = c._op_callbacks ∧ invocations es = [(cb, r)] := by
  cases cb with
  | user id =>
    simp only [redis_connection.invoke, Except.ok.injEq, Prod.mk.injEq] at h
    obtain ⟨rfl, rfl⟩ := h
    exact ⟨rfl, rfl⟩
  | on_subscribe_callback =>
    simp only [redis_connection.invoke] at h
    cases h1 : c.on_subscribe_callback r with
    | error e => rw [h1] at h; cases h
    | ok v =>
      obtain ⟨c2, es2⟩ := v
      rw [h1] at h
      simp only [Except.ok.injEq, Prod.mk.injEq] at h
      obtain ⟨rfl, rfl⟩ := h
      obtain ⟨hq, hi⟩ := handler_result_frame c c2 es2 (on_subscribe_callback_cases c r c2 es2 h1)
      exact ⟨hq, by simp [invocations, hi]⟩

/-- Claim C16. Pub/sub routing and isolation: a parsed reply is handed to the pub/sub
handler, without any pending-queue callback being popped or invoked, if and only if pub/sub
mode is active and the reply is an ARRAY with at least one element whose first element is a
STRING equal, ignoring ASCII case, to MESSAGE, PMESSAGE, UNSUBSCRIBE or PUNSUBSCRIBE
(`is_push`). Every other reply is matched against the pending queue: its head is invoked with
the reply and popped (with an empty queue the reply is dropped and the transport is
reconnected). -/
theorem pubsub_routing (c : redis_connection) (r : reply) :
    ((c._pubsub_mode = true ∧ is_push r) →
      c.on_read r = c.on_subscribe_callback r ∧
      ∀ c1 es, c.on_read r = Except.ok (c1, es) →
        c1._op_callbacks = c._op_callbacks ∧ invocations es = []) ∧
    (¬ (c._pubsub_mode = true ∧ is_push r) →
      (c._op_callbacks = [] →
        c.on_read r = Except.ok (c.ferror_reconnect log_message.no_stored_callback)) ∧
      (∀ id rest, c._op_callbacks = callback.user id :: rest →
        c.on_read r = Except.ok ({ c with _op_callbacks := rest },
          [effect.invoke (callback.user id) r])) ∧
      (∀ cb rest c1 es, c._op_callbacks = cb :: rest → c.on_read r = Except.ok (c1, es) →
        c1._op_callbacks = rest ∧ invocations es = [(cb, r)])) := by
  constructor
  · rintro ⟨hmode, hpush⟩
    have hr := on_read_routed c r hmode hpush
    refine ⟨hr, ?_⟩
    intro c1 es h
    rw [hr] at h
    exact handler_result_frame c c1 es (on_subscribe_callback_cases c r c1 es h)
  · intro hn
    have hr := on_read_not_routed c r hn
    refine ⟨?_, ?_, ?_⟩
    · intro hq
      rw [hr, hq]
    · intro id rest hq
      rw [hr, hq]
      simp [redis_connection.invoke, hq]
    · intro cb rest c1 es hq h
      rw [hr, hq] at h
      dsimp only at h
      cases h1 : c.invoke cb r with
      | error e => rw [h1] at h; cases h
      | ok v =>
        obtain ⟨c2, es2⟩ := v
        rw [h1] at h
        simp only [Except.ok.injEq, Prod.mk.injEq] at h
        obtain ⟨rfl, rfl⟩ := h
        obtain ⟨hq2, hi⟩ := invoke_frame c cb r c2 es2 h1
        exact ⟨by simp [hq2, hq], hi⟩

/-- Witness of C16: in pub/sub mode `[mEsSaGe, ch, hi]` goes to the handler of `ch` and the
two pending callbacks stay; `+OK` goes to the head of the pending queue. -/
theorem pubsub_routing_witness :
    (subscribed_connection._pubsub_mode = true ∧
      is_push ⟨reply_type.ARRAY, [], 0,
        [⟨reply_type.STRING, bytes "mEsSaGe", 0, []⟩, ⟨reply_type.STRING, bytes "ch", 0, []⟩,
         ⟨reply_type.STRING, bytes "hi", 0, []⟩]⟩) ∧
    ¬ (subscribed_connection._pubsub_mode = true ∧ is_push ⟨reply_type.STRING, bytes "OK", 0, []⟩) ∧
    subscribed_connection.on_read ⟨reply_type.ARRAY, [], 0,
        [⟨reply_type.STRING, bytes "mEsSaGe", 0, []⟩, ⟨reply_type.STRING, bytes "ch", 0, []⟩,
         ⟨reply_type.STRING, bytes "hi", 0, []⟩]⟩
      = Except.ok (subscribed_connection, [effect.message 12 (bytes "ch") (bytes "hi")]) ∧
    subscribed_connection.on_read ⟨reply_type.STRING, bytes "OK", 0, []⟩
      = Except.ok ({ subscribed_connection with _op_callbacks := [callback.user 2] },
          [effect.invoke (callback.user 1) ⟨reply_type.STRING, bytes "OK", 0, []⟩]) :=
  ⟨⟨by decide, (is_push_iff _).mpr (by decide)⟩,
    fun h => absurd ((is_push_iff _).mp h.2) (by decide),
    ((pubsub_routing subscribed_connection _).1
      ⟨by decide, (is_push_iff _).mpr (by decide)⟩).1.trans (by decide),
    ((pubsub_routing subscribed_connection ⟨reply_type.STRING, bytes "OK", 0, []⟩).2
      (fun h => absurd ((is_push_iff _).mp h.2) (by decide))).2.1 1 [callback.user 2] (by decide)⟩

/-- Claim C17. Push delivery: in pub/sub mode, for every reply `[message, ch, p]` (the
command in any case) where `ch` is the key of a subscription with an `on_message` handler,
that handler is invoked exactly once with `(ch, p)`; and, independently of the first half,
for every reply `[pmessage, pat, ch, p]` where `pat` is the key of a subscription with an
`on_pmessage` handler, that handler is invoked exactly once with `(pat, ch, p)`. Each half
asks for its own subscription only: the table may hold channel subscriptions only, pattern
subscriptions only, or both. In both cases this is the only effect and the whole connection,
subscription table and pending queue included, is unchanged. -/
theorem push_delivery (c : redis_connection) (hmode : c._pubsub_mode = true) :
    (∀ (m ch p : List Nat) (callbacks : pubsub_callbacks) (h : Nat),
      eq_ignoring_case m (bytes "MESSAGE") →
      subs_find c._subs ch = some callbacks → callbacks.change_callback = some h →
      c.on_read ⟨reply_type.ARRAY, [], 0,
          [⟨reply_type.STRING, m, 0, []⟩, ⟨reply_type.STRING, ch, 0, []⟩,
           ⟨reply_type.STRING, p, 0, []⟩]⟩
        = Except.ok (c, [effect.message h ch p])) ∧
    (∀ (pm pat pch pp : List Nat) (pcallbacks : pubsub_callbacks) (ph : Nat),
      eq_ignoring_case pm (bytes "PMESSAGE") →
      subs_find c._subs pat = some pcallbacks →
      pcallbacks.pattern_change_callback = some ph →
      c.on_read ⟨reply_type.ARRAY, [], 0,
          [⟨reply_type.STRING, pm, 0, []⟩, ⟨reply_type.STRING, pat, 0, []⟩,
           ⟨reply_type.STRING, pch, 0, []⟩, ⟨reply_type.STRING, pp, 0, []⟩]⟩
        = Except.ok (c, [effect.pmessage ph pat pch pp])) := by
  have n1 : (bytes "MESSAGE" = bytes "SUBSCRIBE") = False := eq_false (by decide)
  have n2 : (bytes "MESSAGE" = bytes "PSUBSCRIBE") = False := eq_false (by decide)
  have n3 : (bytes "PMESSAGE" = bytes "SUBSCRIBE") = False := eq_false (by decide)
  have n4 : (bytes "PMESSAGE" = bytes "PSUBSCRIBE") = False := eq_false (by decide)
  have n5 : (bytes "PMESSAGE" = bytes "MESSAGE") = False := eq_false (by decide)
  have n6 : (bytes "PMESSAGE" = bytes "UNSUBSCRIBE") = False := eq_false (by decide)
  constructor
  · intro m ch p callbacks h hm hfind hcb
    have hu := (map_toupper_eq_iff m (bytes "MESSAGE") (by decide)).mpr hm
    have hpush : is_push ⟨reply_type.ARRAY, [], 0,
        [⟨reply_type.STRING, m, 0, []⟩, ⟨reply_type.STRING, ch, 0, []⟩,
         ⟨reply_type.STRING, p, 0, []⟩]⟩ := by
      rw [is_push_iff]
      exact ⟨rfl, by simp, rfl, Or.inl hu⟩
    rw [on_read_routed c _ hmode hpush]
    simp only [redis_connection.on_subscribe_callback, redis_connection.on_subscribe_command,
      redis_connection.on_message_branch, List.getD_cons_zero, List.getD_cons_succ, hu, n1, n2,
      hfind, hcb, List.length_cons, List.length_nil, if_true, if_false, or_self]
    simp
  · intro pm pat pch pp pcallbacks ph hpm hpfind hpcb
    have hpu := (map_toupper_eq_iff pm (bytes "PMESSAGE") (by decide)).mpr hpm
    have hpush : is_push ⟨reply_type.ARRAY, [], 0,
        [⟨reply_type.STRING, pm, 0, []⟩, ⟨reply_type.STRING, pat, 0, []⟩,
         ⟨reply_type.STRING, pch, 0, []⟩, ⟨reply_type.STRING, pp, 0, []⟩]⟩ := by
      rw [is_push_iff]
      exact ⟨rfl, by simp, rfl, Or.inr (Or.inr (Or.inl hpu))⟩
    rw [on_read_routed c _ hmode hpush]
    simp only [redis_connection.on_subscribe_callback, redis_connection.on_subscribe_command,
      redis_connection.on_pmessage_branch, List.getD_cons_zero, List.getD_cons_succ, hpu, n3, n4,
      n5, n6, hpfind, hpcb, List.length_cons, List.length_nil, if_true, if_false, or_self]
    simp

/-- Witness of C17: `[message, ch, hello]` on a connection whose table holds the channel
subscription `ch` and nothing else; `[Message, ch, hello]` and
`[pmessage, news.*, news.it, x]` on a connection with a channel and a pattern
subscription. -/
theorem push_delivery_witness :
    channel_only_connection._pubsub_mode = true ∧
    channel_only_connection._subs = [(bytes "ch", ⟨some 11, some 12, none, some 13⟩)] ∧
    eq_ignoring_case (bytes "message") (bytes "MESSAGE") ∧
    subs_find channel_only_connection._subs (bytes "ch")
      = some ⟨some 11, some 12, none, some 13⟩ ∧
    channel_only_connection.on_read ⟨reply_type.ARRAY, [], 0,
        [⟨reply_type.STRING, bytes "message", 0, []⟩, ⟨reply_type.STRING, bytes "ch", 0, []⟩,
         ⟨reply_type.STRING, bytes "hello", 0, []⟩]⟩
      = Except.ok (channel_only_connection,
          [effect.message 12 (bytes "ch") (bytes "hello")]) ∧
    subscribed_connection._pubsub_mode = true ∧
    eq_ignoring_case (bytes "Message") (bytes "MESSAGE") ∧
    subs_find subscribed_connection._subs (bytes "ch") = some ⟨some 11, some 12, none, some 13⟩ ∧
    subscribed_connection.on_read ⟨reply_type.ARRAY, [], 0,
        [⟨reply_type.STRING, bytes "Message", 0, []⟩, ⟨reply_type.STRING, bytes "ch", 0, []⟩,
         ⟨reply_type.STRING, bytes "hello", 0, []⟩]⟩
      = Except.ok (subscribed_connection, [effect.message 12 (bytes "ch") (bytes "hello")]) ∧
    eq_ignoring_case (bytes "pmessage") (bytes "PMESSAGE") ∧
    subs_find subscribed_connection._subs (bytes "news.*")
      = some ⟨some 21, none, some 22, some 23⟩ ∧
    subscribed_connection.on_read ⟨reply_type.ARRAY, [], 0,
        [⟨reply_type.STRING, bytes "pmessage", 0, []⟩, ⟨reply_type.STRING, bytes "news.*", 0, []⟩,
         ⟨reply_type.STRING, bytes "news.it", 0, []⟩, ⟨reply_type.STRING, bytes "x", 0, []⟩]⟩
      = Except.ok (subscribed_connection,
          [effect.pmessage 22 (bytes "news.*") (bytes "news.it") (bytes "x")]) :=
  ⟨by decide, by decide, (map_toupper_eq_iff _ _ (by decide)).mp (by decide), by decide,
    (push_delivery channel_only_connection (by decide)).1 (bytes "message") (bytes "ch")
      (bytes "hello") ⟨some 11, some 12, none, some 13⟩ 12
      ((map_toupper_eq_iff _ _ (by decide)).mp (by decide)) (by decide) rfl,
    by decide, (map_toupper_eq_iff _ _ (by decide)).mp (by decide), by decide,
    (push_delivery subscribed_connection (by decide)).1 (bytes "Message") (bytes "ch")
      (bytes "hello") ⟨some 11, some 12, none, some 13⟩ 12
      ((map_toupper_eq_iff _ _ (by decide)).mp (by decide)) (by decide) rfl,
    (map_toupper_eq_iff _ _ (by decide)).mp (by decide), by decide,
    (push_delivery subscribed_connection (by decide)).2 (bytes "pmessage") (bytes "news.*")
      (bytes "news.it") (bytes "x") ⟨some 21, none, some 22, some 23⟩ 22
      ((map_toupper_eq_iff _ _ (by decide)).mp (by decide)) (by decide) rfl⟩

/-- Claim C18, refuted as stated. On a connected connection whose send queue is full,
`subscribe("ch", ...)` for a key that is not in the table returns with the entry inserted and
pub/sub mode on, but with no callback appended to the pending queue: `send` raises, the
bound `on_subscribe_callback` is invoked with the error reply and popped again, and it calls
`_tcp.reconnect()`. -/
theorem subscribe_with_full_send_queue :
    full_connection.connected = true ∧ subs_find full_connection._subs (bytes "ch") = none ∧
    (full_connection.subscribe (bytes "ch") (some 11) (some 12) (some 13)).state._op_callbacks
      = full_connection._op_callbacks ∧
    (full_connection.subscribe (bytes "ch") (some 11) (some 12) (some 13)).effects
      = [effect.invoke callback.on_subscribe_callback
            ⟨reply_type.ERROR, send_buffer_full_what, 0, []⟩,
         effect.ferror log_message.non_valid_subscribe_response, effect.reconnect] ∧
    (full_connection.subscribe (bytes "ch") (some 11) (some 12) (some 13)).raised = none ∧
    ¬ (∀ (c : redis_connection) (ch : List Nat) (s m u : Option Nat),
        c.connected = true → subs_find c._subs ch = none →
        (c.subscribe ch s m u).state._op_callbacks
          = c._op_callbacks ++ [callback.on_subscribe_callback]) := by
  have h1 : (full_connection.subscribe (bytes "ch") (some 11) (some 12)
      (some 13)).state._op_callbacks = full_connection._op_callbacks := by decide
  refine ⟨by decide, by decide, h1, by decide, by decide, ?_⟩
  intro hall
  have h2 := hall full_connection (bytes "ch") (some 11) (some 12) (some 13) (by decide)
    (by decide)
  rw [h1] at h2
  exact absurd h2 (by decide)

theorem not_push_of_subscribe (r : reply)
    (hu : (r.elements.getD 0 reply.new).str.map toupper = bytes "SUBSCRIBE" ∨
          (r.elements.getD 0 reply.new).str.map toupper = bytes "PSUBSCRIBE") :
    ¬ is_push r := by
  rw [is_push_iff]
  rintro ⟨_, _, _, hc⟩
  rcases hu with hu | hu <;> rw [hu] at hc <;> revert hc <;> decide

/-- Claim C18, amended. When `subscribe(ch, ...)` (or `psubscribe`) is called on a connected
connection whose table does not contain `ch` and whose send queue has room for the command,
then on return the table maps `ch` to the given handlers (the pmessage handler absent for a
channel subscription, the message handler absent for a pattern subscription), pub/sub mode
is on, exactly one callback (the bound `on_subscribe_callback`) has been appended to the
pending queue and the command is at the tail of the send queue. When the reply
`[subscribe, ch, n]` (resp. `[psubscribe, ch, n]`, in any case) with `n` an integer is then
matched to that callback at the head of the pending queue, the `on_subscribed` handler of
`ch` is invoked exactly once, the callback is popped and the table is unchanged. Each of the
three parts (`subscribe`, `psubscribe`, the confirmation) has its own conditions only. -/
theorem subscribe_registers_and_confirms (ch : List Nat) :
    (∀ (c : redis_connection) (s m u : Option Nat), c.connected = true →
      subs_find c._subs ch = none →
      c._tcp._send_buffer_size + (execute_message (bytes "SUBSCRIBE") [ch]).length
        ≤ SEND_BUFFER_LIMIT →
      c.subscribe ch s m u
        = ⟨{ c with _pubsub_mode := true,
                    _subs := c._subs ++ [(ch, ⟨s, m, none, u⟩)],
                    _op_callbacks := c._op_callbacks ++ [callback.on_subscribe_callback],
                    _tcp := { c._tcp with
                      _send_buffer := c._tcp._send_buffer
                        ++ [execute_message (bytes "SUBSCRIBE") [ch]],
                      _send_buffer_size := c._tcp._send_buffer_size
                        + (execute_message (bytes "SUBSCRIBE") [ch]).length } },
            if c._tcp._send_buffer.isEmpty then [effect.dispatch_try_to_send] else [], none⟩) ∧
    (∀ (c : redis_connection) (s m u : Option Nat), c.connected = true →
      subs_find c._subs ch = none →
      c._tcp._send_buffer_size + (execute_message (bytes "PSUBSCRIBE") [ch]).length
        ≤ SEND_BUFFER_LIMIT →
      c.psubscribe ch s m u
        = ⟨{ c with _pubsub_mode := true,
                    _subs := c._subs ++ [(ch, ⟨s, none, m, u⟩)],
                    _op_callbacks := c._op_callbacks ++ [callback.on_subscribe_callback],
                    _tcp := { c._tcp with
                      _send_buffer := c._tcp._send_buffer
                        ++ [execute_message (bytes "PSUBSCRIBE") [ch]],
                      _send_buffer_size := c._tcp._send_buffer_size
                        + (execute_message (bytes "PSUBSCRIBE") [ch]).length } },
            if c._tcp._send_buffer.isEmpty then [effect.dispatch_try_to_send] else [], none⟩) ∧
    (∀ (c2 : redis_connection) (rest : List callback) (w : List Nat) (n : Int)
      (callbacks : pubsub_callbacks) (hs : Nat),
      c2._op_callbacks = callback.on_subscribe_callback :: rest →
      subs_find c2._subs ch = some callbacks →
      callbacks.subscribed_callback = some hs →
      eq_ignoring_case w (bytes "SUBSCRIBE") ∨ eq_ignoring_case w (bytes "PSUBSCRIBE") →
      c2.on_read ⟨reply_type.ARRAY, [], 0,
          [⟨reply_type.STRING, w, 0, []⟩, ⟨reply_type.STRING, ch, 0, []⟩,
           ⟨reply_type.INTEGER, [], n, []⟩]⟩
        = Except.ok ({ c2 with _op_callbacks := rest },
            [effect.invoke callback.on_subscribe_callback ⟨reply_type.ARRAY, [], 0,
                [⟨reply_type.STRING, w, 0, []⟩, ⟨reply_type.STRING, ch, 0, []⟩,
                 ⟨reply_type.INTEGER, [], n, []⟩]⟩,
             effect.subscribed hs])) := by
  refine ⟨?_, ?_, ?_⟩
  · intro c s m u hconn habsent hroom
    have hconn1 : c._tcp.connected = true := hconn
    have hr1 : ¬ (c._tcp._send_buffer_size + (execute_message (bytes "SUBSCRIBE") [ch]).length
        > SEND_BUFFER_LIMIT) := by omega
    simp [redis_connection.subscribe, habsent, subs_assign, redis_connection.execute,
      tcp_connection.connected, tcp_connection.send, hr1] at hconn1 ⊢
    simp [hconn1]
  · intro c s m u hconn habsent hproom
    have hconn1 : c._tcp.connected = true := hconn
    have hr2 : ¬ (c._tcp._send_buffer_size + (execute_message (bytes "PSUBSCRIBE") [ch]).length
        > SEND_BUFFER_LIMIT) := by omega
    simp [redis_connection.psubscribe, habsent, subs_assign, redis_connection.execute,
      tcp_connection.connected, tcp_connection.send, hr2] at hconn1 ⊢
    simp [hconn1]
  · intro c2 rest w n callbacks hs hhead hfind hcb hw
    have hu : w.map toupper = bytes "SUBSCRIBE" ∨ w.map toupper = bytes "PSUBSCRIBE" := by
      rcases hw with hw | hw
      · exact Or.inl ((map_toupper_eq_iff w _ (by decide)).mpr hw)
      · exact Or.inr ((map_toupper_eq_iff w _ (by decide)).mpr hw)
    have hnp := not_push_of_subscribe ⟨reply_type.ARRAY, [], 0,
        [⟨reply_type.STRING, w, 0, []⟩, ⟨reply_type.STRING, ch, 0, []⟩,
         ⟨reply_type.INTEGER, [], n, []⟩]⟩ (by simpa using hu)
    rw [on_read_not_routed c2 _ (fun h => hnp h.2), hhead]
    simp only [redis_connection.invoke, redis_connection.on_subscribe_callback,
      redis_connection.on_subscribe_command, redis_connection.on_subscribe_branch,
      List.getD_cons_zero, List.getD_cons_succ, hu, hfind, hcb, List.length_cons,
      List.length_nil, if_true]
    simp [hhead]

/-- Witness of C18 as amended: `subscribe("ch", ...)` on a fresh connected connection, then
the reply `[subscribe, ch, 1]`. -/
theorem subscribe_registers_and_confirms_witness :
    connected_connection.connected = true ∧
    subs_find connected_connection._subs (bytes "ch") = none ∧
    connected_connection._tcp._send_buffer_size
      + (execute_message (bytes "SUBSCRIBE") [bytes "ch"]).length ≤ SEND_BUFFER_LIMIT ∧
    (connected_connection.subscribe (bytes "ch") (some 11) (some 12) (some 13)).state._subs
      = [(bytes "ch", ⟨some 11, some 12, none, some 13⟩)] ∧
    (connected_connection.subscribe (bytes "ch") (some 11) (some 12) (some 13)).state._op_callbacks
      = [callback.on_subscribe_callback] ∧
    confirming_connection._op_callbacks = callback.on_subscribe_callback :: [] ∧
    subs_find confirming_connection._subs (bytes "ch") = some ⟨some 11, some 12, none, some 13⟩ ∧
    (eq_ignoring_case (bytes "subscribe") (bytes "SUBSCRIBE") ∨
      eq_ignoring_case (bytes "subscribe") (bytes "PSUBSCRIBE")) ∧
    confirming_connection.on_read ⟨reply_type.ARRAY, [], 0,
        [⟨reply_type.STRING, bytes "subscribe", 0, []⟩, ⟨reply_type.STRING, bytes "ch", 0, []⟩,
         ⟨reply_type.INTEGER, [], 1, []⟩]⟩
      = Except.ok ({ confirming_connection with _op_callbacks := [] },
          [effect.invoke callback.on_subscribe_callback ⟨reply_type.ARRAY, [], 0,
              [⟨reply_type.STRING, bytes "subscribe", 0, []⟩,
               ⟨reply_type.STRING, bytes "ch", 0, []⟩, ⟨reply_type.INTEGER, [], 1, []⟩]⟩,
           effect.subscribed 11]) :=
  ⟨by decide, by decide, by decide,
    (congrArg (fun o => o.state._subs)
      ((subscribe_registers_and_confirms (bytes "ch")).1 connected_connection (some 11)
        (some 12) (some 13) (by decide) (by decide) (by decide))).trans (by decide),
    (congrArg (fun o => o.state._op_callbacks)
      ((subscribe_registers_and_confirms (bytes "ch")).1 connected_connection (some 11)
        (some 12) (some 13) (by decide) (by decide) (by decide))).trans (by decide),
    by decide, by decide,
    Or.inl ((map_toupper_eq_iff _ _ (by decide)).mp (by decide)),
    (subscribe_registers_and_confirms (bytes "ch")).2.2 confirming_connection []
      (bytes "subscribe") 1 ⟨some 11, some 12, none, some 13⟩ 11 (by decide) (by decide) rfl
      (Or.inl ((map_toupper_eq_iff _ _ (by decide)).mp (by decide)))⟩

theorem execute_all_accepted : ∀ (cmds : List (Nat × List Nat × List (List Nat)))
    (c : redis_connection), c.connected = true →
    c._tcp._send_buffer_size + total_length (cmds.map user_command) ≤ SEND_BUFFER_LIMIT →
    ∃ c1 es, redis_connection.execute_all (cmds.map user_command) c = Except.ok (c1, es) ∧
      invocations es = [] ∧
      c1._op_callbacks = c._op_callbacks ++ cmds.map (fun x => callback.user x.1) ∧
      c1._pubsub_mode = c._pubsub_mode ∧ c1.connected = true := by
  intro cmds
  induction cmds with
  | nil =>
    intro c hconn _
    exact ⟨c, [], rfl, rfl, by simp, rfl, hconn⟩
  | cons x cmds ih =>
    intro c hconn hroom
    obtain ⟨id, t, ts⟩ := x
    have hconn1 : c._tcp.connected = true := hconn
    simp only [List.map_cons, user_command, total_length] at hroom
    have hr : ¬ (c._tcp._send_buffer_size + (execute_message t ts).length > SEND_BUFFER_LIMIT) := by
      omega
    have hex : c.execute (some (callback.user id)) t ts
        = Except.ok ({ c with
            _op_callbacks := c._op_callbacks ++ [callback.user id],
            _tcp := { c._tcp with
              _send_buffer_size := c._tcp._send_buffer_size + (execute_message t ts).length,
              _send_buffer := c._tcp._send_buffer ++ [execute_message t ts] } },
          if c._tcp._send_buffer.isEmpty then [effect.dispatch_try_to_send] else []) := by
      simp [redis_connection.execute, hconn1, tcp_connection.send, hr]
    obtain ⟨c2, es2, h2, hi2, hq2, hp2, hc2⟩ := ih
      { c with
        _op_callbacks := c._op_callbacks ++ [callback.user id],
        _tcp := { c._tcp with
          _send_buffer_size := c._tcp._send_buffer_size + (execute_message t ts).length,
          _send_buffer := c._tcp._send_buffer ++ [execute_message t ts] } }
      (by simpa [redis_connection.connected, tcp_connection.connected] using hconn1)
      (by simp only; omega)
    refine ⟨c2,
      (if c._tcp._send_buffer.isEmpty then [effect.dispatch_try_to_send] else []) ++ es2,
      ?_, ?_, ?_, hp2, hc2⟩
    · simp only [List.map_cons, user_command, redis_connection.execute_all, hex, h2]
    · rw [invocations_append, hi2]
      split <;> rfl
    · simp [hq2]

theorem on_read_all_fifo : ∀ (cmds : List (Nat × List Nat × List (List Nat)))
    (replies : List reply) (c : redis_connection) (rest : List callback),
    c._op_callbacks = cmds.map (fun x => callback.user x.1) ++ rest →
    replies.length = cmds.length →
    (∀ r ∈ replies, ¬ (c._pubsub_mode = true ∧ is_push r)) →
    redis_connection.on_read_all replies c
      = Except.ok ({ c with _op_callbacks := rest },
          List.zipWith (fun x r => effect.invoke (callback.user x.1) r) cmds replies) := by
  intro cmds
  induction cmds with
  | nil =>
    intro replies c rest hq hlen _
    cases replies with
    | nil =>
      simp only [List.map_nil, List.nil_append] at hq
      simp [redis_connection.on_read_all, ← hq]
    | cons r replies => simp at hlen
  | cons x cmds ih =>
    intro replies c rest hq hlen hnot
    cases replies with
    | nil => simp at hlen
    | cons r replies =>
      simp only [List.map_cons, List.cons_append] at hq
      have hr := on_read_not_routed c r (hnot r (by simp))
      rw [hq] at hr
      simp only [redis_connection.invoke, hq, List.tail_cons] at hr
      have hrest := ih replies
        { c with _op_callbacks := cmds.map (fun x => callback.user x.1) ++ rest } rest rfl
        (by simpa using hlen) (fun r1 h1 => hnot r1 (by simp [h1]))
      simp only [redis_connection.on_read_all, hr, hrest, List.zipWith_cons_cons,
        List.singleton_append]

/-- Claim C11. FIFO correlation: starting from a connected connection with an empty pending
queue, if commands with the callbacks `c1..ck` of the caller are executed in that order (the
send queue having room for all of them) and then the replies `r1..rk` arrive, none of which
is routed to the pub/sub handler, then the executes invoke no callback and queue `c1..ck`;
the replies invoke `ci` with `ri`, once each and in the order `i = 1..k`, and nothing else
happens; and the pending queue is empty afterwards. -/
theorem fifo_correlation (c : redis_connection)
    (cmds : List (Nat × List Nat × List (List Nat))) (replies : List reply)
    (hconn : c.connected = true) (hempty : c._op_callbacks = [])
    (hlen : replies.length = cmds.length)
    (hroom : c._tcp._send_buffer_size + total_length (cmds.map user_command)
      ≤ SEND_BUFFER_LIMIT)
    (hnot : ∀ r ∈ replies, ¬ (c._pubsub_mode = true ∧ is_push r)) :
    ∃ c1 es, redis_connection.execute_all (cmds.map user_command) c = Except.ok (c1, es) ∧
      invocations es = [] ∧
      c1._op_callbacks = cmds.map (fun x => callback.user x.1) ∧
      redis_connection.on_read_all replies c1
        = Except.ok ({ c1 with _op_callbacks := [] },
            List.zipWith (fun x r => effect.invoke (callback.user x.1) r) cmds replies) := by
  obtain ⟨c1, es, h1, hi, hq, hp, _⟩ := execute_all_accepted cmds c hconn hroom
  rw [hempty, List.nil_append] at hq
  refine ⟨c1, es, h1, hi, hq, ?_⟩
  exact on_read_all_fifo cmds replies c1 [] (by simp [hq]) hlen (by rw [hp]; exact hnot)

/-- Witness of C11: three commands and their three replies. -/
theorem fifo_correlation_witness :
    connected_connection.connected = true ∧ connected_connection._op_callbacks = [] ∧
    sample_replies.length = sample_commands.length ∧
    connected_connection._tcp._send_buffer_size
      + total_length (sample_commands.map user_command) ≤ SEND_BUFFER_LIMIT ∧
    (∀ r ∈ sample_replies, ¬ (connected_connection._pubsub_mode = true ∧ is_push r)) ∧
    List.zipWith (fun (x : Nat × List Nat × List (List Nat)) r =>
        effect.invoke (callback.user x.1) r) sample_commands sample_replies
      = [effect.invoke (callback.user 1) ⟨reply_type.STRING, bytes "v", 0, []⟩,
         effect.invoke (callback.user 2) ⟨reply_type.INTEGER, [], 11, []⟩,
         effect.invoke (callback.user 3) ⟨reply_type.NIL, [], 0, []⟩] ∧
    ∃ c1 es,
      redis_connection.execute_all (sample_commands.map user_command) connected_connection
        = Except.ok (c1, es) ∧
      invocations es = [] ∧
      c1._op_callbacks = sample_commands.map (fun x => callback.user x.1) ∧
      redis_connection.on_read_all sample_replies c1
        = Except.ok ({ c1 with _op_callbacks := [] },
            List.zipWith (fun x r => effect.invoke (callback.user x.1) r)
              sample_commands sample_replies) :=
  ⟨by decide, by decide, by decide, by decide,
    fun r _ h => absurd h.1 (by decide), by decide,
    fifo_correlation connected_connection sample_commands sample_replies (by decide) (by decide)
      (by decide) (by decide) (fun r _ h => absurd h.1 (by decide))⟩

/-! ## Lemmas: the invariant of the subscription state -/

theorem subs_erase_ne_nil (subs : List (List Nat × pubsub_callbacks)) (k : List Nat)
    (h : subs_erase subs k ≠ []) : subs ≠ [] := by
  intro hnil
  rw [hnil] at h
  exact h rfl

theorem on_subscribe_branch_keeps (c : redis_connection) (r : reply) (c1 : redis_connection)
    (es : List effect) (h : c.on_subscribe_branch r = Except.ok (c1, es)) : keeps_pubsub c c1 := by
  unfold redis_connection.on_subscribe_branch at h
  simp only [redis_connection.ferror_reconnect] at h
  unfold keeps_pubsub
  repeat' split at h
  all_goals first
    | (simp only [Except.ok.injEq, Prod.mk.injEq] at h; obtain ⟨rfl, rfl⟩ := h
       exact ⟨rfl, id⟩)
    | (cases h)

theorem on_message_branch_keeps (c : redis_connection) (r : reply) (c1 : redis_connection)
    (es : List effect) (h : c.on_message_branch r = Except.ok (c1, es)) : keeps_pubsub c c1 := by
  unfold redis_connection.on_message_branch at h
  simp only [redis_connection.ferror_reconnect] at h
  unfold keeps_pubsub
  repeat' split at h
  all_goals first
    | (simp only [Except.ok.injEq, Prod.mk.injEq] at h; obtain ⟨rfl, rfl⟩ := h
       exact ⟨rfl, id⟩)
    | (cases h)

theorem on_unsubscribe_branch_keeps (c : redis_connection) (r : reply) (c1 : redis_connection)
    (es : List effect) (h : c.on_unsubscribe_branch r = Except.ok (c1, es)) : keeps_pubsub c c1 := by
  unfold redis_connection.on_unsubscribe_branch at h
  simp only [redis_connection.ferror_reconnect] at h
  unfold keeps_pubsub
  repeat' split at h
  all_goals first
    | (simp only [Except.ok.injEq, Prod.mk.injEq] at h; obtain ⟨rfl, rfl⟩ := h
       first | exact ⟨rfl, id⟩ | exact ⟨rfl, subs_erase_ne_nil _ _⟩)
    | (cases h)

theorem on_pmessage_branch_keeps (c : redis_connection) (r : reply) (c1 : redis_connection)
    (es : List effect) (h : c.on_pmessage_branch r = Except.ok (c1, es)) : keeps_pubsub c c1 := by
  unfold redis_connection.on_pmessage_branch at h
  simp only [redis_connection.ferror_reconnect] at h
  unfold keeps_pubsub
  repeat' split at h
  all_goals first
    | (simp only [Except.ok.injEq, Prod.mk.injEq] at h; obtain ⟨rfl, rfl⟩ := h
       exact ⟨rfl, id⟩)
    | (cases h)

theorem on_subscribe_callback_keeps (c : redis_connection) (r : reply) (c1 : redis_connection)
    (es : List effect) (h : c.on_subscribe_callback r = Except.ok (c1, es)) :
    keeps_pubsub c c1 := by
  unfold redis_connection.on_subscribe_callback at h
  have hfail : ∀ m, (Except.ok (c.ferror_reconnect m) : Except exception _) = Except.ok (c1, es) →
      keeps_pubsub c c1 := by
    intro m hm
    simp only [redis_connection.ferror_reconnect, Except.ok.injEq, Prod.mk.injEq] at hm
    obtain ⟨rfl, _⟩ := hm
    exact ⟨rfl, id⟩
  split at h
  · split at h
    · split at h
      · unfold redis_connection.on_subscribe_command at h
        split at h
        · exact on_subscribe_branch_keeps c r c1 es h
        · split at h
          · exact on_message_branch_keeps c r c1 es h
          · split at h
            · exact on_unsubscribe_branch_keeps c r c1 es h
            · split at h
              · exact on_pmessage_branch_keeps c r c1 es h
              · split at h
                · exact on_unsubscribe_branch_keeps c r c1 es h
                · simp only [Except.ok.injEq, Prod.mk.injEq] at h
                  obtain ⟨rfl, _⟩ := h
                  exact ⟨rfl, id⟩
      · exact hfail _ h
    · exact hfail _ h
  · exact hfail _ h

theorem invoke_keeps (c : redis_connection) (cb : callback) (r : reply) (c1 : redis_connection)
    (es : List effect) (h : c.invoke cb r = Except.ok (c1, es)) : keeps_pubsub c c1 := by
  cases cb with
  | user n =>
    simp only [redis_connection.invoke, Except.ok.injEq, Prod.mk.injEq] at h
    obtain ⟨rfl, _⟩ := h
    exact ⟨rfl, id⟩
  | on_subscribe_callback =>
    simp only [redis_connection.invoke] at h
    cases h1 : c.on_subscribe_callback r with
    | error e => rw [h1] at h; cases h
    | ok v =>
      obtain ⟨c2, es2⟩ := v
      rw [h1] at h
      simp only [Except.ok.injEq, Prod.mk.injEq] at h
      obtain ⟨rfl, _⟩ := h
      exact on_subscribe_callback_keeps c r c2 es2 h1

theorem execute_keeps (c : redis_connection) (cb : Option callback) (t : List Nat)
    (ts : List (List Nat)) (c1 : redis_connection) (es : List effect)
    (h : c.execute cb t ts = Except.ok (c1, es)) : keeps_pubsub c c1 := by
  unfold redis_connection.execute at h
  split at h
  · cases cb with
    | none => cases h
    | some f => exact invoke_keeps c f _ c1 es h
  · dsimp only at h
    split at h
    · simp only [Except.ok.injEq, Prod.mk.injEq] at h
      obtain ⟨rfl, _⟩ := h
      cases cb <;> exact ⟨rfl, id⟩
    · cases cb with
      | none =>
        simp only [Except.ok.injEq, Prod.mk.injEq] at h
        obtain ⟨rfl, _⟩ := h
        exact ⟨rfl, id⟩
      | some f =>
        dsimp only at h
        split at h
        · cases h
        · split at h
          · cases h
          · rename_i c2 effects h2
            simp only [Except.ok.injEq, Prod.mk.injEq] at h
            obtain ⟨rfl, _⟩ := h
            have hk := invoke_keeps _ _ _ c2 effects h2
            exact ⟨hk.1, hk.2⟩

theorem on_read_keeps (c : redis_connection) (r : reply) (c1 : redis_connection)
    (es : List effect) (h : c.on_read r = Except.ok (c1, es)) : keeps_pubsub c c1 := by
  by_cases hroute : c._pubsub_mode = true ∧ is_push r
  · rw [on_read_routed c r hroute.1 hroute.2] at h
    exact on_subscribe_callback_keeps c r c1 es h
  · rw [on_read_not_routed c r hroute] at h
    cases hq : c._op_callbacks with
    | nil =>
      rw [hq] at h
      simp only [redis_connection.ferror_reconnect, Except.ok.injEq, Prod.mk.injEq] at h
      obtain ⟨rfl, _⟩ := h
      exact ⟨rfl, id⟩
    | cons cb rest =>
      rw [hq] at h
      dsimp only at h
      cases h1 : c.invoke cb r with
      | error e => rw [h1] at h; cases h
      | ok v =>
        obtain ⟨c2, es2⟩ := v
        rw [h1] at h
        simp only [Except.ok.injEq, Prod.mk.injEq] at h
        obtain ⟨rfl, _⟩ := h
        exact invoke_keeps c cb r c2 es2 h1

/-- The invariant holds in the state the constructor sets up and every call of the
connection keeps it: `execute`, the four subscription calls, and the three callbacks the
transport calls (`on_read`, `on_connected`, `on_disconnected`). -/
theorem pubsub_invariant_preserved :
    pubsub_invariant redis_connection.new ∧
    ∀ c : redis_connection, pubsub_invariant c →
      (∀ cb t ts c1 es, c.execute cb t ts = Except.ok (c1, es) → pubsub_invariant c1) ∧
      (∀ k s m u, pubsub_invariant (c.subscribe k s m u).state) ∧
      (∀ k s m u, pubsub_invariant (c.psubscribe k s m u).state) ∧
      (∀ k, pubsub_invariant (c.unsubscribe k).state) ∧
      (∀ k, pubsub_invariant (c.punsubscribe k).state) ∧
      (∀ r c1 es, c.on_read r = Except.ok (c1, es) → pubsub_invariant c1) ∧
      (∀ e, pubsub_invariant (c.on_connected e).1) ∧
      (∀ e c1 es, c.on_disconnected e = Except.ok (c1, es) → pubsub_invariant c1) := by
  have hkeep : ∀ c c1 : redis_connection, pubsub_invariant c → keeps_pubsub c c1 →
      pubsub_invariant c1 := by
    intro c c1 hc hk hne
    rw [hk.1]
    exact hc (hk.2 hne)
  have hon : ∀ (c1 c2 : redis_connection), c1._pubsub_mode = true → keeps_pubsub c1 c2 →
      pubsub_invariant c2 := by
    intro c1 c2 h1 hk _
    rw [hk.1]
    exact h1
  refine ⟨fun h => absurd rfl h, ?_⟩
  intro c hc
  refine ⟨?_, ?_, ?_, ?_, ?_, ?_, ?_, ?_⟩
  · intro cb t ts c1 es h
    exact hkeep c c1 hc (execute_keeps c cb t ts c1 es h)
  · intro k s m u
    unfold redis_connection.subscribe
    dsimp only
    split
    · intro _; rfl
    · split
      · intro _; rfl
      · rename_i c3 effects h3
        exact hon _ c3 rfl (execute_keeps _ _ _ _ c3 effects h3)
  · intro k s m u
    unfold redis_connection.psubscribe
    dsimp only
    split
    · intro _; rfl
    · split
      · intro _; rfl
      · rename_i c3 effects h3
        exact hon _ c3 rfl (execute_keeps _ _ _ _ c3 effects h3)
  · intro k
    unfold redis_connection.unsubscribe
    split
    · exact hc
    · split
      · exact hc
      · rename_i c3 effects h3
        exact hkeep c c3 hc (execute_keeps _ _ _ _ c3 effects h3)
  · intro k
    unfold redis_connection.punsubscribe
    split
    · exact hc
    · split
      · exact hc
      · rename_i c3 effects h3
        exact hkeep c c3 hc (execute_keeps _ _ _ _ c3 effects h3)
  · intro r c1 es h
    exact hkeep c c1 hc (on_read_keeps c r c1 es h)
  · intro e hne
    exact absurd rfl hne
  · intro e c1 es h
    obtain ⟨c2, es2, h2, _, _, hp, hs, _⟩ :=
      notify_loop_spec ERROR_TCP_DISCONNECTED c._op_callbacks c rfl
    simp only [redis_connection.on_disconnected, redis_connection.notify_all_pending_requests,
      h2, Except.ok.injEq, Prod.mk.injEq] at h
    obtain ⟨rfl, _⟩ := h
    intro hne
    rw [hp]
    exact hc (by rw [← hs]; exact hne)

/-! ## Claims C21 to C30 -/

/-- Claim C21. Unsubscribing a present key: for every state in which key `k` is in the
subscription table, on a connected transport `unsubscribe(k)` and `punsubscribe(k)` return
without an exception, invoke nothing, leave the subscription table and the pending queue
unchanged and hand the command to `send` (whether `send` accepts it or not); on a transport
that is not connected both calls leave with `std::bad_function_call`, because `execute`
calls the null callback with the error reply. -/
theorem unsubscribe_present_key (c : redis_connection) (k : List Nat)
    (callbacks : pubsub_callbacks) (hk : subs_find c._subs k = some callbacks) :
    (c.connected = true →
      (c.unsubscribe k).raised = none ∧ (c.punsubscribe k).raised = none ∧
      (c.unsubscribe k).state
        = { c with _tcp := c._tcp.after_send (execute_message (bytes "UNSUBSCRIBE") [k]) } ∧
      (c.punsubscribe k).state
        = { c with _tcp := c._tcp.after_send (execute_message (bytes "PUNSUBSCRIBE") [k]) } ∧
      invocations (c.unsubscribe k).effects = [] ∧
      invocations (c.punsubscribe k).effects = []) ∧
    (c.connected = false →
      c.unsubscribe k = ⟨c, [], some exception.bad_function_call⟩ ∧
      c.punsubscribe k = ⟨c, [], some exception.bad_function_call⟩) := by
  constructor
  · intro hconn
    have hconn1 : c._tcp.connected = true := hconn
    have key : ∀ w : List Nat,
        (match c.execute none w [k] with
          | Except.error e => (⟨c, [], some e⟩ : outcome)
          | Except.ok (c1, effects) => ⟨c1, effects, none⟩).raised = none ∧
        (match c.execute none w [k] with
          | Except.error e => (⟨c, [], some e⟩ : outcome)
          | Except.ok (c1, effects) => ⟨c1, effects, none⟩).state
          = { c with _tcp := c._tcp.after_send (execute_message w [k]) } ∧
        invocations (match c.execute none w [k] with
          | Except.error e => (⟨c, [], some e⟩ : outcome)
          | Except.ok (c1, effects) => ⟨c1, effects, none⟩).effects = [] := by
      intro w
      by_cases hfull : c._tcp._send_buffer_size + (execute_message w [k]).length
          > SEND_BUFFER_LIMIT
      · simp [redis_connection.execute, hconn1, tcp_connection.send, tcp_connection.after_send,
          hfull, invocations]
      · simp only [redis_connection.execute, hconn1, tcp_connection.send,
          tcp_connection.after_send, hfull, Bool.not_true, Bool.false_eq_true, if_false]
        refine ⟨trivial, trivial, ?_⟩
        split <;> rfl
    have hu := key (bytes "UNSUBSCRIBE")
    have hp := key (bytes "PUNSUBSCRIBE")
    simp only [redis_connection.unsubscribe, redis_connection.punsubscribe, hk,
      Option.isNone_some, Bool.false_eq_true, if_false]
    exact ⟨hu.1, hp.1, hu.2.1, hp.2.1, hu.2.2, hp.2.2⟩
  · intro hconn
    have hconn1 : c._tcp.connected = false := hconn
    simp [redis_connection.unsubscribe, redis_connection.punsubscribe, hk,
      redis_connection.execute, hconn1]

/-- Witness of C21: `unsubscribe("ch")` after the socket was lost. -/
theorem unsubscribe_present_key_witness :
    subs_find lost_connection._subs (bytes "ch") = some ⟨some 11, some 12, none, some 13⟩ ∧
    lost_connection.connected = false ∧
    lost_connection.unsubscribe (bytes "ch")
      = ⟨lost_connection, [], some exception.bad_function_call⟩ ∧
    lost_connection.punsubscribe (bytes "ch")
      = ⟨lost_connection, [], some exception.bad_function_call⟩ :=
  ⟨by decide, by decide,
    (unsubscribe_present_key lost_connection (bytes "ch") ⟨some 11, some 12, none, some 13⟩
      (by decide)).2 (by decide)⟩

/-- Claim C24. Spurious reply: when a reply that is not routed to the pub/sub handler
arrives while the pending queue is empty, `on_read` logs, calls `_tcp.reconnect()` and
returns: no completion callback and no handler of a subscription is invoked, the reply is
dropped, the pending queue is still empty and the subscription table is unchanged (only the
transport changes). -/
theorem spurious_reply (c : redis_connection) (r : reply)
    (hnot : ¬ (c._pubsub_mode = true ∧ is_push r)) (hempty : c._op_callbacks = []) :
    c.on_read r = Except.ok ({ c with _tcp := c._tcp.reconnect },
      [effect.ferror log_message.no_stored_callback, effect.reconnect]) ∧
    ({ c with _tcp := c._tcp.reconnect } : redis_connection)._op_callbacks = [] ∧
    ({ c with _tcp := c._tcp.reconnect } : redis_connection)._subs = c._subs := by
  refine ⟨?_, hempty, rfl⟩
  rw [on_read_not_routed c r hnot]
  simp [hempty, redis_connection.ferror_reconnect]

/-- Witness of C24: `+OK` on a connected connection with nothing pending. -/
theorem spurious_reply_witness :
    ¬ (connected_connection._pubsub_mode = true ∧ is_push ⟨reply_type.STRING, bytes "OK", 0, []⟩) ∧
    connected_connection._op_callbacks = [] ∧
    connected_connection.on_read ⟨reply_type.STRING, bytes "OK", 0, []⟩
      = Except.ok ({ connected_connection with _tcp := connected_connection._tcp.reconnect },
          [effect.ferror log_message.no_stored_callback, effect.reconnect]) :=
  ⟨fun h => absurd h.1 (by decide), by decide,
    (spurious_reply connected_connection ⟨reply_type.STRING, bytes "OK", 0, []⟩
      (fun h => absurd h.1 (by decide)) (by decide)).1⟩

theorem subs_find_erase_self (subs : List (List Nat × pubsub_callbacks)) (k : List Nat) :
    subs_find (subs_erase subs k) k = none := by
  induction subs with
  | nil => rfl
  | cons e rest ih =>
    obtain ⟨k1, v⟩ := e
    unfold subs_find subs_erase at ih ⊢
    by_cases h : k1 = k
    · simpa [List.filter, h] using ih
    · have h2 : (k == k1) = false := by simpa using fun h3 : k = k1 => h h3.symm
      simp only [List.filter, h, ne_eq, not_false_eq_true, decide_True, List.lookup, h2]
      exact ih

theorem subs_find_erase_other (subs : List (List Nat × pubsub_callbacks)) (k k1 : List Nat)
    (hne : k1 ≠ k) : subs_find (subs_erase subs k) k1 = subs_find subs k1 := by
  induction subs with
  | nil => rfl
  | cons e rest ih =>
    obtain ⟨k2, v⟩ := e
    unfold subs_find subs_erase at ih ⊢
    by_cases h : k2 = k
    · subst h
      have h2 : (k1 == k2) = false := by simpa using hne
      simpa [List.filter, List.lookup, h2] using ih
    · simp only [List.filter, h, ne_eq, not_false_eq_true, decide_True, List.lookup]
      cases (k1 == k2)
      · exact ih
      · rfl

/-- Claim C22. Unsubscribe confirmation removes exactly one entry: in pub/sub mode, for
every reply `[unsubscribe, k, n]` or `[punsubscribe, k, n]` (the command in any case) with
`n` an integer and `k` a key of the subscription table, the `on_unsubscribed` handler of `k`
is invoked exactly once and this is the only effect; `k` is removed from the table, the
lookup of every other key is unchanged, and so are the pending queue and the rest of the
connection; a later `unsubscribe(k)` or `punsubscribe(k)` fails with
`subscription_does_not_exist` whose text is `k`. -/
theorem unsubscribe_confirmation (c : redis_connection) (hmode : c._pubsub_mode = true)
    (w k : List Nat) (n : Int) (callbacks : pubsub_callbacks) (h : Nat)
    (hw : eq_ignoring_case w (bytes "UNSUBSCRIBE") ∨ eq_ignoring_case w (bytes "PUNSUBSCRIBE"))
    (hfind : subs_find c._subs k = some callbacks)
    (hcb : callbacks.unsubscribed_callback = some h) :
    c.on_read ⟨reply_type.ARRAY, [], 0,
        [⟨reply_type.STRING, w, 0, []⟩, ⟨reply_type.STRING, k, 0, []⟩,
         ⟨reply_type.INTEGER, [], n, []⟩]⟩
      = Except.ok ({ c with _subs := subs_erase c._subs k }, [effect.unsubscribed h]) ∧
    subs_find (subs_erase c._subs k) k = none ∧
    (∀ k1, k1 ≠ k → subs_find (subs_erase c._subs k) k1 = subs_find c._subs k1) ∧
    ({ c with _subs := subs_erase c._subs k } : redis_connection).unsubscribe k
      = ⟨{ c with _subs := subs_erase c._subs k }, [],
          some (exception.subscription_does_not_exist k)⟩ ∧
    ({ c with _subs := subs_erase c._subs k } : redis_connection).punsubscribe k
      = ⟨{ c with _subs := subs_erase c._subs k }, [],
          some (exception.subscription_does_not_exist k)⟩ := by
  have hself := subs_find_erase_self c._subs k
  refine ⟨?_, hself, fun k1 hne => subs_find_erase_other c._subs k k1 hne, ?_, ?_⟩
  · have hu : w.map toupper = bytes "UNSUBSCRIBE" ∨ w.map toupper = bytes "PUNSUBSCRIBE" := by
      rcases hw with hw | hw
      · exact Or.inl ((map_toupper_eq_iff w _ (by decide)).mpr hw)
      · exact Or.inr ((map_toupper_eq_iff w _ (by decide)).mpr hw)
    have hpush : is_push ⟨reply_type.ARRAY, [], 0,
        [⟨reply_type.STRING, w, 0, []⟩, ⟨reply_type.STRING, k, 0, []⟩,
         ⟨reply_type.INTEGER, [], n, []⟩]⟩ := by
      rw [is_push_iff]
      rcases hu with hu | hu
      · exact ⟨rfl, by simp, rfl, Or.inr (Or.inl hu)⟩
      · exact ⟨rfl, by simp, rfl, Or.inr (Or.inr (Or.inr hu))⟩
    have n1 : (bytes "UNSUBSCRIBE" = bytes "SUBSCRIBE") = False := eq_false (by decide)
    have n2 : (bytes "UNSUBSCRIBE" = bytes "PSUBSCRIBE") = False := eq_false (by decide)
    have n3 : (bytes "UNSUBSCRIBE" = bytes "MESSAGE") = False := eq_false (by decide)
    have n4 : (bytes "PUNSUBSCRIBE" = bytes "SUBSCRIBE") = False := eq_false (by decide)
    have n5 : (bytes "PUNSUBSCRIBE" = bytes "PSUBSCRIBE") = False := eq_false (by decide)
    have n6 : (bytes "PUNSUBSCRIBE" = bytes "MESSAGE") = False := eq_false (by decide)
    have n7 : (bytes "PUNSUBSCRIBE" = bytes "UNSUBSCRIBE") = False := eq_false (by decide)
    have n8 : (bytes "PUNSUBSCRIBE" = bytes "PMESSAGE") = False := eq_false (by decide)
    rw [on_read_routed c _ hmode hpush]
    rcases hu with hu | hu
    · simp only [redis_connection.on_subscribe_callback, redis_connection.on_subscribe_command,
        redis_connection.on_unsubscribe_branch, List.getD_cons_zero, List.getD_cons_succ, hu,
        n1, n2, n3, hfind, hcb, List.length_cons, List.length_nil, if_true, if_false, or_self]
      simp
    · simp only [redis_connection.on_subscribe_callback, redis_connection.on_subscribe_command,
        redis_connection.on_unsubscribe_branch, List.getD_cons_zero, List.getD_cons_succ, hu,
        n4, n5, n6, n7, n8, hfind, hcb, List.length_cons, List.length_nil, if_true, if_false,
        or_self]
      simp
  · simp [redis_connection.unsubscribe, hself]
  · simp [redis_connection.punsubscribe, hself]

/-- Witness of C22: `[unsubscribe, ch, 1]` in a table that holds `ch` and `news.*`. -/
theorem unsubscribe_confirmation_witness :
    subscribed_connection._pubsub_mode = true ∧
    (eq_ignoring_case (bytes "unsubscribe") (bytes "UNSUBSCRIBE") ∨
      eq_ignoring_case (bytes "unsubscribe") (bytes "PUNSUBSCRIBE")) ∧
    subs_find subscribed_connection._subs (bytes "ch") = some ⟨some 11, some 12, none, some 13⟩ ∧
    subs_erase subscribed_connection._subs (bytes "ch")
      = [(bytes "news.*", ⟨some 21, none, some 22, some 23⟩)] ∧
    subscribed_connection.on_read ⟨reply_type.ARRAY, [], 0,
        [⟨reply_type.STRING, bytes "unsubscribe", 0, []⟩, ⟨reply_type.STRING, bytes "ch", 0, []⟩,
         ⟨reply_type.INTEGER, [], 1, []⟩]⟩
      = Except.ok ({ subscribed_connection with
                      _subs := subs_erase subscribed_connection._subs (bytes "ch") },
          [effect.unsubscribed 13]) :=
  ⟨by decide, Or.inl ((map_toupper_eq_iff _ _ (by decide)).mp (by decide)), by decide,
    by decide,
    (unsubscribe_confirmation subscribed_connection (by decide) (bytes "unsubscribe")
      (bytes "ch") 1 ⟨some 11, some 12, none, some 13⟩ 13
      (Or.inl ((map_toupper_eq_iff _ _ (by decide)).mp (by decide))) (by decide) rfl).1⟩

theorem on_subscribe_branch_violation (c : redis_connection) (r : reply)
    (h : r.elements.length < 3 ∨ (r.elements.getD 1 reply.new).type ≠ reply_type.STRING ∨
      (r.elements.getD 2 reply.new).type ≠ reply_type.INTEGER ∨
      subs_find c._subs (r.elements.getD 1 reply.new).str = none) :
    ∃ m, c.on_subscribe_branch r = Except.ok (c.ferror_reconnect m) := by
  unfold redis_connection.on_subscribe_branch
  by_cases h1 : 3 ≤ r.elements.length
  · rw [if_pos h1]
    by_cases h2 : (r.elements.getD 1 reply.new).type = reply_type.STRING
    · rw [if_pos h2]
      by_cases h3 : (r.elements.getD 2 reply.new).type = reply_type.INTEGER
      · rw [if_pos h3]
        rcases h with h | h | h | h
        · omega
        · exact absurd h2 h
        · exact absurd h3 h
        · simp only [h]
          exact ⟨_, rfl⟩
      · rw [if_neg h3]
        exact ⟨_, rfl⟩
    · rw [if_neg h2]
      exact ⟨_, rfl⟩
  · rw [if_neg h1]
    exact ⟨_, rfl⟩

theorem on_unsubscribe_branch_violation (c : redis_connection) (r : reply)
    (h : r.elements.length < 3 ∨ (r.elements.getD 1 reply.new).type ≠ reply_type.STRING ∨
      (r.elements.getD 2 reply.new).type ≠ reply_type.INTEGER ∨
      subs_find c._subs (r.elements.getD 1 reply.new).str = none) :
    ∃ m, c.on_unsubscribe_branch r = Except.ok (c.ferror_reconnect m) := by
  unfold redis_connection.on_unsubscribe_branch
  by_cases h1 : 3 ≤ r.elements.length
  · rw [if_pos h1]
    by_cases h2 : (r.elements.getD 1 reply.new).type = reply_type.STRING
    · rw [if_pos h2]
      by_cases h3 : (r.elements.getD 2 reply.new).type = reply_type.INTEGER
      · rw [if_pos h3]
        rcases h with h | h | h | h
        · omega
        · exact absurd h2 h
        · exact absurd h3 h
        · simp only [h]
          exact ⟨_, rfl⟩
      · rw [if_neg h3]
        exact ⟨_, rfl⟩
    · rw [if_neg h2]
      exact ⟨_, rfl⟩
  · rw [if_neg h1]
    exact ⟨_, rfl⟩

theorem on_message_branch_violation (c : redis_connection) (r : reply)
    (h : r.elements.length < 3 ∨ (r.elements.getD 1 reply.new).type ≠ reply_type.STRING ∨
      (r.elements.getD 2 reply.new).type ≠ reply_type.STRING ∨
      subs_find c._subs (r.elements.getD 1 reply.new).str = none) :
    ∃ m, c.on_message_branch r = Except.ok (c.ferror_reconnect m) := by
  unfold redis_connection.on_message_branch
  by_cases h1 : 3 ≤ r.elements.length
  · rw [if_pos h1]
    by_cases h2 : (r.elements.getD 1 reply.new).type = reply_type.STRING
    · rw [if_pos h2]
      by_cases h3 : (r.elements.getD 2 reply.new).type = reply_type.STRING
      · rw [if_pos h3]
        rcases h with h | h | h | h
        · omega
        · exact absurd h2 h
        · exact absurd h3 h
        · simp only [h]
          exact ⟨_, rfl⟩
      · rw [if_neg h3]
        exact ⟨_, rfl⟩
    · rw [if_neg h2]
      exact ⟨_, rfl⟩
  · rw [if_neg h1]
    exact ⟨_, rfl⟩

theorem on_pmessage_branch_violation (c : redis_connection) (r : reply)
    (h : r.elements.length < 4 ∨ (r.elements.getD 1 reply.new).type ≠ reply_type.STRING ∨
      (r.elements.getD 2 reply.new).type ≠ reply_type.STRING ∨
      (r.elements.getD 3 reply.new).type ≠ reply_type.STRING ∨
      subs_find c._subs (r.elements.getD 1 reply.new).str = none) :
    ∃ m, c.on_pmessage_branch r = Except.ok (c.ferror_reconnect m) := by
  unfold redis_connection.on_pmessage_branch
  by_cases h1 : 4 ≤ r.elements.length
  · rw [if_pos h1]
    by_cases h2 : (r.elements.getD 1 reply.new).type = reply_type.STRING
    · rw [if_pos h2]
      by_cases h3 : (r.elements.getD 2 reply.new).type = reply_type.STRING
      · rw [if_pos h3]
        by_cases h4 : (r.elements.getD 3 reply.new).type = reply_type.STRING
        · rw [if_pos h4]
          rcases h with h | h | h | h | h
          · omega
          · exact absurd h2 h
          · exact absurd h3 h
          · exact absurd h4 h
          · simp only [h]
            exact ⟨_, rfl⟩
        · rw [if_neg h4]
          exact ⟨_, rfl⟩
      · rw [if_neg h3]
        exact ⟨_, rfl⟩
    · rw [if_neg h2]
      exact ⟨_, rfl⟩
  · rw [if_neg h1]
    exact ⟨_, rfl⟩

/-- Claim C23, refuted as stated. `[message, ch, hello, extra]` has four elements, not
three; handed to the pub/sub handler with `ch` in the table it is delivered to the
`on_message` handler of `ch` like `[message, ch, hello]`: there is no reconnect. The handler
checks `3 <= reply.elements.size()`. -/
theorem push_with_extra_element :
    subscribed_connection.on_subscribe_callback ⟨reply_type.ARRAY, [], 0,
        [⟨reply_type.STRING, bytes "message", 0, []⟩, ⟨reply_type.STRING, bytes "ch", 0, []⟩,
         ⟨reply_type.STRING, bytes "hello", 0, []⟩, ⟨reply_type.STRING, bytes "extra", 0, []⟩]⟩
      = Except.ok (subscribed_connection, [effect.message 12 (bytes "ch") (bytes "hello")]) ∧
    ¬ (∀ (c : redis_connection) (r : reply), r.type = reply_type.ARRAY →
        (r.elements.getD 0 reply.new).type = reply_type.STRING →
        (r.elements.getD 0 reply.new).str.map toupper = bytes "MESSAGE" →
        r.elements.length ≠ 3 →
        ∃ m, c.on_subscribe_callback r = Except.ok (c.ferror_reconnect m)) := by
  have hev : subscribed_connection.on_subscribe_callback ⟨reply_type.ARRAY, [], 0,
        [⟨reply_type.STRING, bytes "message", 0, []⟩, ⟨reply_type.STRING, bytes "ch", 0, []⟩,
         ⟨reply_type.STRING, bytes "hello", 0, []⟩, ⟨reply_type.STRING, bytes "extra", 0, []⟩]⟩
      = Except.ok (subscribed_connection, [effect.message 12 (bytes "ch") (bytes "hello")]) := by
    decide
  refine ⟨hev, ?_⟩
  intro hall
  obtain ⟨m, hm⟩ := hall subscribed_connection ⟨reply_type.ARRAY, [], 0,
    [⟨reply_type.STRING, bytes "message", 0, []⟩, ⟨reply_type.STRING, bytes "ch", 0, []⟩,
     ⟨reply_type.STRING, bytes "hello", 0, []⟩, ⟨reply_type.STRING, bytes "extra", 0, []⟩]⟩
    rfl rfl (by decide) (by decide)
  rw [hev] at hm
  simp only [redis_connection.ferror_reconnect, Except.ok.injEq, Prod.mk.injEq] at hm
  exact absurd hm.2 (by simp)

/-- Claim C23, amended. For every reply handed to the pub/sub handler that does not match
its expected shape - too few elements (fewer than 3 for subscribe, psubscribe, message,
unsubscribe, punsubscribe; fewer than 4 for pmessage), one of these elements of the wrong
type, or a channel or pattern key that is not in the subscription table; also a reply that
is not an array, is empty or does not start with a string (`shape_violation`) - the handler
logs and calls `_tcp.reconnect()`, and that is all: no handler of a subscription is invoked
and the connection, subscription table included, is unchanged apart from the transport. -/
theorem malformed_push_reconnects (c : redis_connection) (r : reply)
    (hv : shape_violation c r) :
    ∃ m, c.on_subscribe_callback r
      = Except.ok ({ c with _tcp := c._tcp.reconnect }, [effect.ferror m, effect.reconnect]) := by
  have goal : ∃ m, c.on_subscribe_callback r = Except.ok (c.ferror_reconnect m) := by
    unfold redis_connection.on_subscribe_callback
    by_cases h1 : r.type = reply_type.ARRAY
    · rw [if_pos h1]
      by_cases h2 : 1 ≤ r.elements.length
      · rw [if_pos h2]
        by_cases h3 : (r.elements.getD 0 reply.new).type = reply_type.STRING
        · rw [if_pos h3]
          rcases hv with hv | hv | hv | ⟨hc, hv⟩ | ⟨hc, hv⟩ | ⟨hc, hv⟩
          · exact absurd h1 hv
          · omega
          · exact absurd h3 hv
          · unfold redis_connection.on_subscribe_command
            rcases hc with hc | hc | hc | hc
            · rw [hc, if_pos (Or.inl rfl)]
              exact on_subscribe_branch_violation c r hv
            · rw [hc, if_pos (Or.inr rfl)]
              exact on_subscribe_branch_violation c r hv
            · rw [hc, if_neg (by decide), if_neg (by decide), if_pos rfl]
              exact on_unsubscribe_branch_violation c r hv
            · rw [hc, if_neg (by decide), if_neg (by decide), if_neg (by decide),
                if_neg (by decide), if_pos rfl]
              exact on_unsubscribe_branch_violation c r hv
          · unfold redis_connection.on_subscribe_command
            rw [hc, if_neg (by decide), if_pos rfl]
            exact on_message_branch_violation c r hv
          · unfold redis_connection.on_subscribe_command
            rw [hc, if_neg (by decide), if_neg (by decide), if_neg (by decide), if_pos rfl]
            exact on_pmessage_branch_violation c r hv
        · rw [if_neg h3]
          exact ⟨_, rfl⟩
      · rw [if_neg h2]
        exact ⟨_, rfl⟩
    · rw [if_neg h1]
      exact ⟨_, rfl⟩
  exact goal

/-- Witness of C23 as amended: `[message, ch]` has too few elements. -/
theorem malformed_push_reconnects_witness :
    shape_violation subscribed_connection ⟨reply_type.ARRAY, [], 0,
        [⟨reply_type.STRING, bytes "message", 0, []⟩, ⟨reply_type.STRING, bytes "ch", 0, []⟩]⟩ ∧
    ∃ m, subscribed_connection.on_subscribe_callback ⟨reply_type.ARRAY, [], 0,
        [⟨reply_type.STRING, bytes "message", 0, []⟩, ⟨reply_type.STRING, bytes "ch", 0, []⟩]⟩
      = Except.ok ({ subscribed_connection with _tcp := subscribed_connection._tcp.reconnect },
          [effect.ferror m, effect.reconnect]) :=
  ⟨Or.inr (Or.inr (Or.inr (Or.inr (Or.inl ⟨by decide, Or.inl (by decide)⟩)))),
    malformed_push_reconnects subscribed_connection _
      (Or.inr (Or.inr (Or.inr (Or.inr (Or.inl ⟨by decide, Or.inl (by decide)⟩)))))⟩

set_option maxRecDepth 4000 in
/-- Claim C25, refuted as stated. A parser with a buffer of eight bytes is fed the eight
bytes `$100\r\nab`, the start of a bulk string of 100 bytes: the buffer is full, `parse`
returns 0, and `on_read` raises nothing; it delivers nothing, keeps the eight bytes and
returns a tail of size 0. -/
theorem full_buffer_raises_nothing :
    parse reply.new (parser_of_eight.store (bytes "$100\r\nab"))._buffer 8
      = Except.ok (⟨reply_type.INVALID, [], 0, []⟩, 0) ∧
    (parser_of_eight.feed (bytes "$100\r\nab")).raised = none ∧
    (parser_of_eight.feed (bytes "$100\r\nab")).delivered = [] ∧
    (parser_of_eight.feed (bytes "$100\r\nab")).state._used_bytes = parser_of_eight._buffer_size ∧
    (parser_of_eight.feed (bytes "$100\r\nab")).state._buffer = bytes "$100\r\nab" ∧
    (parser_of_eight.feed (bytes "$100\r\nab")).state.buffer = ⟨8, 0⟩ := by
  decide

/-- Claim C25, amended. If, after a feed, the parse buffer is completely full (used =
capacity) and the buffered bytes are only an incomplete message (`parse` returns 0), the
parser signals no error: `on_read` delivers no message, keeps the buffered bytes where they
are and returns an empty tail (size 0) as the next read destination; a read of no bytes
after that gives the same again. -/
theorem full_buffer_returns_empty_tail (p : parser_base) (data : List Nat) (m : reply)
    (hfull : p._used_bytes + data.length = p._buffer_size)
    (hparse : parse p._message (p.store data)._buffer (p._used_bytes + data.length)
      = Except.ok (m, 0)) :
    p.feed data
      = ⟨{ p.store data with _used_bytes := p._buffer_size, _message := m }, [], none⟩ ∧
    ({ p.store data with _used_bytes := p._buffer_size, _message := m } : parser_base).buffer
      = ⟨p._buffer_size, 0⟩ ∧
    ({ p.store data with _used_bytes := p._buffer_size, _message := m } : parser_base).on_read 0
      = ⟨{ p.store data with _used_bytes := p._buffer_size, _message := m }, [], none⟩ := by
  have hparse2 : ∀ r0, parse r0 (p.store data)._buffer (p._used_bytes + data.length)
      = Except.ok (m, 0) := by
    intro r0
    rw [parse_eq, ← parse_eq p._message]
    exact hparse
  refine ⟨?_, ?_, ?_⟩
  · have h1 : (p.store data)._used_bytes = p._used_bytes := rfl
    have h2 : (p.store data)._message = p._message := rfl
    simp only [parser_base.feed, parser_base.on_read, h1, h2, hparse, on_read_loop]
    simp [hfull]
  · simp [parser_base.buffer, parser_base.store]
  · simp only [parser_base.on_read, Nat.add_zero, ← hfull, hparse2, on_read_loop]
    simp

set_option maxRecDepth 4000 in
/-- Witness of C25 as amended: an 8-byte buffer fed the eight bytes `$100\r\nab`. -/
theorem full_buffer_returns_empty_tail_witness :
    parser_of_eight._used_bytes + (bytes "$100\r\nab").length = parser_of_eight._buffer_size ∧
    parse parser_of_eight._message (parser_of_eight.store (bytes "$100\r\nab"))._buffer
        (parser_of_eight._used_bytes + (bytes "$100\r\nab").length)
      = Except.ok (⟨reply_type.INVALID, [], 0, []⟩, 0) ∧
    parser_of_eight.feed (bytes "$100\r\nab")
      = ⟨{ parser_of_eight.store (bytes "$100\r\nab") with
            _used_bytes := parser_of_eight._buffer_size,
            _message := ⟨reply_type.INVALID, [], 0, []⟩ }, [], none⟩ :=
  ⟨by decide, by decide,
    (full_buffer_returns_empty_tail parser_of_eight (bytes "$100\r\nab")
      ⟨reply_type.INVALID, [], 0, []⟩ (by decide) (by decide)).1⟩

/-! ## Lemmas: transport -/

theorem try_to_send_state (m : transport) (s : Nat) :
    (m.try_to_send s).state = m ∧ (m.try_to_send s).raised = none ∧
    ∀ e ∈ (m.try_to_send s).effects, e.notifies = false ∧ e.connects = false := by
  unfold transport.try_to_send
  split
  · simp
  · split <;> simp [tcp_effect.notifies, tcp_effect.connects]

theorem reconnect_astate (t : tcp_connection) : t.reconnect._astate = t._astate := by
  unfold tcp_connection.reconnect tcp_connection.disconnect_end
  dsimp only
  split <;> rfl

theorem silenced_not_connected (m : transport) (h : m.silenced) : m.connected = false := by
  simp [tcp_connection.connected, h.1]

theorem handle_silenced (m : transport) (h : m.silenced) (ev : tcp_event) :
    (m.handle ev).state.silenced ∧
    ∀ e ∈ (m.handle ev).effects, e.notifies = false ∧ e.connects = false := by
  obtain ⟨ha, hc, hd, hr⟩ := h
  cases ev with
  | connect_completion error =>
    simp only [transport.handle, transport.on_connect]
    split
    · refine ⟨⟨?_, hc, hd, hr⟩, ?_⟩
      · simp only [transport.reconnect]
        rw [reconnect_astate]
        exact ha
      · simp [transport.notify_connected, hc, transport.reconnect, tcp_effect.notifies,
          tcp_effect.connects]
    · refine ⟨⟨ha, hc, hd, hr⟩, ?_⟩
      simp [transport.notify_connected, hc, tcp_effect.notifies, tcp_effect.connects]
  | read_completion error data =>
    simp only [transport.handle, transport.on_read]
    split
    · exact ⟨⟨ha, hc, hd, hr⟩, by simp⟩
    · split
      · refine ⟨⟨?_, hc, hd, hr⟩, ?_⟩
        · simp only [transport.reconnect]
          rw [reconnect_astate]
          exact ha
        · simp [transport.notify_disconnected, hd, transport.reconnect, tcp_effect.notifies,
            tcp_effect.connects]
      · split
        · refine ⟨⟨ha, hc, hd, hr⟩, ?_⟩
          simp [transport.deliver, hr, tcp_effect.notifies, tcp_effect.connects]
        · refine ⟨⟨?_, hc, hd, hr⟩, ?_⟩
          · simp only [transport.reconnect]
            rw [reconnect_astate]
            exact ha
          · simp [transport.deliver, hr, transport.notify_disconnected, hd,
              transport.reconnect, tcp_effect.notifies, tcp_effect.connects]
        · refine ⟨⟨ha, hc, hd, hr⟩, ?_⟩
          simp [transport.deliver, hr]
  | write_completion start_byte message_length error bytes_transferred =>
    have hn : m.connected = false := silenced_not_connected m ⟨ha, hc, hd, hr⟩
    simp only [transport.handle, transport.on_write, hn]
    exact ⟨⟨ha, hc, hd, hr⟩, by simp⟩
  | retry_timer error =>
    simp only [transport.handle, transport.on_retry_timer]
    split
    · simp only [if_true]
      exact ⟨⟨ha, hc, hd, hr⟩, by simp⟩
    · rename_i hne
      simp only [hne, if_false, ha, if_true]
      exact ⟨⟨rfl, hc, hd, hr⟩, by simp⟩

theorem run_events_silenced : ∀ (events : List tcp_event) (m : transport), m.silenced →
    (m.run_events events).state.silenced ∧
    ∀ e ∈ (m.run_events events).effects, e.notifies = false ∧ e.connects = false := by
  intro events
  induction events with
  | nil =>
    intro m h
    exact ⟨h, by simp [transport.run_events, transport.run]⟩
  | cons ev rest ih =>
    intro m h
    obtain ⟨hs, he⟩ := handle_silenced m h ev
    obtain ⟨hs2, he2⟩ := ih (m.handle ev).state hs
    simp only [transport.run_events, List.map_cons, transport.run, transport.step] at hs2 he2 ⊢
    split
    · exact ⟨hs, he⟩
    · refine ⟨hs2, ?_⟩
      intro e hmem
      rcases List.mem_append.mp hmem with hmem | hmem
      · exact he e hmem
      · exact he2 e hmem

/-- Claim C26. `disconnect()` silences the session: after the body of `disconnect()` has
run, for every sequence of internal events that follows (connect completions with or without
error, read completions, write completions, expiries of the retry timer, in any order),
`connected()` is false, the administrative state is DISCONNECTED, the three callbacks stay
empty, and among the effects of the whole run there is no call of a connected, disconnected
or read callback and no start of a connect attempt. -/
theorem disconnect_silences (m : transport) (events : List tcp_event) :
    ((m.disconnect).state.run_events events).state.connected = false ∧
    ((m.disconnect).state.run_events events).state._astate = astate.DISCONNECTED ∧
    ((m.disconnect).state.run_events events).state.silenced ∧
    ∀ e ∈ ((m.disconnect).state.run_events events).effects,
      e.notifies = false ∧ e.connects = false := by
  have h0 : (m.disconnect).state.silenced :=
    ⟨by simp [transport.disconnect, tcp_connection.disconnect_end], rfl, rfl, rfl⟩
  obtain ⟨hs, he⟩ := run_events_silenced events (m.disconnect).state h0
  exact ⟨silenced_not_connected _ hs, hs.1, hs, he⟩

/-- Claim C27, evaluated where it fails. A connected transport has a write in flight when
the socket is lost, and both completions carry an error. When the write completion is
handled first, it notifies and calls `reconnect()`; the read completion that follows is not
`operation_aborted`, and `on_read` notifies again without testing `connected()`: the
disconnected callback runs twice and no connect completion lies between the two calls. In
the other order the write handler finds `connected()` false and the callback runs once. -/
theorem loss_notified_twice :
    sending_transport.connected = true ∧
    (sending_transport.run
      [Sum.inr (tcp_event.write_completion 0 6 (error_code.other 32) 0),
       Sum.inr (tcp_event.read_completion (error_code.other 104) [])]).effects
      = [tcp_effect.disconnected_callback 2 (error_code.other 32), tcp_effect.socket_close,
         tcp_effect.disconnected_callback 2 (error_code.other 104), tcp_effect.socket_close] ∧
    loss_notifications (sending_transport.run
      [Sum.inr (tcp_event.write_completion 0 6 (error_code.other 32) 0),
       Sum.inr (tcp_event.read_completion (error_code.other 104) [])]).effects
      = [(2, error_code.other 32), (2, error_code.other 104)] ∧
    loss_notifications (sending_transport.run
      [Sum.inr (tcp_event.read_completion (error_code.other 104) []),
       Sum.inr (tcp_event.write_completion 0 6 (error_code.other 32) 0)]).effects
      = [(2, error_code.other 104)] := by
  decide

/-- Claim C28, refuted as stated. With auto-reconnect off, a connect attempt that completes
with an error in state (CONNECTED, CONNECTING) moves to (CONNECTED, DISCONNECTED) and calls
the connected callback with the error, but schedules no retry: `reconnect()` returns after
`disconnect(false)`. -/
theorem failed_connect_without_retry :
    connecting_once._astate = astate.CONNECTED ∧ connecting_once._ostate = ostate.CONNECTING ∧
    connecting_once.on_connect (error_code.other 111)
      = ⟨{ connecting_once with _ostate := ostate.DISCONNECTED },
          [tcp_effect.connected_callback 1 (error_code.other 111), tcp_effect.socket_close],
          none⟩ ∧
    (connecting_once.on_connect (error_code.other 111)).state._timer = timer_wait.idle ∧
    ¬ (∀ (m : transport) (error : error_code), m._astate = astate.CONNECTED →
        m._ostate = ostate.CONNECTING → error ≠ error_code.success →
        (m.on_connect error).state._timer = timer_wait.retry) := by
  refine ⟨by decide, by decide, by decide, by decide, ?_⟩
  intro hall
  exact absurd (hall connecting_once (error_code.other 111) (by decide) (by decide)
    (by decide)) (by decide)

/-- Claim C28, amended. When an asynchronous connect attempt completes with an error in
state (CONNECTED, CONNECTING) (or with any other observable state; the handler does not read
it), the transport moves to (CONNECTED, DISCONNECTED), invokes the
connected callback of the caller exactly once with that error, does not invoke the
disconnected callback, closes the socket and, if auto-reconnect is enabled, schedules a
retry (with auto-reconnect off the timer is not touched). A successful completion moves to
(CONNECTED, CONNECTED), empties the send queue and resets its byte total to 0, starts the
first read and invokes the connected callback once without error. -/
theorem connect_completion_outcome (m : transport) (h : Nat) (error : error_code)
    (hastate : m._astate = astate.CONNECTED) (hcb : m._connected_callback = some h) :
    (error ≠ error_code.success →
      m.on_connect error
        = ⟨{ m with _ostate := ostate.DISCONNECTED,
                    _timer := if m._auto_reconnect then timer_wait.retry else m._timer },
            [tcp_effect.connected_callback h error, tcp_effect.socket_close], none⟩ ∧
      (m.on_connect error).state._astate = astate.CONNECTED ∧
      (m.on_connect error).state._ostate = ostate.DISCONNECTED ∧
      loss_notifications (m.on_connect error).effects = []) ∧
    (m.on_connect error_code.success
        = ⟨{ m with _ostate := ostate.CONNECTED, _send_buffer := [], _send_buffer_size := 0 },
            [tcp_effect.async_read_some m._parser_base.buffer.size,
             tcp_effect.connected_callback h error_code.success], none⟩ ∧
      (m.on_connect error_code.success).state._astate = astate.CONNECTED ∧
      (m.on_connect error_code.success).state._ostate = ostate.CONNECTED ∧
      (m.on_connect error_code.success).state._send_buffer = [] ∧
      (m.on_connect error_code.success).state._send_buffer_size = 0) := by
  constructor
  · intro herr
    have heq : m.on_connect error
        = ⟨{ m with _ostate := ostate.DISCONNECTED,
                    _timer := if m._auto_reconnect then timer_wait.retry else m._timer },
            [tcp_effect.connected_callback h error, tcp_effect.socket_close], none⟩ := by
      simp only [transport.on_connect, herr, ne_eq, not_false_eq_true, if_true,
        transport.notify_connected, hcb, transport.reconnect, tcp_connection.reconnect,
        tcp_connection.disconnect_end]
      cases m._auto_reconnect <;> simp
    rw [heq]
    exact ⟨rfl, hastate, rfl, rfl⟩
  · have heq : m.on_connect error_code.success
        = ⟨{ m with _ostate := ostate.CONNECTED, _send_buffer := [], _send_buffer_size := 0 },
            [tcp_effect.async_read_some m._parser_base.buffer.size,
             tcp_effect.connected_callback h error_code.success], none⟩ := by
      simp [transport.on_connect, transport.notify_connected, hcb, parser_base.buffer]
    rw [heq]
    exact ⟨rfl, hastate, rfl, rfl, rfl⟩

/-- Witness of C28 as amended: a refused connect (error 111) with auto-reconnect on. -/
theorem connect_completion_outcome_witness :
    connecting_transport._astate = astate.CONNECTED ∧
    connecting_transport._ostate = ostate.CONNECTING ∧
    connecting_transport._connected_callback = some 1 ∧
    error_code.other 111 ≠ error_code.success ∧
    connecting_transport.on_connect (error_code.other 111)
      = ⟨{ connecting_transport with _ostate := ostate.DISCONNECTED,
                                     _timer := timer_wait.retry },
          [tcp_effect.connected_callback 1 (error_code.other 111), tcp_effect.socket_close],
          none⟩ :=
  ⟨by decide, by decide, by decide, by decide,
    ((connect_completion_outcome connecting_transport 1 (error_code.other 111) (by decide)
      (by decide)).1 (by decide)).1⟩

theorem map_length_sum_append (xs : List (List Nat)) (b : List Nat) :
    ((xs ++ [b]).map List.length).sum = (xs.map List.length).sum + b.length := by
  simp

theorem reconnect_send_queue (t : tcp_connection) :
    t.reconnect._send_buffer = t._send_buffer ∧
    t.reconnect._send_buffer_size = t._send_buffer_size := by
  unfold tcp_connection.reconnect tcp_connection.disconnect_end
  dsimp only
  split <;> exact ⟨rfl, rfl⟩

theorem step_send_queue_invariant (m : transport)
    (h : send_queue_invariant m.totcp_connection) (a : tcp_call ⊕ tcp_event) :
    send_queue_invariant (m.step a).state.totcp_connection := by
  obtain ⟨hsum, hle⟩ := h
  have hrec : send_queue_invariant (m.reconnect).state.totcp_connection := by
    obtain ⟨h1, h2⟩ := reconnect_send_queue m.totcp_connection
    simp only [send_queue_invariant, transport.reconnect, h1, h2]
    exact ⟨hsum, hle⟩
  cases a with
  | inl c =>
    cases c with
    | connect ip port cc dc rc auto_reconnect => exact ⟨hsum, hle⟩
    | disconnect => exact ⟨hsum, hle⟩
    | reconnect => exact hrec
    | send buffer =>
      simp only [transport.step, transport.call, transport.send, tcp_connection.send]
      split
      · rename_i what heq
        split at heq
        · exact ⟨hsum, hle⟩
        · cases heq
      · rename_i t send_now heq
        split at heq
        · cases heq
        · rename_i hroom
          simp only [Except.ok.injEq, Prod.mk.injEq] at heq
          obtain ⟨rfl, _⟩ := heq
          have hinv : send_queue_invariant
              ({ m.totcp_connection with
                  _send_buffer_size := m._send_buffer_size + buffer.length,
                  _send_buffer := m._send_buffer ++ [buffer] } : tcp_connection) := by
            refine ⟨?_, ?_⟩
            · simp only [map_length_sum_append, hsum]
            · simp only
              omega
          split
          · rw [(try_to_send_state _ 0).1]
            exact hinv
          · exact hinv
  | inr ev =>
    cases ev with
    | connect_completion error =>
      simp only [transport.step, transport.handle, transport.on_connect]
      split
      · obtain ⟨h1, h2⟩ := reconnect_send_queue
          ({ m with _ostate := ostate.DISCONNECTED } : transport).totcp_connection
        simp only [send_queue_invariant, transport.reconnect, h1, h2]
        exact ⟨hsum, hle⟩
      · exact ⟨rfl, Nat.zero_le _⟩
    | read_completion error data =>
      simp only [transport.step, transport.handle, transport.on_read]
      split
      · exact ⟨hsum, hle⟩
      · split
        · exact hrec
        · split
          · exact ⟨hsum, hle⟩
          · rename_i read_state _
            obtain ⟨h1, h2⟩ := reconnect_send_queue m.totcp_connection
            simp only [send_queue_invariant, transport.reconnect, h1, h2]
            exact ⟨hsum, hle⟩
          · exact ⟨hsum, hle⟩
    | write_completion start_byte message_length error bytes_transferred =>
      simp only [transport.step, transport.handle, transport.on_write]
      split
      · exact ⟨hsum, hle⟩
      · split
        · exact hrec
        · split
          · rw [(try_to_send_state _ _).1]
            exact ⟨hsum, hle⟩
          · split
            · exact ⟨hsum, hle⟩
            · rename_i front rest hq
              have hsum2 : m._send_buffer_size = front.length + (rest.map List.length).sum := by
                rw [hsum, hq]
                simp
              have hsize : to_size_t ((m._send_buffer_size : Int) - (front.length : Int))
                  = (rest.map List.length).sum := by
                have h3 : ((m._send_buffer_size : Int) - (front.length : Int))
                    = (((rest.map List.length).sum : Nat) : Int) := by
                  rw [hsum2]
                  push_cast
                  ring
                rw [h3]
                apply to_size_t_of_nat
                have : SEND_BUFFER_LIMIT < 2 ^ 64 := by decide
                omega
              have hinv : send_queue_invariant
                  ({ m.totcp_connection with
                      _send_buffer_size :=
                        to_size_t ((m._send_buffer_size : Int) - (front.length : Int)),
                      _send_buffer := rest } : tcp_connection) := by
                refine ⟨hsize, ?_⟩
                simp only [hsize]
                omega
              split
              · rw [(try_to_send_state _ 0).1]
                exact hinv
              · exact hinv
    | retry_timer error =>
      by_cases herr : error = error_code.operation_aborted
      · simp only [transport.step, transport.handle, transport.on_retry_timer, herr, if_true]
        exact ⟨hsum, hle⟩
      · simp only [transport.step, transport.handle, transport.on_retry_timer, herr, if_false]
        split
        · exact ⟨hsum, hle⟩
        · exact ⟨hsum, hle⟩

/-- Claim C29. Retry condition: `reconnect()`, which every loss and every failed connect
calls, starts the retry wait if auto-reconnect is enabled and leaves the timer alone if it
is not; when the retry wait expires with the administrative state CONNECTED, the transport
starts a connect attempt with the stored endpoint, callbacks and auto-reconnect setting and
is in state (CONNECTED, CONNECTING); when it expires with the administrative state
DISCONNECTED, nothing happens. So after a loss with no wait pending, the transport re-enters
CONNECTING when the timer fires if and only if the administrative state is CONNECTED and
auto-reconnect is enabled. -/
theorem retry_condition (m : transport) :
    (m._auto_reconnect = true → (m.reconnect).state._timer = timer_wait.retry) ∧
    (m._auto_reconnect = false → (m.reconnect).state._timer = m._timer) ∧
    (∀ error, error ≠ error_code.operation_aborted → m._astate = astate.CONNECTED →
      m.handle (tcp_event.retry_timer error)
        = ⟨{ m with _ostate := ostate.CONNECTING, _timer := timer_wait.idle },
            [tcp_effect.async_connect m._ip m._port], none⟩) ∧
    (∀ error, error ≠ error_code.operation_aborted → m._astate = astate.DISCONNECTED →
      m.handle (tcp_event.retry_timer error)
        = ⟨{ m with _timer := timer_wait.idle }, [], none⟩) ∧
    (m._timer = timer_wait.idle →
      ((m.reconnect).state.retry_expires.state._ostate = ostate.CONNECTING ↔
        m._astate = astate.CONNECTED ∧ m._auto_reconnect = true) ∧
      (tcp_effect.async_connect m._ip m._port ∈ (m.reconnect).state.retry_expires.effects ↔
        m._astate = astate.CONNECTED ∧ m._auto_reconnect = true)) := by
  refine ⟨?_, ?_, ?_, ?_, ?_⟩
  · intro h
    simp [transport.reconnect, tcp_connection.reconnect, tcp_connection.disconnect_end, h]
  · intro h
    simp [transport.reconnect, tcp_connection.reconnect, tcp_connection.disconnect_end, h]
  · intro error herr ha
    have hne : m._astate ≠ astate.DISCONNECTED := by rw [ha]; decide
    simp only [transport.handle, herr, if_false, transport.on_retry_timer, hne,
      transport.internal_connect]
    cases m
    simp_all
  · intro error herr ha
    simp only [transport.handle, herr, if_false, transport.on_retry_timer, ha, if_true]
  · intro hidle
    have ho : m.totcp_connection.reconnect._ostate = ostate.DISCONNECTED := by
      unfold tcp_connection.reconnect tcp_connection.disconnect_end
      dsimp only
      split <;> rfl
    have ha2 := reconnect_astate m.totcp_connection
    cases hauto : m._auto_reconnect with
    | false =>
      have ht : m.totcp_connection.reconnect._timer = timer_wait.idle := by
        simp [tcp_connection.reconnect, tcp_connection.disconnect_end, hauto, hidle]
      simp [transport.retry_expires, transport.reconnect, ht, ho]
    | true =>
      have ht : m.totcp_connection.reconnect._timer = timer_wait.retry := by
        simp [tcp_connection.reconnect, tcp_connection.disconnect_end, hauto]
      cases ha : m._astate with
      | DISCONNECTED =>
        rw [ha] at ha2
        simp [transport.retry_expires, transport.reconnect, ht, transport.handle,
          transport.on_retry_timer, ha2, ho]
      | CONNECTED =>
        rw [ha] at ha2
        simp [transport.retry_expires, transport.reconnect, ht, transport.handle,
          transport.on_retry_timer, ha2, transport.internal_connect]

/-- Witness of C29: an established transport loses the socket and the retry wait expires. -/
theorem retry_condition_witness :
    established_transport._timer = timer_wait.idle ∧
    established_transport._astate = astate.CONNECTED ∧
    established_transport._auto_reconnect = true ∧
    (established_transport.reconnect).state._timer = timer_wait.retry ∧
    ((established_transport.reconnect).state.retry_expires.state._ostate = ostate.CONNECTING ↔
      established_transport._astate = astate.CONNECTED ∧
      established_transport._auto_reconnect = true) :=
  ⟨by decide, by decide, by decide, (retry_condition established_transport).1 (by decide),
    ((retry_condition established_transport).2.2.2.2 (by decide)).1⟩

/-- Claim C30. Send-queue invariant: the state the constructor sets up satisfies
`send_queue_invariant` (the running byte total is the sum of the sizes of the queued blobs
and is at most `SEND_BUFFER_LIMIT`, 10485760); every call of the interface and every event
keeps it, in particular `send` whether it succeeds or throws, the completion of a full or a
partial write, and a successful connect; so it holds in every state a run reaches. -/
theorem send_queue_invariant_reachable :
    SEND_BUFFER_LIMIT = 10485760 ∧
    (∀ buffer_size memory,
      send_queue_invariant (transport.new buffer_size memory).totcp_connection) ∧
    (∀ (m : transport) (a : tcp_call ⊕ tcp_event),
      send_queue_invariant m.totcp_connection →
      send_queue_invariant (m.step a).state.totcp_connection) ∧
    (∀ buffer_size memory (actions : List (tcp_call ⊕ tcp_event)),
      send_queue_invariant
        ((transport.new buffer_size memory).run actions).state.totcp_connection) := by
  have hnew : ∀ buffer_size memory,
      send_queue_invariant (transport.new buffer_size memory).totcp_connection := by
    intro buffer_size memory
    exact ⟨rfl, Nat.zero_le _⟩
  have hrun : ∀ (actions : List (tcp_call ⊕ tcp_event)) (m : transport),
      send_queue_invariant m.totcp_connection →
      send_queue_invariant (m.run actions).state.totcp_connection := by
    intro actions
    induction actions with
    | nil => intro m h; exact h
    | cons a rest ih =>
      intro m h
      have hs := step_send_queue_invariant m h a
      simp only [transport.run]
      split
      · exact hs
      · exact ih _ hs
  exact ⟨rfl, hnew, fun m a h => step_send_queue_invariant m h a,
    fun buffer_size memory actions => hrun actions _ (hnew buffer_size memory)⟩

/-- Witness of C30: `send` on a connected transport, then the completion of a partial and
of the full write. -/
theorem send_queue_invariant_reachable_witness :
    send_queue_invariant established_transport.totcp_connection ∧
    (established_transport.step (Sum.inl (tcp_call.send (bytes "PING\r\n")))).state._send_buffer
      = [bytes "PING\r\n"] ∧
    send_queue_invariant
      (established_transport.step
        (Sum.inl (tcp_call.send (bytes "PING\r\n")))).state.totcp_connection ∧
    (sending_transport.step
      (Sum.inr (tcp_event.write_completion 0 6 error_code.success 6))).state._send_buffer = [] ∧
    send_queue_invariant
      (sending_transport.step
        (Sum.inr (tcp_event.write_completion 0 6 error_code.success 6))).state.totcp_connection :=
  ⟨⟨by decide, by decide⟩, by decide,
    send_queue_invariant_reachable.2.2.1 established_transport _ ⟨by decide, by decide⟩,
    by decide,
    send_queue_invariant_reachable.2.2.1 sending_transport _ ⟨by decide, by decide⟩⟩

/-! ## Claims C31 to C40 -/

/-- Claim C34. No leakage between parses: the outcome of a top-level parse (returned count,
raised error, and the tag, `str`, `integer` and `elements` of the reply) depends only on the
buffer and the size, not on the previous content of the reply object: for any two reply
objects the results are identical. The same holds one level up: what `on_read` delivers and
raises, and the watermark and buffer it leaves, do not depend on the `_message` member. -/
theorem parse_independent_of_reply (r1 r2 : reply) (buffer : List Nat) (size : Nat)
    (p : parser_base) (n : Nat) :
    parse r1 buffer size = parse r2 buffer size ∧
    (({ p with _message := r1 } : parser_base).on_read n).delivered
      = (({ p with _message := r2 } : parser_base).on_read n).delivered ∧
    (({ p with _message := r1 } : parser_base).on_read n).raised
      = (({ p with _message := r2 } : parser_base).on_read n).raised ∧
    (({ p with _message := r1 } : parser_base).on_read n).state._used_bytes
      = (({ p with _message := r2 } : parser_base).on_read n).state._used_bytes ∧
    (({ p with _message := r1 } : parser_base).on_read n).state._buffer
      = (({ p with _message := r2 } : parser_base).on_read n).state._buffer := by
  refine ⟨by rw [parse_eq, parse_eq], ?_⟩
  simp only [parser_base.on_read, parse_eq]
  cases parse_index p._buffer (p._used_bytes + n) (p._used_bytes + n + 2) reply.new 0 with
  | error e => exact ⟨rfl, rfl, rfl, rfl⟩
  | ok v =>
    obtain ⟨m, length⟩ := v
    dsimp only
    split <;> exact ⟨rfl, rfl, rfl, rfl⟩

theorem resp_encode_list_strings (args : List (List Nat)) :
    resp_encode_list (args.map (fun a => (⟨reply_type.STRING, a, 0, []⟩ : reply)))
      = (args.map bulk_string_encoding).flatten := by
  induction args with
  | nil => simp [resp_encode_list]
  | cons a rest ih => simp [resp_encode_list, resp_encode, ih]

theorem canonical_list_strings (args : List (List Nat)) :
    reply.canonical_list (args.map (fun a => (⟨reply_type.STRING, a, 0, []⟩ : reply))) := by
  induction args with
  | nil => simp [reply.canonical_list]
  | cons a rest ih => simp [reply.canonical_list, reply.canonical, ih]

theorem resp_encode_command_reply (args : List (List Nat)) :
    resp_encode (command_reply args) = resp_command args := by
  simp [command_reply, resp_encode, resp_command, resp_encode_list_strings]

/-- Claim C37. Encoder/parser agreement: for every non-empty argument list `t, ts...` of
arbitrary byte strings, parsing the blob `execute` builds (whatever follows it in the
buffer, whatever the reply object held) yields an ARRAY reply with exactly as many elements
as arguments, each of type STRING with `str` the corresponding argument, in order, and the
consumed count is the length of the blob. The blob lies within fewer than `2^32` valid
bytes. -/
theorem encoder_parser_agreement (t : List Nat) (ts : List (List Nat)) (rest : List Nat)
    (r0 : reply) (size : Nat) (hsize : (execute_message t ts).length ≤ size)
    (hbound : size < 2 ^ 32) :
    parse r0 (execute_message t ts ++ rest) size
      = Except.ok (⟨reply_type.ARRAY, [], 0,
          (t :: ts).map (fun a => ⟨reply_type.STRING, a, 0, []⟩)⟩,
          (execute_message t ts).length) ∧
    ((t :: ts).map (fun a => (⟨reply_type.STRING, a, 0, []⟩ : reply))).length
      = ts.length + 1 := by
  have henc : execute_message t ts = resp_encode (command_reply (t :: ts)) := by
    rw [execute_message_eq, resp_encode_command_reply]
  have hc : (command_reply (t :: ts)).canonical := by
    simp only [command_reply, reply.canonical]
    exact ⟨trivial, trivial, canonical_list_strings (t :: ts)⟩
  refine ⟨?_, by simp⟩
  rw [parse_eq, henc]
  rw [henc] at hsize
  have h := parse_index_resp_encode (command_reply (t :: ts)) (size + 2) size
    (resp_encode (command_reply (t :: ts)) ++ rest) [] rest hc (by simp) (by omega)
    (by simpa using hsize) hbound
  simpa [command_reply] using h

/-- Witness of C37: the command `SET after_key value`. -/
theorem encoder_parser_agreement_witness :
    execute_message (bytes "SET") [bytes "after_key", bytes "value"]
      = bytes "*3\r\n$3\r\nSET\r\n$9\r\nafter_key\r\n$5\r\nvalue\r\n" ∧
    (execute_message (bytes "SET") [bytes "after_key", bytes "value"]).length ≤ 42 ∧
    42 < 2 ^ 32 ∧
    parse reply.new
        (execute_message (bytes "SET") [bytes "after_key", bytes "value"] ++ bytes "xx") 42
      = Except.ok (⟨reply_type.ARRAY, [], 0,
          [⟨reply_type.STRING, bytes "SET", 0, []⟩, ⟨reply_type.STRING, bytes "after_key", 0, []⟩,
           ⟨reply_type.STRING, bytes "value", 0, []⟩]⟩,
          (execute_message (bytes "SET") [bytes "after_key", bytes "value"]).length) :=
  ⟨by decide, by decide, by decide,
    (encoder_parser_agreement (bytes "SET") [bytes "after_key", bytes "value"] (bytes "xx")
      reply.new 42 (by decide) (by decide)).1⟩

theorem apply_pubsub_invariant (c : redis_connection) (h : pubsub_invariant c)
    (a : redis_call) : pubsub_invariant (c.apply a) := by
  obtain ⟨hex, hsub, hpsub, hunsub, hpunsub, hread, hconn, hdisc⟩ :=
    pubsub_invariant_preserved.2 c h
  cases a with
  | connect cc dc auto_reconnect => exact h
  | disconnect => exact h
  | transport tcp => exact h
  | execute cb t ts =>
    simp only [redis_connection.apply]
    split
    · rename_i c1 es heq
      exact hex cb t ts c1 es heq
    · exact h
  | subscribe k s m u => exact hsub k s m u
  | psubscribe k s m u => exact hpsub k s m u
  | unsubscribe k => exact hunsub k
  | punsubscribe k => exact hpunsub k
  | on_read r =>
    simp only [redis_connection.apply]
    split
    · rename_i c1 es heq
      exact hread r c1 es heq
    · exact h
  | on_connected error => exact hconn error
  | on_disconnected error =>
    simp only [redis_connection.apply]
    split
    · rename_i c1 es heq
      exact hdisc error c1 es heq
    · exact h

/-- Claim C38. Pub/sub mode covers the table: in the state the constructor sets up and in
every state a sequence of calls reaches from it, pub/sub mode is active if the subscription
table is not empty (`pubsub_invariant`); every single call keeps the invariant: `subscribe`
and `psubscribe` (returning or throwing), `unsubscribe`, `punsubscribe`, `execute`, the
reply dispatch `on_read`, `on_connected`, `on_disconnected`, and also `connect`,
`disconnect` and any change of the transport. -/
theorem pubsub_mode_covers_table :
    pubsub_invariant redis_connection.new ∧
    (∀ (c : redis_connection) (a : redis_call), pubsub_invariant c →
      pubsub_invariant (c.apply a)) ∧
    (∀ calls : List redis_call, pubsub_invariant (redis_connection.new.run calls)) := by
  have hrun : ∀ (calls : List redis_call) (c : redis_connection), pubsub_invariant c →
      pubsub_invariant (c.run calls) := by
    intro calls
    induction calls with
    | nil => intro c h; exact h
    | cons a rest ih =>
      intro c h
      exact ih (c.apply a) (apply_pubsub_invariant c h a)
  exact ⟨pubsub_invariant_preserved.1, fun c a h => apply_pubsub_invariant c h a,
    fun calls => hrun calls _ pubsub_invariant_preserved.1⟩

/-- Witness of C38: `subscribe("ch")` on a transport that is not connected inserts the
entry and turns pub/sub mode on; a successful connect then clears both. -/
theorem pubsub_mode_covers_table_witness :
    (redis_connection.new.run [redis_call.subscribe (bytes "ch") (some 1) (some 2) (some 3)])._subs
      = [(bytes "ch", ⟨some 1, some 2, none, some 3⟩)] ∧
    (redis_connection.new.run
      [redis_call.subscribe (bytes "ch") (some 1) (some 2) (some 3)])._pubsub_mode = true ∧
    pubsub_invariant
      (redis_connection.new.run [redis_call.subscribe (bytes "ch") (some 1) (some 2) (some 3)]) ∧
    pubsub_invariant
      ((redis_connection.new.run
        [redis_call.subscribe (bytes "ch") (some 1) (some 2) (some 3)]).apply
          (redis_call.on_connected error_code.success)) :=
  ⟨by decide, by decide, pubsub_mode_covers_table.2.2 _,
    pubsub_mode_covers_table.2.1 _ _ (pubsub_mode_covers_table.2.2 _)⟩

theorem skip_to_newline_none : ∀ (fuel index : Nat) (buffer : List Nat) (size : Nat),
    size ≤ buffer.length → (∀ j, index ≤ j → j < size → buffer[j]? ≠ some LF) →
    size ≤ index + fuel →
    ∃ j, skip_to_newline buffer size fuel index = Except.ok j ∧ (index ≤ size → j ≥ size) := by
  intro fuel
  induction fuel with
  | zero =>
    intro index buffer size _ _ hf
    exact ⟨index, rfl, fun _ => by omega⟩
  | succ fuel ih =>
    intro index buffer size hlen hno hf
    unfold skip_to_newline
    by_cases hi : index < size
    · rw [if_pos hi]
      have hlt : index < buffer.length := by omega
      rw [rd_of_lt buffer index hlt]
      dsimp only
      have hne : buffer[index] ≠ LF := by
        intro heq
        apply hno index (le_refl _) hi
        rw [List.getElem?_eq_getElem hlt, heq]
      rw [if_pos hne]
      obtain ⟨j, hj, hb⟩ := ih (index + 1) buffer size hlen
        (fun j h1 h2 => hno j (by omega) h2) (by omega)
      exact ⟨j, hj, fun _ => hb (by omega)⟩
    · rw [if_neg hi]
      exact ⟨index, rfl, fun _ => by omega⟩

/-- Claim C39, with what the code does in place of the message. For every buffer whose
first `'\n'` is at index `i < size` (the line `s` of `i` bytes before it, any bytes `rest`
after it), the line parser returns `i + 1`, but the message it sets is not the line: it is
the first `size - 1` bytes of the buffer, `std::string(buffer, size-1)`; the two agree only
when the newline is the last valid byte. When the first `size` bytes contain no `'\n'`, it
returns 0 and leaves the message alone. -/
theorem endline_parse_result (s rest message : List Nat) (size : Nat)
    (hs : LF ∉ s) (hsize : s.length < size) :
    endline_parse message (s ++ LF :: rest) size
      = Except.ok ((s ++ LF :: rest).take (size - 1), s.length + 1) ∧
    (size = s.length + 1 → (s ++ LF :: rest).take (size - 1) = s) ∧
    (s.length + 1 < size → (s ++ LF :: rest).take (size - 1) ≠ s) ∧
    (∀ buffer : List Nat, size ≤ buffer.length →
      (∀ j, j < size → buffer[j]? ≠ some LF) →
      endline_parse message buffer size = Except.ok (message, 0)) := by
  refine ⟨?_, ?_, ?_, ?_⟩
  · have h := skip_to_newline_spec s [] rest size size hs (by simpa using hsize) hsize
    simp only [List.nil_append, List.length_nil, Nat.zero_add] at h
    simp only [endline_parse, h, substring, List.drop_zero]
    rw [if_neg (by omega)]
  · intro h
    rw [h]
    simp
  · intro h habs
    have := congrArg List.length habs
    simp only [List.length_take, List.length_append, List.length_cons] at this
    omega
  · intro buffer hb hno
    obtain ⟨j, hj, hge⟩ := skip_to_newline_none size 0 buffer size hb
      (fun j _ h2 => hno j h2) (by omega)
    simp only [endline_parse, hj]
    rw [if_pos (hge (Nat.zero_le _))]

/-- Witness of C39: the buffer `ab\ncd\n`: the count is 3, the message is `ab\ncd`. -/
theorem endline_parse_result_witness :
    LF ∉ bytes "ab" ∧ (bytes "ab").length < 6 ∧
    endline_parse [] (bytes "ab\ncd\n") 6 = Except.ok (bytes "ab\ncd", 3) ∧
    bytes "ab\ncd" ≠ bytes "ab" :=
  ⟨by decide, by decide,
    (endline_parse_result (bytes "ab") (bytes "cd\n") [] 6 (by decide)
      (by decide)).1.trans (by decide),
    by decide⟩

theorem get_integer_loop_field : ∀ (s pre rest : List Nat) (size fuel : Nat) (acc : Int),
    LF ∉ s → pre.length + s.length < size → s.length < fuel →
    get_integer_loop (pre ++ (s ++ LF :: rest)) size fuel acc pre.length
      = Except.ok (accumulate_field acc s, pre.length + s.length) := by
  intro s
  induction s with
  | nil =>
    intro pre rest size fuel acc _ hsize hfuel
    obtain ⟨fuel, rfl⟩ : ∃ k, fuel = k + 1 := ⟨fuel - 1, by simp at hfuel; omega⟩
    simp at hsize
    simp [get_integer_loop, hsize, rd_append, accumulate_field]
  | cons d s ih =>
    intro pre rest size fuel acc hs hsize hfuel
    obtain ⟨fuel, rfl⟩ : ∃ k, fuel = k + 1 := ⟨fuel - 1, by simp at hfuel; omega⟩
    have hd : d ≠ LF := fun h => hs (by simp [h])
    have hs1 : LF ∉ s := fun h => hs (by simp [h])
    simp only [List.length_cons] at hsize hfuel
    have h1 : pre.length < size := by omega
    have hrd : rd (pre ++ (d :: s ++ LF :: rest)) pre.length = Except.ok d := by
      simpa using rd_append pre (s ++ LF :: rest) d
    have hnext := ih (pre ++ [d]) rest size fuel
    simp only [List.append_assoc, List.singleton_append, List.length_append,
      List.length_singleton] at hnext
    unfold get_integer_loop
    rw [if_pos h1, hrd]
    dsimp only
    rw [if_pos hd]
    by_cases hcr : d = CR
    · rw [if_neg (by simpa using hcr)]
      have := hnext acc hs1 (by omega) (by omega)
      simp only [List.cons_append] at this ⊢
      rw [this]
      simp [accumulate_field, hcr]
      omega
    · rw [if_pos hcr]
      have := hnext (wrap_int64 (wrap_int64 (acc * 10) + (char_val d - 48))) hs1 (by omega)
        (by omega)
      simp only [List.cons_append] at this ⊢
      rw [this]
      simp [accumulate_field, hcr]
      omega

theorem accumulate_field_append_cr (acc : Int) (t : List Nat) :
    accumulate_field acc (t ++ [CR]) = accumulate_field acc t := by
  simp [accumulate_field, List.foldl_append]

theorem get_integer_empty_field (pre rest : List Nat) (c size : Nat)
    (h4 : pre.length + 4 ≤ size) :
    get_integer (pre ++ c :: LF :: rest) size pre.length
      = if c = CR then Except.ok (0, pre.length + 2) else Except.error failure.parse_error := by
  have hr1 : rd (pre ++ c :: LF :: rest) (pre.length + 1) = Except.ok LF :=
    rd_at _ (pre ++ [c]) rest LF _ (by simp) (by simp)
  have hr0 : rd (pre ++ c :: LF :: rest) pre.length = Except.ok c := rd_append pre _ c
  have hloop := get_integer_loop_field [] (pre ++ [c]) rest size (size - (pre.length + 1)) 0
    (by simp) (by simp; omega) (by simp; omega)
  simp only [List.append_assoc, List.singleton_append, List.nil_append, List.length_append,
    List.length_singleton, List.length_nil, Nat.add_zero] at hloop
  unfold get_integer
  rw [if_neg (by omega), hr1]
  have hm : decide (LF = MINUS) = false := by decide
  simp only [hm, Bool.false_eq_true, if_false, hloop]
  rw [if_neg (by omega)]
  simp only [Nat.add_sub_cancel, hr0]
  by_cases hc : c = CR
  · simp [hc, accumulate_field]
  · simp [hc]

theorem get_integer_field (pre t rest : List Nat) (c x size : Nat)
    (ht : LF ∉ t) (hx : x ≠ LF) (h4 : pre.length + 4 ≤ size)
    (hsize : pre.length + 1 + t.length + 1 < size) :
    get_integer (pre ++ c :: (t ++ x :: LF :: rest)) size pre.length
      = if x = CR then Except.ok (field_value t, pre.length + t.length + 3)
        else Except.error failure.parse_error := by
  have hb : pre ++ c :: (t ++ x :: LF :: rest) = pre ++ c :: ((t ++ [x]) ++ LF :: rest) := by
    simp
  cases t with
  | nil =>
    simp only [List.nil_append, List.length_nil, Nat.add_zero] at hsize ⊢
    have hr1 : rd (pre ++ c :: x :: LF :: rest) (pre.length + 1) = Except.ok x :=
      rd_at _ (pre ++ [c]) (LF :: rest) x _ (by simp) (by simp)
    by_cases hm : x = MINUS
    · subst hm
      have hloop := get_integer_loop_field [] (pre ++ [c, MINUS]) rest size
        (size - (pre.length + 2)) 0 (by simp) (by simp; omega) (by simp; omega)
      simp only [List.append_assoc, List.cons_append, List.nil_append, List.length_append,
        List.length_cons, List.length_nil, Nat.add_zero] at hloop
      unfold get_integer
      rw [if_neg (by omega), hr1]
      simp only [decide_True, if_true, hloop]
      rw [if_neg (by omega)]
      have e : pre.length + 2 - 1 = pre.length + 1 := by omega
      rw [e, hr1]
      dsimp only
      rw [if_pos (by decide), if_neg (by decide)]
    · have hloop := get_integer_loop_field [x] (pre ++ [c]) rest size
        (size - (pre.length + 1)) 0 (by simpa using Ne.symm hx) (by simp; omega)
        (by simp; omega)
      simp only [List.append_assoc, List.singleton_append, List.cons_append, List.nil_append,
        List.length_append, List.length_singleton] at hloop
      unfold get_integer
      rw [if_neg (by omega), hr1]
      have hd : decide (x = MINUS) = false := by simpa using hm
      simp only [hd, Bool.false_eq_true, if_false, hloop]
      rw [if_neg (by omega)]
      simp only [Nat.add_sub_cancel, hr1]
      by_cases hc : x = CR
      · simp [hc, accumulate_field, field_value]
      · simp [hc]
  | cons d t1 =>
    have hd : d ≠ LF := fun h => ht (by simp [h])
    have ht1 : LF ∉ t1 := fun h => ht (by simp [h])
    simp only [List.length_cons] at hsize ⊢
    have hr1 : rd (pre ++ c :: (d :: t1 ++ x :: LF :: rest)) (pre.length + 1) = Except.ok d :=
      rd_at _ (pre ++ [c]) (t1 ++ x :: LF :: rest) d _ (by simp) (by simp)
    have hlf : LF ∉ t1 ++ [x] := by
      simp only [List.mem_append, List.mem_singleton, not_or]
      exact ⟨ht1, Ne.symm hx⟩
    by_cases hm : d = MINUS
    · subst hm
      have hloop := get_integer_loop_field (t1 ++ [x]) (pre ++ [c, MINUS]) rest size
        (size - (pre.length + 2)) 0 hlf (by simp; omega) (by simp; omega)
      simp only [List.append_assoc, List.cons_append, List.nil_append, List.length_append,
        List.length_cons, List.length_nil, List.singleton_append] at hloop
      have hrx : rd (pre ++ c :: (MINUS :: t1 ++ x :: LF :: rest))
          (pre.length + (0 + 1 + 1) + (t1.length + 1) - 1) = Except.ok x :=
        rd_at _ (pre ++ c :: MINUS :: t1) (LF :: rest) x _ (by simp) (by simp; omega)
      unfold get_integer
      rw [if_neg (by omega), hr1]
      simp only [decide_True, if_true, List.cons_append, hloop]
      rw [if_neg (by omega)]
      simp only [List.cons_append] at hrx
      rw [hrx]
      by_cases hc : x = CR
      · subst hc
        simp only [ne_eq, not_true_eq_false, if_false, if_true, accumulate_field_append_cr,
          field_value]
        congr 2
        omega
      · simp [hc]
    · have hloop := get_integer_loop_field (d :: t1 ++ [x]) (pre ++ [c]) rest size
        (size - (pre.length + 1)) 0 (by simpa [Ne.symm hd] using hlf) (by simp; omega)
        (by simp; omega)
      simp only [List.append_assoc, List.cons_append, List.nil_append, List.length_append,
        List.length_cons, List.length_nil, List.singleton_append] at hloop
      have hrx : rd (pre ++ c :: (d :: t1 ++ x :: LF :: rest))
          (pre.length + (0 + 1) + (t1.length + 1 + 1) - 1) = Except.ok x :=
        rd_at _ (pre ++ c :: d :: t1) (LF :: rest) x _ (by simp) (by simp; omega)
      unfold get_integer
      rw [if_neg (by omega), hr1]
      have hdm : decide (d = MINUS) = false := by simpa using hm
      simp only [hdm, Bool.false_eq_true, if_false, List.cons_append, hloop]
      rw [if_neg (by omega)]
      simp only [List.cons_append] at hrx
      rw [hrx]
      by_cases hc : x = CR
      · subst hc
        have hacc : accumulate_field 0 (d :: (t1 ++ [CR])) = accumulate_field 0 (d :: t1) := by
          have := accumulate_field_append_cr 0 (d :: t1)
          simpa using this
        simp only [ne_eq, not_true_eq_false, if_false, if_true, hacc, field_value, hm]
        congr 2
        omega
      · simp [hc]

theorem get_integer_bad_terminator (c : Nat) (s pre rest : List Nat) (size : Nat)
    (hs : LF ∉ s) (hlast : (c :: s).getLast? ≠ some CR)
    (h4 : pre.length + 4 ≤ size) (hsize : pre.length + 1 + s.length < size) :
    get_integer (pre ++ c :: (s ++ LF :: rest)) size pre.length
      = Except.error failure.parse_error := by
  rcases List.eq_nil_or_concat s with rfl | ⟨t, x, rfl⟩
  · have hc : c ≠ CR := by
      intro h
      apply hlast
      simp [h]
    simp only [List.nil_append]
    rw [get_integer_empty_field pre rest c size h4, if_neg hc]
  · rw [List.concat_eq_append] at hs hlast hsize ⊢
    have hx : x ≠ CR := by
      intro h
      apply hlast
      rw [← List.cons_append, List.getLast?_append]
      simp [h]
    have hxl : x ≠ LF := fun h => hs (by simp [h])
    have ht : LF ∉ t := fun h => hs (by simp [h])
    simp only [List.length_append, List.length_singleton] at hsize
    have := get_integer_field pre t rest c x size ht hxl h4 (by omega)
    simp only [List.append_assoc, List.singleton_append]
    rw [this, if_neg hx]

/-- Claim C31, refuted as stated. Of the field `:1\n` three bytes are valid; its first
`'\n'` is preceded by `1`, not by `'\r'`, and the parser returns 0 ("not enough bytes"): the
test `size-index < 4` of `get_integer` comes before the search for the newline. -/
theorem short_field_returns_zero :
    parse reply.new (bytes ":1\n") 3 = Except.ok (⟨reply_type.INVALID, [], 0, []⟩, 0) ∧
    ¬ (∀ (s rest : List Nat) (size : Nat) (r0 : reply), LF ∉ s →
        (COLON :: s).getLast? ≠ some CR → s.length + 2 ≤ size →
        parse r0 (COLON :: (s ++ LF :: rest)) size = Except.error failure.parse_error) := by
  have hev : parse reply.new (bytes ":1\n") 3
      = Except.ok (⟨reply_type.INVALID, [], 0, []⟩, 0) := by decide
  refine ⟨hev, ?_⟩
  intro hall
  have h := hall [49] [] 3 reply.new (by decide) (by decide) (by decide)
  have hb : COLON :: ([49] ++ LF :: []) = bytes ":1\n" := by decide
  rw [hb, hev] at h
  cases h

/-- Claim C31, amended. For every integer-bearing field (the `':'` integer, the `'$'`
length, the `'*'` count, at any index) of which at least four bytes are valid
(`size - index >= 4`) and whose first `'\n'` lies within the valid bytes and is not
immediately preceded by `'\r'`, `get_integer` raises `parse_error`, and so does the
top-level parse of a buffer that starts with such a field: no reply, no 0. -/
theorem integer_terminator (c : Nat) (s pre rest : List Nat) (size : Nat) (r0 : reply)
    (hs : LF ∉ s) (hlast : (c :: s).getLast? ≠ some CR)
    (h4 : pre.length + 4 ≤ size) (hsize : pre.length + 1 + s.length < size) :
    get_integer (pre ++ c :: (s ++ LF :: rest)) size pre.length
      = Except.error failure.parse_error ∧
    (pre = [] → c = COLON ∨ c = DOLLAR ∨ c = STAR →
      parse r0 (c :: (s ++ LF :: rest)) size = Except.error failure.parse_error) := by
  have hg := get_integer_bad_terminator c s pre rest size hs hlast h4 hsize
  refine ⟨hg, ?_⟩
  intro hpre hc
  subst hpre
  simp only [List.nil_append, List.length_nil] at hg
  have hrd : rd (c :: (s ++ LF :: rest)) 0 = Except.ok c := by simp [rd]
  rw [parse_eq, parse_index_succ, hrd]
  dsimp only
  rcases hc with rfl | rfl | rfl
  · rw [if_neg (by decide), if_neg (by decide), if_pos rfl]
    simp [parse_integer, hg]
  · rw [if_neg (by decide), if_neg (by decide), if_neg (by decide), if_pos rfl]
    simp [parse_bulk_string, hg]
  · rw [if_neg (by decide), if_neg (by decide), if_neg (by decide), if_neg (by decide),
      if_pos rfl, parse_array_succ, hg]

/-- Witness of C31 as amended: `:12\n34`, six valid bytes. -/
theorem integer_terminator_witness :
    LF ∉ bytes "12" ∧ (COLON :: bytes "12").getLast? ≠ some CR ∧
    ([] : List Nat).length + 4 ≤ 6 ∧ ([] : List Nat).length + 1 + (bytes "12").length < 6 ∧
    parse reply.new (COLON :: (bytes "12" ++ LF :: bytes "34")) 6
      = Except.error failure.parse_error :=
  ⟨by decide, by decide, by decide, by decide,
    (integer_terminator COLON (bytes "12") [] (bytes "34") 6 reply.new (by decide) (by decide)
      (by decide) (by decide)).2 rfl (Or.inl rfl)⟩

set_option maxRecDepth 4000 in
/-- Claim C32, refuted as stated. The field of `:1a\r\n` holds a letter, and the parser
yields the INTEGER reply 59: the digit loop adds `'a' - '0' = 49` to `1 * 10`. -/
theorem integer_field_with_letter :
    parse reply.new (bytes ":1a\r\n") 5 = Except.ok (⟨reply_type.INTEGER, [], 59, []⟩, 5) ∧
    ¬ all_digits (bytes "1a") ∧
    ¬ (∀ (f rest : List Nat) (size : Nat) (r0 r : reply) (k : Nat),
        parse r0 (COLON :: (f ++ CR :: LF :: rest)) size = Except.ok (r, k) →
        r.type = reply_type.INTEGER →
        all_digits f ∨ ∃ g, f = MINUS :: g ∧ all_digits g) := by
  have hev : parse reply.new (bytes ":1a\r\n") 5
      = Except.ok (⟨reply_type.INTEGER, [], 59, []⟩, 5) := by decide
  have hnd : ¬ all_digits (bytes "1a") := by
    intro h
    have := h 97 (by decide)
    omega
  refine ⟨hev, hnd, ?_⟩
  intro hall
  have hb : COLON :: (bytes "1a" ++ CR :: LF :: []) = bytes ":1a\r\n" := by decide
  rcases hall (bytes "1a") [] 5 reply.new _ _ (by rw [hb]; exact hev) rfl with h | ⟨g, hg, _⟩
  · exact hnd h
  · have h49 : (bytes "1a").head? = some 49 := by decide
    rw [hg] at h49
    exact absurd (Option.some.inj h49) (by decide)

/-- Claim C32, amended. For every input of the form `':' ++ field ++ "\r\n"` (further bytes
allowed after it) with at least four valid bytes, where `field` contains no `'\n'`, the
parser yields an INTEGER reply and consumes the field with its terminator, whatever bytes
`field` holds: after an optional leading `'-'`, every byte other than `'\r'` is taken as a
digit of value `byte - '0'` and `'\r'` is skipped (`field_value`). -/
theorem integer_field_accepted (f rest : List Nat) (size : Nat) (r0 : reply)
    (hf : LF ∉ f) (h4 : 4 ≤ size) (hsize : f.length + 3 ≤ size) :
    parse r0 (COLON :: (f ++ CR :: LF :: rest)) size
      = Except.ok (⟨reply_type.INTEGER, [], field_value f, []⟩, f.length + 3) := by
  have hg := get_integer_field [] f rest COLON CR size hf (by decide) (by simpa using h4)
    (by simp; omega)
  simp only [List.nil_append, List.length_nil, Nat.zero_add, if_true] at hg
  have hrd : rd (COLON :: (f ++ CR :: LF :: rest)) 0 = Except.ok COLON := by simp [rd]
  rw [parse_eq, parse_index_succ, hrd]
  dsimp only
  rw [if_neg (by decide), if_neg (by decide), if_pos rfl]
  simp [parse_integer, hg, reply.new]

/-- Witness of C32 as amended: `: 5\r\n`, a field with a space. -/
theorem integer_field_accepted_witness :
    LF ∉ bytes " 5" ∧ 4 ≤ 5 ∧ (bytes " 5").length + 3 ≤ 5 ∧ field_value (bytes " 5") = -155 ∧
    parse reply.new (COLON :: (bytes " 5" ++ CR :: LF :: [])) 5
      = Except.ok (⟨reply_type.INTEGER, [], field_value (bytes " 5"), []⟩,
          (bytes " 5").length + 3) :=
  ⟨by decide, by decide, by decide, by decide,
    integer_field_accepted (bytes " 5") [] 5 reply.new (by decide) (by decide) (by decide)⟩

theorem to_string_digits_length : ∀ (fuel n : Nat) (acc : List Nat),
    (to_string_digits fuel n acc).length ≤ acc.length + n / 2 + 1 := by
  intro fuel
  induction fuel with
  | zero =>
    intro n acc
    simp [to_string_digits]
    omega
  | succ fuel ih =>
    intro n acc
    unfold to_string_digits
    by_cases h10 : n < 10
    · simp [h10]
    · rw [if_neg h10]
      have := ih (n / 10) ((48 + n % 10) :: acc)
      simp only [List.length_cons] at this
      omega

theorem to_string_length (n : Nat) : (to_string n).length ≤ n / 2 + 1 := by
  have := to_string_digits_length (n + 1) n []
  simpa [to_string] using this

/-- Claim C33. Bulk-string terminator: for every bulk string header `$<L>\r\n` declaring a
length `L >= 0` (an `int64_t`, so `L < 2^63`) within fewer than `2^63` valid bytes: if at
least `L + 2` valid bytes follow the header and the two bytes right after the `L` payload
bytes are not exactly `\r\n`, the parser raises `parse_error`; if fewer than `L + 2` valid
bytes follow the header, it returns 0 without error, whatever lies behind the valid
bytes. -/
theorem bulk_string_terminator (L : Nat) (payload rest tail : List Nat) (a b size : Nat)
    (r0 : reply) (hL : L < 2 ^ 63) (hbound : size < 2 ^ 63) :
    (payload.length = L → 1 + (to_string L).length + 2 + L + 2 ≤ size →
      ¬ (a = CR ∧ b = LF) →
      parse r0 (DOLLAR :: (to_string L ++ CR :: LF :: (payload ++ a :: b :: rest))) size
        = Except.error failure.parse_error) ∧
    (1 + (to_string L).length + 2 ≤ size → size < 1 + (to_string L).length + 2 + L + 2 →
      ∃ r, parse r0 (DOLLAR :: (to_string L ++ CR :: LF :: tail)) size = Except.ok (r, 0)) := by
  have hts : to_size_t (L : Int) = L := to_size_t_of_nat L (by omega)
  have hdl := to_string_length L
  have hne : ¬ ((L : Int) = -1) := by omega
  constructor
  · intro hlen hsize hab
    have hint := get_integer_nonneg L [] (payload ++ a :: b :: rest) DOLLAR size hL
      (by simp; omega)
    simp only [List.nil_append, List.length_nil, Nat.zero_add] at hint
    have hrd : rd (DOLLAR :: (to_string L ++ CR :: LF :: (payload ++ a :: b :: rest))) 0
        = Except.ok DOLLAR := by simp [rd]
    have hra : rd (DOLLAR :: (to_string L ++ CR :: LF :: (payload ++ a :: b :: rest)))
        (1 + (to_string L).length + 2 + L) = Except.ok a :=
      rd_at _ (DOLLAR :: (to_string L ++ CR :: LF :: payload)) (b :: rest) a _ (by simp)
        (by simp; omega)
    have hrb : rd (DOLLAR :: (to_string L ++ CR :: LF :: (payload ++ a :: b :: rest)))
        (1 + (to_string L).length + 2 + L + 1) = Except.ok b :=
      rd_at _ (DOLLAR :: (to_string L ++ CR :: LF :: (payload ++ [a]))) rest b _ (by simp)
        (by simp; omega)
    have hm1 : (1 + (to_string L).length + 2 + L + 2) % 2 ^ 64
        = 1 + (to_string L).length + 2 + L + 2 := Nat.mod_eq_of_lt (by omega)
    have hm2 : (1 + (to_string L).length + 2 + L) % 2 ^ 64
        = 1 + (to_string L).length + 2 + L := Nat.mod_eq_of_lt (by omega)
    have hm3 : (1 + (to_string L).length + 2 + L + 1) % 2 ^ 64
        = 1 + (to_string L).length + 2 + L + 1 := Nat.mod_eq_of_lt (by omega)
    rw [parse_eq, parse_index_succ, hrd]
    dsimp only
    rw [if_neg (by decide), if_neg (by decide), if_neg (by decide), if_pos rfl]
    unfold parse_bulk_string
    rw [hint]
    dsimp only
    rw [if_neg (by omega), if_neg hne]
    simp only [hts]
    rw [hm1, if_neg (by omega), hm2, hra]
    dsimp only
    by_cases ha : a = CR
    · have hb : b ≠ LF := fun h => hab ⟨ha, h⟩
      rw [if_neg (by simpa using ha), hm3, hrb]
      dsimp only
      rw [if_pos hb]
    · rw [if_pos ha]
  · intro hhead hshort
    have hint := get_integer_nonneg L [] tail DOLLAR size hL (by simp; omega)
    simp only [List.nil_append, List.length_nil, Nat.zero_add] at hint
    have hrd : rd (DOLLAR :: (to_string L ++ CR :: LF :: tail)) 0 = Except.ok DOLLAR := by
      simp [rd]
    have hm1 : (1 + (to_string L).length + 2 + L + 2) % 2 ^ 64
        = 1 + (to_string L).length + 2 + L + 2 := Nat.mod_eq_of_lt (by omega)
    rw [parse_eq, parse_index_succ, hrd]
    dsimp only
    rw [if_neg (by decide), if_neg (by decide), if_neg (by decide), if_pos rfl]
    unfold parse_bulk_string
    rw [hint]
    dsimp only
    rw [if_neg (by omega), if_neg hne]
    simp only [hts]
    rw [hm1, if_pos (by omega)]
    exact ⟨_, rfl⟩

/-- Witness of C33: `$3\r\nabcXY` raises, and of `$3\r\nabc\r` with eight valid bytes the
parser wants more. -/
theorem bulk_string_terminator_witness :
    (bytes "abc").length = 3 ∧ 1 + (to_string 3).length + 2 + 3 + 2 ≤ 9 ∧ ¬ (88 = CR ∧ 89 = LF) ∧
    parse reply.new (DOLLAR :: (to_string 3 ++ CR :: LF :: (bytes "abc" ++ 88 :: 89 :: []))) 9
      = Except.error failure.parse_error ∧
    1 + (to_string 3).length + 2 ≤ 8 ∧ 8 < 1 + (to_string 3).length + 2 + 3 + 2 ∧
    ∃ r, parse reply.new (DOLLAR :: (to_string 3 ++ CR :: LF :: bytes "abc\r")) 8
      = Except.ok (r, 0) :=
  ⟨by decide, by decide, by decide,
    (bulk_string_terminator 3 (bytes "abc") [] (bytes "abc\r") 88 89 9 reply.new (by decide)
      (by decide)).1 (by decide) (by decide) (by decide),
    by decide, by decide,
    (bulk_string_terminator 3 (bytes "abc") [] (bytes "abc\r") 88 89 8 reply.new (by decide)
      (by decide)).2 (by decide) (by decide)⟩

/-! ## Lemmas: bounds of the returned index -/

theorem wrap_int64_range (x : Int) : -2 ^ 63 ≤ wrap_int64 x ∧ wrap_int64 x < 2 ^ 63 := by
  unfold wrap_int64
  omega

theorem rd_error (buffer : List Nat) (i : Nat) (e : failure)
    (h : rd buffer i = Except.error e) : e ≠ failure.out_of_fuel := by
  unfold rd at h
  split at h
  · cases h
  · cases h
    decide

theorem skip_to_newline_bound : ∀ (fuel index : Nat) (buffer : List Nat) (size : Nat),
    (∀ j, skip_to_newline buffer size fuel index = Except.ok j → index ≤ j ∧ j ≤ index + fuel) ∧
    (∀ e, skip_to_newline buffer size fuel index = Except.error e →
      e ≠ failure.out_of_fuel) := by
  intro fuel
  induction fuel with
  | zero =>
    intro index buffer size
    refine ⟨?_, ?_⟩
    · intro j h
      simp only [skip_to_newline, Except.ok.injEq] at h
      omega
    · intro e h
      simp [skip_to_newline] at h
  | succ fuel ih =>
    intro index buffer size
    obtain ⟨ih1, ih2⟩ := ih (index + 1) buffer size
    unfold skip_to_newline
    by_cases hi : index < size
    · rw [if_pos hi]
      cases hrd : rd buffer index with
      | error e1 =>
        refine ⟨fun j h => (by cases h), fun e h => ?_⟩
        simp only [Except.error.injEq] at h
        subst h
        exact rd_error buffer index e1 hrd
      | ok c =>
        dsimp only
        by_cases hc : c ≠ LF
        · rw [if_pos hc]
          refine ⟨fun j h => ?_, fun e h => ih2 e h⟩
          have := ih1 j h
          omega
        · rw [if_neg hc]
          refine ⟨fun j h => ?_, fun e h => by cases h⟩
          simp only [Except.ok.injEq] at h
          omega
    · rw [if_neg hi]
      refine ⟨fun j h => ?_, fun e h => by cases h⟩
      simp only [Except.ok.injEq] at h
      omega

theorem get_integer_loop_bound : ∀ (fuel index : Nat) (acc : Int) (buffer : List Nat)
    (size : Nat), -2 ^ 63 ≤ acc → acc < 2 ^ 63 →
    (∀ v j, get_integer_loop buffer size fuel acc index = Except.ok (v, j) →
      index ≤ j ∧ -2 ^ 63 ≤ v ∧ v < 2 ^ 63) ∧
    (∀ e, get_integer_loop buffer size fuel acc index = Except.error e →
      e ≠ failure.out_of_fuel) := by
  intro fuel
  induction fuel with
  | zero =>
    intro index acc buffer size h1 h2
    refine ⟨?_, ?_⟩
    · intro v j h
      simp only [get_integer_loop, Except.ok.injEq, Prod.mk.injEq] at h
      obtain ⟨rfl, rfl⟩ := h
      exact ⟨le_refl _, h1, h2⟩
    · intro e h
      simp [get_integer_loop] at h
  | succ fuel ih =>
    intro index acc buffer size h1 h2
    unfold get_integer_loop
    by_cases hi : index < size
    · rw [if_pos hi]
      cases hrd : rd buffer index with
      | error e1 =>
        refine ⟨fun v j h => (by cases h), fun e h => ?_⟩
        simp only [Except.error.injEq] at h
        subst h
        exact rd_error buffer index e1 hrd
      | ok c =>
        dsimp only
        by_cases hc : c ≠ LF
        · rw [if_pos hc]
          by_cases hcr : c ≠ CR
          · rw [if_pos hcr]
            obtain ⟨hr1, hr2⟩ := wrap_int64_range (wrap_int64 (acc * 10) + (char_val c - 48))
            obtain ⟨ih1, ih2⟩ := ih (index + 1)
              (wrap_int64 (wrap_int64 (acc * 10) + (char_val c - 48))) buffer size hr1 hr2
            refine ⟨fun v j h => ?_, fun e h => ih2 e h⟩
            have := ih1 v j h
            exact ⟨by omega, this.2⟩
          · rw [if_neg hcr]
            obtain ⟨ih1, ih2⟩ := ih (index + 1) acc buffer size h1 h2
            refine ⟨fun v j h => ?_, fun e h => ih2 e h⟩
            have := ih1 v j h
            exact ⟨by omega, this.2⟩
        · rw [if_neg hc]
          refine ⟨fun v j h => ?_, fun e h => by cases h⟩
          simp only [Except.ok.injEq, Prod.mk.injEq] at h
          obtain ⟨rfl, rfl⟩ := h
          exact ⟨le_refl _, h1, h2⟩
    · rw [if_neg hi]
      refine ⟨fun v j h => ?_, fun e h => by cases h⟩
      simp only [Except.ok.injEq, Prod.mk.injEq] at h
      obtain ⟨rfl, rfl⟩ := h
      exact ⟨le_refl _, h1, h2⟩

theorem get_integer_bound (buffer : List Nat) (size index : Nat) :
    (∀ v k, get_integer buffer size index = Except.ok (v, k) →
      (k = 0 ∨ (index + 2 ≤ k ∧ k ≤ size)) ∧ -2 ^ 63 ≤ v ∧ v < 2 ^ 63 ∧
      (∀ c, rd buffer index = Except.ok c → c ≠ CR → k = 0 ∨ index + 3 ≤ k)) ∧
    (∀ e, get_integer buffer size index = Except.error e → e ≠ failure.out_of_fuel) := by
  unfold get_integer
  by_cases h4 : size - index < 4
  · rw [if_pos h4]
    refine ⟨fun v k h => ?_, fun e h => by cases h⟩
    simp only [Except.ok.injEq, Prod.mk.injEq] at h
    obtain ⟨rfl, rfl⟩ := h
    exact ⟨Or.inl rfl, by omega, by omega, fun _ _ _ => Or.inl rfl⟩
  · rw [if_neg h4]
    cases hrd : rd buffer (index + 1) with
    | error e1 =>
      refine ⟨fun v k h => (by cases h), fun e h => ?_⟩
      simp only [Except.error.injEq] at h
      subst h
      exact rd_error _ _ e1 hrd
    | ok c1 =>
      dsimp only
      obtain ⟨hl1, hl2⟩ := get_integer_loop_bound
        (size - (if decide (c1 = MINUS) = true then index + 2 else index + 1))
        (if decide (c1 = MINUS) = true then index + 2 else index + 1) 0 buffer size
        (by omega) (by omega)
      cases hloop : get_integer_loop buffer size
          (size - (if decide (c1 = MINUS) = true then index + 2 else index + 1)) 0
          (if decide (c1 = MINUS) = true then index + 2 else index + 1) with
      | error e1 =>
        refine ⟨fun v k h => (by cases h), fun e h => ?_⟩
        simp only [Except.error.injEq] at h
        subst h
        exact hl2 e1 hloop
      | ok w =>
        obtain ⟨integer, index2⟩ := w
        obtain ⟨hge, hv1, hv2⟩ := hl1 integer index2 hloop
        have hge1 : index + 1 ≤ index2 := by
          split at hge <;> omega
        dsimp only
        by_cases hs : index2 ≥ size
        · rw [if_pos hs]
          refine ⟨fun v k h => ?_, fun e h => by cases h⟩
          simp only [Except.ok.injEq, Prod.mk.injEq] at h
          obtain ⟨rfl, rfl⟩ := h
          exact ⟨Or.inl rfl, hv1, hv2, fun _ _ _ => Or.inl rfl⟩
        · rw [if_neg hs]
          cases hrp : rd buffer (index2 - 1) with
          | error e1 =>
            refine ⟨fun v k h => (by cases h), fun e h => ?_⟩
            simp only [Except.error.injEq] at h
            subst h
            exact rd_error _ _ e1 hrp
          | ok p =>
            dsimp only
            by_cases hp : p ≠ CR
            · rw [if_pos hp]
              refine ⟨fun v k h => (by cases h), fun e h => ?_⟩
              simp only [Except.error.injEq] at h
              subst h
              decide
            · rw [if_neg hp]
              refine ⟨fun v k h => ?_, fun e h => by cases h⟩
              simp only [Except.ok.injEq, Prod.mk.injEq] at h
              obtain ⟨rfl, rfl⟩ := h
              refine ⟨Or.inr ⟨by omega, by omega⟩, ?_, ?_, ?_⟩
              · split
                · exact (wrap_int64_range _).1
                · exact hv1
              · split
                · exact (wrap_int64_range _).2
                · exact hv2
              · intro c hc hne
                right
                by_contra hlt
                have heq : index2 - 1 = index := by omega
                rw [heq, hc] at hrp
                simp only [Except.ok.injEq] at hrp
                subst hrp
                exact hp hne

theorem parse_simple_string_bound (r : reply) (buffer : List Nat) (size index : Nat) :
    (∀ r1 k, parse_simple_string r buffer size index = Except.ok (r1, k) →
      k = 0 ∨ (index + 1 ≤ k ∧ k ≤ size)) ∧
    (∀ e, parse_simple_string r buffer size index = Except.error e →
      e ≠ failure.out_of_fuel) := by
  unfold parse_simple_string
  by_cases h3 : size - index < 3
  · rw [if_pos h3]
    refine ⟨fun r1 k h => ?_, fun e h => by cases h⟩
    simp only [Except.ok.injEq, Prod.mk.injEq] at h
    exact Or.inl h.2.symm
  · rw [if_neg h3]
    dsimp only
    obtain ⟨hs1, hs2⟩ := skip_to_newline_bound (size - index) index buffer size
    cases hskip : skip_to_newline buffer size (size - index) index with
    | error e1 =>
      refine ⟨fun r1 k h => (by cases h), fun e h => ?_⟩
      simp only [Except.error.injEq] at h
      subst h
      exact hs2 e1 hskip
    | ok index1 =>
      have hb := hs1 index1 hskip
      dsimp only
      by_cases hs : index1 ≥ size
      · rw [if_pos hs]
        refine ⟨fun r1 k h => ?_, fun e h => by cases h⟩
        simp only [Except.ok.injEq, Prod.mk.injEq] at h
        exact Or.inl h.2.symm
      · rw [if_neg hs]
        cases hrp : rd buffer (index1 - 1) with
        | error e1 =>
          refine ⟨fun r1 k h => (by cases h), fun e h => ?_⟩
          simp only [Except.error.injEq] at h
          subst h
          exact rd_error _ _ e1 hrp
        | ok p =>
          dsimp only
          by_cases hp : p ≠ CR
          · rw [if_pos hp]
            refine ⟨fun r1 k h => (by cases h), fun e h => ?_⟩
            simp only [Except.error.injEq] at h
            subst h
            decide
          · rw [if_neg hp]
            refine ⟨fun r1 k h => ?_, fun e h => by cases h⟩
            simp only [Except.ok.injEq, Prod.mk.injEq] at h
            right
            omega

theorem parse_error_string_bound (r : reply) (buffer : List Nat) (size index : Nat) :
    (∀ r1 k, parse_error_string r buffer size index = Except.ok (r1, k) →
      k = 0 ∨ (index + 1 ≤ k ∧ k ≤ size)) ∧
    (∀ e, parse_error_string r buffer size index = Except.error e →
      e ≠ failure.out_of_fuel) := by
  obtain ⟨h1, h2⟩ := parse_simple_string_bound r buffer size index
  unfold parse_error_string
  cases hp : parse_simple_string r buffer size index with
  | error e1 =>
    refine ⟨fun r1 k h => (by cases h), fun e h => ?_⟩
    simp only [Except.error.injEq] at h
    subst h
    exact h2 e1 hp
  | ok w =>
    obtain ⟨r2, k2⟩ := w
    refine ⟨fun r1 k h => ?_, fun e h => by cases h⟩
    simp only [Except.ok.injEq, Prod.mk.injEq] at h
    obtain ⟨_, rfl⟩ := h
    exact h1 r2 k2 hp

theorem parse_integer_bound (r : reply) (buffer : List Nat) (size index : Nat) :
    (∀ r1 k, parse_integer r buffer size index = Except.ok (r1, k) →
      k = 0 ∨ (index + 1 ≤ k ∧ k ≤ size)) ∧
    (∀ e, parse_integer r buffer size index = Except.error e → e ≠ failure.out_of_fuel) := by
  obtain ⟨h1, h2⟩ := get_integer_bound buffer size index
  unfold parse_integer
  cases hp : get_integer buffer size index with
  | error e1 =>
    refine ⟨fun r1 k h => (by cases h), fun e h => ?_⟩
    simp only [Except.error.injEq] at h
    subst h
    exact h2 e1 hp
  | ok w =>
    obtain ⟨v, k2⟩ := w
    have hb := (h1 v k2 hp).1
    dsimp only
    by_cases hz : k2 = 0
    · rw [if_pos hz]
      refine ⟨fun r1 k h => ?_, fun e h => by cases h⟩
      simp only [Except.ok.injEq, Prod.mk.injEq] at h
      exact Or.inl h.2.symm
    · rw [if_neg hz]
      refine ⟨fun r1 k h => ?_, fun e h => by cases h⟩
      simp only [Except.ok.injEq, Prod.mk.injEq] at h
      obtain ⟨_, rfl⟩ := h
      rcases hb with hb | hb
      · exact absurd hb hz
      · exact Or.inr ⟨by omega, hb.2⟩

theorem parse_bulk_string_bound (r : reply) (buffer : List Nat) (size index : Nat)
    (hbound : size < 2 ^ 63) :
    (∀ r1 k, parse_bulk_string r buffer size index = Except.ok (r1, k) →
      k = 0 ∨ (index + 1 ≤ k ∧ k ≤ size)) ∧
    (∀ e, parse_bulk_string r buffer size index = Except.error e →
      e ≠ failure.out_of_fuel) := by
  obtain ⟨h1, h2⟩ := get_integer_bound buffer size index
  unfold parse_bulk_string
  cases hp : get_integer buffer size index with
  | error e1 =>
    refine ⟨fun r1 k h => (by cases h), fun e h => ?_⟩
    simp only [Except.error.injEq] at h
    subst h
    exact h2 e1 hp
  | ok w =>
    obtain ⟨v, k2⟩ := w
    obtain ⟨hb, hv1, hv2, _⟩ := h1 v k2 hp
    dsimp only
    by_cases hz : k2 = 0
    · rw [if_pos hz]
      refine ⟨fun r1 k h => ?_, fun e h => by cases h⟩
      simp only [Except.ok.injEq, Prod.mk.injEq] at h
      exact Or.inl h.2.symm
    · rw [if_neg hz]
      have hk2 : index + 2 ≤ k2 ∧ k2 ≤ size := by
        rcases hb with hb | hb
        · exact absurd hb hz
        · exact hb
      by_cases hnil : v = -1
      · rw [if_pos hnil]
        refine ⟨fun r1 k h => ?_, fun e h => by cases h⟩
        simp only [Except.ok.injEq, Prod.mk.injEq] at h
        obtain ⟨_, rfl⟩ := h
        exact Or.inr ⟨by omega, hk2.2⟩
      · rw [if_neg hnil]
        by_cases hbig : (k2 + to_size_t v + 2) % 2 ^ 64 > size
        · rw [if_pos hbig]
          refine ⟨fun r1 k h => ?_, fun e h => by cases h⟩
          simp only [Except.ok.injEq, Prod.mk.injEq] at h
          exact Or.inl h.2.symm
        · rw [if_neg hbig]
          cases hra : rd buffer ((k2 + to_size_t v) % 2 ^ 64) with
          | error e1 =>
            refine ⟨fun r1 k h => (by cases h), fun e h => ?_⟩
            simp only [Except.error.injEq] at h
            subst h
            exact rd_error _ _ e1 hra
          | ok a =>
            dsimp only
            by_cases ha : a ≠ CR
            · rw [if_pos ha]
              refine ⟨fun r1 k h => (by cases h), fun e h => ?_⟩
              simp only [Except.error.injEq] at h
              subst h
              decide
            · rw [if_neg ha]
              cases hrb : rd buffer ((k2 + to_size_t v + 1) % 2 ^ 64) with
              | error e1 =>
                refine ⟨fun r1 k h => (by cases h), fun e h => ?_⟩
                simp only [Except.error.injEq] at h
                subst h
                exact rd_error _ _ e1 hrb
              | ok b =>
                dsimp only
                by_cases hb2 : b ≠ LF
                · rw [if_pos hb2]
                  refine ⟨fun r1 k h => (by cases h), fun e h => ?_⟩
                  simp only [Except.error.injEq] at h
                  subst h
                  decide
                · rw [if_neg hb2]
                  by_cases hneg : v < 0
                  · rw [if_pos hneg]
                    refine ⟨fun r1 k h => (by cases h), fun e h => ?_⟩
                    simp only [Except.error.injEq] at h
                    subst h
                    decide
                  · rw [if_neg hneg]
                    refine ⟨fun r1 k h => ?_, fun e h => by cases h⟩
                    simp only [Except.ok.injEq, Prod.mk.injEq] at h
                    obtain ⟨_, rfl⟩ := h
                    have hts : to_size_t v = v.toNat := by
                      unfold to_size_t
                      omega
                    rw [hts] at hbig ⊢
                    omega

theorem parse_fuel_bound (buffer : List Nat) (size : Nat) (hbound : size < 2 ^ 63) :
    ∀ fuel : Nat,
    (∀ r index, index ≤ size →
      (∀ r1 k, parse_index buffer size fuel r index = Except.ok (r1, k) →
        k = 0 ∨ (index + 1 ≤ k ∧ k ≤ size)) ∧
      (size - index + 2 ≤ fuel → ∀ e, parse_index buffer size fuel r index = Except.error e →
        e ≠ failure.out_of_fuel)) ∧
    (∀ r index, index ≤ size → rd buffer index = Except.ok STAR →
      (∀ r1 k, parse_array buffer size fuel r index = Except.ok (r1, k) →
        k = 0 ∨ (index + 1 ≤ k ∧ k ≤ size)) ∧
      (size - index + 1 ≤ fuel → ∀ e, parse_array buffer size fuel r index = Except.error e →
        e ≠ failure.out_of_fuel)) ∧
    (∀ integer i r index, index ≤ size →
      (∀ r1 k, parse_array_loop buffer size fuel integer i r index = Except.ok (r1, k) →
        k = 0 ∨ (index ≤ k ∧ k ≤ size)) ∧
      (size - index + 3 ≤ fuel →
        ∀ e, parse_array_loop buffer size fuel integer i r index = Except.error e →
        e ≠ failure.out_of_fuel)) := by
  intro fuel
  induction fuel with
  | zero =>
    refine ⟨?_, ?_, ?_⟩
    · intro r index _
      refine ⟨fun r1 k h => ?_, fun hf => by omega⟩
      rw [parse_index] at h
      cases h
    · intro r index _ _
      refine ⟨fun r1 k h => ?_, fun hf => by omega⟩
      rw [parse_array] at h
      cases h
    · intro integer i r index _
      refine ⟨fun r1 k h => ?_, fun hf => by omega⟩
      rw [parse_array_loop] at h
      cases h
  | succ fuel ih =>
    obtain ⟨ihA, ihB, ihC⟩ := ih
    refine ⟨?_, ?_, ?_⟩
    · intro r index hle
      rw [parse_index_succ]
      cases hrd : rd buffer index with
      | error e1 =>
        refine ⟨fun r1 k h => (by cases h), fun _ e h => ?_⟩
        simp only [Except.error.injEq] at h
        subst h
        exact rd_error _ _ e1 hrd
      | ok c =>
        dsimp only
        by_cases h1 : c = PLUS
        · rw [if_pos h1]
          obtain ⟨a, b⟩ := parse_simple_string_bound r buffer size index
          exact ⟨a, fun _ => b⟩
        · rw [if_neg h1]
          by_cases h2 : c = MINUS
          · rw [if_pos h2]
            obtain ⟨a, b⟩ := parse_error_string_bound r buffer size index
            exact ⟨a, fun _ => b⟩
          · rw [if_neg h2]
            by_cases h3 : c = COLON
            · rw [if_pos h3]
              obtain ⟨a, b⟩ := parse_integer_bound r buffer size index
              exact ⟨a, fun _ => b⟩
            · rw [if_neg h3]
              by_cases h4 : c = DOLLAR
              · rw [if_pos h4]
                obtain ⟨a, b⟩ := parse_bulk_string_bound r buffer size index hbound
                exact ⟨a, fun _ => b⟩
              · rw [if_neg h4]
                by_cases h5 : c = STAR
                · rw [if_pos h5]
                  subst h5
                  obtain ⟨a, b⟩ := ihB r index hle hrd
                  exact ⟨a, fun hf => b (by omega)⟩
                · rw [if_neg h5]
                  refine ⟨fun r1 k h => (by cases h), fun _ e h => ?_⟩
                  simp only [Except.error.injEq] at h
                  subst h
                  decide
    · intro r index hle hstar
      rw [parse_array_succ]
      obtain ⟨g1, g2⟩ := get_integer_bound buffer size index
      cases hg : get_integer buffer size index with
      | error e1 =>
        refine ⟨fun r1 k h => (by cases h), fun _ e h => ?_⟩
        simp only [Except.error.injEq] at h
        subst h
        exact g2 e1 hg
      | ok w =>
        obtain ⟨integer, index1⟩ := w
        obtain ⟨hb, _, _, hb3⟩ := g1 integer index1 hg
        have hb4 := hb3 STAR hstar (by decide)
        dsimp only
        by_cases hz : index1 = 0
        · rw [if_pos hz]
          refine ⟨fun r1 k h => ?_, fun _ e h => (by cases h)⟩
          simp only [Except.ok.injEq, Prod.mk.injEq] at h
          exact Or.inl h.2.symm
        · rw [if_neg hz]
          have hk : index + 3 ≤ index1 ∧ index1 ≤ size := by
            rcases hb with hb | hb
            · exact absurd hb hz
            · rcases hb4 with hb4 | hb4
              · exact absurd hb4 hz
              · exact ⟨hb4, hb.2⟩
          by_cases hnil : integer = -1
          · rw [if_pos hnil]
            refine ⟨fun r1 k h => ?_, fun _ e h => (by cases h)⟩
            simp only [Except.ok.injEq, Prod.mk.injEq] at h
            obtain ⟨_, rfl⟩ := h
            exact Or.inr ⟨by omega, hk.2⟩
          · rw [if_neg hnil]
            by_cases hbig : to_size_t integer > vector_max_size
            · rw [if_pos hbig]
              refine ⟨fun r1 k h => (by cases h), fun _ e h => ?_⟩
              simp only [Except.error.injEq] at h
              subst h
              decide
            · rw [if_neg hbig]
              obtain ⟨a, b⟩ := ihC integer 0 { r with type := reply_type.ARRAY } index1 hk.2
              refine ⟨fun r1 k h => ?_, fun hf => b (by omega)⟩
              rcases a r1 k h with h0 | h0
              · exact Or.inl h0
              · exact Or.inr ⟨by omega, h0.2⟩
    · intro integer i r index hle
      rw [parse_array_loop_succ]
      by_cases hi : (i : Int) < integer
      · rw [if_pos hi]
        cases hel : (r.elements ++ [reply.new])[i]? with
        | none =>
          refine ⟨fun r1 k h => (by cases h), fun _ e h => ?_⟩
          simp only [Except.error.injEq] at h
          subst h
          decide
        | some el =>
          dsimp only
          obtain ⟨a, b⟩ := ihA el index hle
          cases hp : parse_index buffer size fuel el index with
          | error e1 =>
            refine ⟨fun r1 k h => (by cases h), fun hf e h => ?_⟩
            simp only [Except.error.injEq] at h
            subst h
            exact b (by omega) e1 hp
          | ok w =>
            obtain ⟨e1, index1⟩ := w
            have hb := a e1 index1 hp
            dsimp only
            by_cases hz : index1 = 0
            · rw [if_pos hz]
              refine ⟨fun r1 k h => ?_, fun _ e h => (by cases h)⟩
              simp only [Except.ok.injEq, Prod.mk.injEq] at h
              exact Or.inl h.2.symm
            · rw [if_neg hz]
              have hk : index + 1 ≤ index1 ∧ index1 ≤ size := by
                rcases hb with hb | hb
                · exact absurd hb hz
                · exact hb
              obtain ⟨c1, c2⟩ := ihC integer ((i + 1) % 2 ^ 32)
                { r with elements := (r.elements ++ [reply.new]).set i e1 } index1 hk.2
              refine ⟨fun r1 k h => ?_, fun hf => c2 (by omega)⟩
              rcases c1 r1 k h with h0 | h0
              · exact Or.inl h0
              · exact Or.inr ⟨by omega, h0.2⟩
      · rw [if_neg hi]
        refine ⟨fun r1 k h => ?_, fun _ e h => (by cases h)⟩
        simp only [Except.ok.injEq, Prod.mk.injEq] at h
        obtain ⟨_, rfl⟩ := h
        exact Or.inr ⟨le_refl _, hle⟩

/-- The top-level parse returns 0 or a count between 1 and `size`, and its recursion budget
is never used up. -/
theorem parse_bound (r0 : reply) (buffer : List Nat) (size : Nat) (hbound : size < 2 ^ 63) :
    (∀ r k, parse r0 buffer size = Except.ok (r, k) → k = 0 ∨ (1 ≤ k ∧ k ≤ size)) ∧
    parse r0 buffer size ≠ Except.error failure.out_of_fuel := by
  obtain ⟨a, b⟩ := (parse_fuel_bound buffer size hbound (size + 2)).1 reply.new 0 (Nat.zero_le _)
  rw [parse_eq]
  refine ⟨fun r k h => ?_, fun h => ?_⟩
  · rcases a r k h with h0 | h0
    · exact Or.inl h0
    · exact Or.inr ⟨by omega, h0.2⟩
  · exact b (by omega) _ h rfl

/-- Claim C40. Consumed count is bounded: for every buffer and every size (below `2^63`),
whenever the top-level parse returns a non-zero count `k` without raising,
`1 <= k <= size`; so the subtraction `_used_bytes -= k` of `on_read` does not underflow
(`size - k + k = size`) and `ptr + k` does not pass the valid bytes. The parse never ends
for lack of recursion budget, which only the embedding has. -/
theorem consumed_count_bounded (r0 r : reply) (buffer : List Nat) (size k : Nat)
    (hbound : size < 2 ^ 63) (h : parse r0 buffer size = Except.ok (r, k)) (hk : k ≠ 0) :
    1 ≤ k ∧ k ≤ size ∧ size - k + k = size ∧
    parse r0 buffer size ≠ Except.error failure.out_of_fuel := by
  obtain ⟨a, b⟩ := parse_bound r0 buffer size hbound
  rcases a r k h with h0 | h0
  · exact absurd h0 hk
  · exact ⟨h0.1, h0.2, by omega, b⟩

/-- Witness of C40: the array `*2\r\n:1\r\n:2\r\n` followed by two more bytes. -/
theorem consumed_count_bounded_witness :
    (14 : Nat) < 2 ^ 63 ∧
    parse reply.new (bytes "*2\r\n:1\r\n:2\r\n+O") 14
      = Except.ok (⟨reply_type.ARRAY, [], 0,
          [⟨reply_type.INTEGER, [], 1, []⟩, ⟨reply_type.INTEGER, [], 2, []⟩]⟩, 12) ∧
    (12 : Nat) ≠ 0 ∧ 1 ≤ 12 ∧ 12 ≤ 14 :=
  ⟨by decide, by decide, by decide,
    (consumed_count_bounded reply.new _ (bytes "*2\r\n:1\r\n:2\r\n+O") 14 12 (by decide)
      (by decide :
        parse reply.new (bytes "*2\r\n:1\r\n:2\r\n+O") 14
          = Except.ok (⟨reply_type.ARRAY, [], 0,
              [⟨reply_type.INTEGER, [], 1, []⟩, ⟨reply_type.INTEGER, [], 2, []⟩]⟩, 12))
      (by decide)).1,
    (consumed_count_bounded reply.new _ (bytes "*2\r\n:1\r\n:2\r\n+O") 14 12 (by decide)
      (by decide :
        parse reply.new (bytes "*2\r\n:1\r\n:2\r\n+O") 14
          = Except.ok (⟨reply_type.ARRAY, [], 0,
              [⟨reply_type.INTEGER, [], 1, []⟩, ⟨reply_type.INTEGER, [], 2, []⟩]⟩, 12))
      (by decide)).2.1⟩

/-! ## Lemmas: the loop of `on_read` -/

theorem on_read_loop_zero (buffer : List Nat) (fuel : Nat) (s : loop_state) :
    on_read_loop buffer fuel s 0 = s := by
  cases fuel with
  | zero => simp [on_read_loop]
  | succ fuel => simp [on_read_loop]

/-- The loop of `on_read` never uses up its budget: every iteration consumes at least one
of the `used` valid bytes. -/
theorem on_read_loop_fuel (buffer : List Nat) : ∀ (fuel : Nat) (s : loop_state) (length : Nat),
    s.used ≤ fuel → s.used < 2 ^ 63 → length ≤ s.used →
    s.raised ≠ some failure.out_of_fuel →
    (on_read_loop buffer fuel s length).raised ≠ some failure.out_of_fuel := by
  intro fuel
  induction fuel with
  | zero =>
    intro s length hf _ hl hr
    have h0 : length = 0 := by omega
    subst h0
    rw [on_read_loop_zero]
    exact hr
  | succ fuel ih =>
    intro s length hf hb hl hr
    by_cases hpos : length > 0
    · rw [on_read_loop, if_pos hpos]
      dsimp only
      by_cases hz : s.used - length = 0
      · rw [if_pos hz]
        exact hr
      · rw [if_neg hz]
        obtain ⟨a, b⟩ := parse_bound s.message (buffer.drop (s.ptr + length)) (s.used - length)
          (by omega)
        cases hp : parse s.message (buffer.drop (s.ptr + length)) (s.used - length) with
        | error e =>
          dsimp only
          intro h
          rw [hp] at b
          simp only [Option.some.injEq] at h
          subst h
          exact b rfl
        | ok w =>
          obtain ⟨m, length1⟩ := w
          dsimp only
          have hk := a m length1 hp
          apply ih
          · show s.used - length ≤ fuel
            omega
          · show s.used - length < 2 ^ 63
            omega
          · show length1 ≤ s.used - length
            omega
          · exact hr
    · have h0 : length = 0 := by omega
      subst h0
      rw [on_read_loop_zero]
      exact hr

/-- What the loop of `on_read` does when it ends without an exception, entered with a
message of `length` bytes already parsed at `ptr`. -/
theorem on_read_loop_frames (buffer : List Nat) :
    ∀ (fuel : Nat) (s : loop_state) (length : Nat),
    0 < length → length ≤ s.used → s.used < 2 ^ 63 →
    (on_read_loop buffer fuel s length).raised = none →
    ∃ rest : List (reply × Nat),
      delivers (buffer.drop (s.ptr + length)) (s.used - length) rest ∧
      (on_read_loop buffer fuel s length).delivered
        = s.delivered ++ s.message :: rest.map Prod.fst ∧
      (on_read_loop buffer fuel s length).ptr = s.ptr + length + (rest.map Prod.snd).sum ∧
      (on_read_loop buffer fuel s length).used + length + (rest.map Prod.snd).sum = s.used := by
  intro fuel
  induction fuel with
  | zero =>
    intro s length hpos _ _ hr
    rw [on_read_loop, if_pos hpos] at hr
    cases hr
  | succ fuel ih =>
    intro s length hpos hl hb
    rw [on_read_loop, if_pos hpos]
    dsimp only
    by_cases hz : s.used - length = 0
    · rw [if_pos hz]
      intro _
      refine ⟨[], trivial, ?_, ?_, ?_⟩
      · simp
      · simp
      · simp only [List.map_nil, List.sum_nil]
        omega
    · rw [if_neg hz]
      obtain ⟨a, _⟩ := parse_bound s.message (buffer.drop (s.ptr + length)) (s.used - length)
        (by omega)
      cases hp : parse s.message (buffer.drop (s.ptr + length)) (s.used - length) with
      | error e =>
        dsimp only
        intro hr
        cases hr
      | ok w =>
        obtain ⟨m, length1⟩ := w
        dsimp only
        have hk := a m length1 hp
        by_cases h1 : length1 = 0
        · subst h1
          rw [on_read_loop_zero]
          intro _
          refine ⟨[], trivial, ?_, ?_, ?_⟩
          · simp
          · simp
          · simp only [List.map_nil, List.sum_nil]
            omega
        · intro hr
          obtain ⟨rest, d1, d2, d3, d4⟩ := ih
            { s with ptr := s.ptr + length, used := s.used - length, message := m,
                     delivered := s.delivered ++ [s.message] } length1
            (by omega) (by show length1 ≤ s.used - length; omega)
            (by show s.used - length < 2 ^ 63; omega) hr
          dsimp only at d1 d2 d3 d4
          refine ⟨(m, length1) :: rest, ?_, ?_, ?_, ?_⟩
          · refine ⟨hp, by omega, by omega, ?_⟩
            rw [List.drop_drop]
            exact d1
          · rw [d2]
            simp
          · rw [d3]
            simp only [List.map_cons, List.sum_cons]
            omega
          · simp only [List.map_cons, List.sum_cons]
            omega

/-- The function `on_read` never ends for lack of budget (which only the embedding has). -/
theorem on_read_fuel (p : parser_base) (n : Nat) (hbound : p._used_bytes + n < 2 ^ 63) :
    (p.on_read n).raised ≠ some failure.out_of_fuel := by
  obtain ⟨a, b⟩ := parse_bound p._message p._buffer (p._used_bytes + n) hbound
  unfold parser_base.on_read
  dsimp only
  cases hp : parse p._message p._buffer (p._used_bytes + n) with
  | error e =>
    dsimp only
    intro h
    rw [hp] at b
    simp only [Option.some.injEq] at h
    subst h
    exact b rfl
  | ok w =>
    obtain ⟨m, length⟩ := w
    dsimp only
    have hk := a m length hp
    have hf := on_read_loop_fuel p._buffer (p._used_bytes + n + 1)
      ⟨0, p._used_bytes + n, m, [], none⟩ length (by show p._used_bytes + n ≤ _; omega)
      hbound (by show length ≤ p._used_bytes + n; omega) (by simp)
    cases hr : (on_read_loop p._buffer (p._used_bytes + n + 1)
      ⟨0, p._used_bytes + n, m, [], none⟩ length).raised with
    | none => simp
    | some e =>
      dsimp only
      rw [hr] at hf
      exact hf

/-- Claim C35. Feed compaction: for every parser state with `used <= capacity` and every
`n <= capacity - used` (the buffer being the allocation of `capacity` bytes, below `2^63`),
after `on_read(n, cb)` returns normally there is the list of the messages delivered during
the call with their byte counts, each one the result of the top-level parse at the first
byte its predecessors left; the new watermark plus the sum of the byte counts is `used + n`;
the buffer bytes `[0, used')` are the bytes that followed the last delivered message, in
their order; `used' <= capacity`; the returned descriptor is
`(offset used', size capacity - used')`; the capacity is unchanged. -/
theorem feed_compaction (p : parser_base) (n : Nat)
    (hlen : p._buffer.length = p._buffer_size) (hbound : p._buffer_size < 2 ^ 63)
    (hused : p._used_bytes ≤ p._buffer_size) (hn : n ≤ p._buffer_size - p._used_bytes)
    (hnormal : (p.on_read n).raised = none) :
    ∃ frames : List (reply × Nat),
      delivers p._buffer (p._used_bytes + n) frames ∧
      (p.on_read n).delivered = frames.map Prod.fst ∧
      (p.on_read n).state._used_bytes + (frames.map Prod.snd).sum = p._used_bytes + n ∧
      (p.on_read n).state._buffer.take (p.on_read n).state._used_bytes
        = (p._buffer.drop (frames.map Prod.snd).sum).take (p.on_read n).state._used_bytes ∧
      (p.on_read n).state._used_bytes ≤ p._buffer_size ∧
      (p.on_read n).state.buffer
        = ⟨(p.on_read n).state._used_bytes, p._buffer_size - (p.on_read n).state._used_bytes⟩ ∧
      (p.on_read n).state._buffer_size = p._buffer_size := by
  obtain ⟨a, _⟩ := parse_bound p._message p._buffer (p._used_bytes + n) (by omega)
  revert hnormal
  unfold parser_base.on_read
  dsimp only
  cases hp : parse p._message p._buffer (p._used_bytes + n) with
  | error e =>
    dsimp only
    intro h
    cases h
  | ok w =>
    obtain ⟨m, length⟩ := w
    dsimp only
    have hk := a m length hp
    by_cases h0 : length = 0
    · subst h0
      rw [on_read_loop_zero]
      dsimp only
      intro _
      refine ⟨[], trivial, rfl, ?_, ?_, ?_, rfl, rfl⟩
      · simp
      · simp
      · show p._used_bytes + n ≤ p._buffer_size
        omega
    · have hl := on_read_loop_frames p._buffer (p._used_bytes + n + 1)
        ⟨0, p._used_bytes + n, m, [], none⟩ length (by omega)
        (by show length ≤ p._used_bytes + n; omega)
        (by show p._used_bytes + n < 2 ^ 63; omega)
      cases hr : (on_read_loop p._buffer (p._used_bytes + n + 1)
        ⟨0, p._used_bytes + n, m, [], none⟩ length).raised with
      | some e =>
        dsimp only
        intro h
        cases h
      | none =>
        dsimp only
        intro _
        obtain ⟨rest, d1, d2, d3, d4⟩ := hl hr
        dsimp only at d1 d2 d3 d4
        have hptr : (on_read_loop p._buffer (p._used_bytes + n + 1)
            ⟨0, p._used_bytes + n, m, [], none⟩ length).ptr ≠ 0 := by
          rw [d3]
          omega
        rw [if_pos hptr]
        refine ⟨(m, length) :: rest, ?_, ?_, ?_, ?_, ?_, rfl, rfl⟩
        · refine ⟨?_, by omega, by omega, ?_⟩
          · rw [parse_eq] at hp
            rw [parse_eq]
            exact hp
          · rw [Nat.zero_add] at d1
            exact d1
        · show _ = _
          rw [d2]
          simp
        · show _ + _ = _
          simp only [List.map_cons, List.sum_cons]
          omega
        · show List.take _ (_ ++ _) = _
          have e : (List.map Prod.snd ((m, length) :: rest)).sum
              = (on_read_loop p._buffer (p._used_bytes + n + 1)
                  ⟨0, p._used_bytes + n, m, [], none⟩ length).ptr := by
            rw [d3]
            simp only [List.map_cons, List.sum_cons]
            omega
          rw [e]
          rw [List.take_append_of_le_length (by rw [List.length_take, List.length_drop]; omega),
            List.take_take, Nat.min_self]
        · show _ ≤ p._buffer_size
          omega

set_option maxRecDepth 8000 in
/-- Witness of C35: ten bytes `+A\r\n+B\r\n+C` arrive in an empty parser of capacity 12; the
two messages are delivered, 2 bytes stay, and they are `+C` at offset 0. -/
theorem feed_compaction_witness :
    two_and_a_half._buffer.length = two_and_a_half._buffer_size ∧
    two_and_a_half._buffer_size < 2 ^ 63 ∧
    two_and_a_half._used_bytes ≤ two_and_a_half._buffer_size ∧
    10 ≤ two_and_a_half._buffer_size - two_and_a_half._used_bytes ∧
    (two_and_a_half.on_read 10).raised = none ∧
    (two_and_a_half.on_read 10).delivered
      = [⟨reply_type.STRING, bytes "A", 0, []⟩, ⟨reply_type.STRING, bytes "B", 0, []⟩] ∧
    (two_and_a_half.on_read 10).state._used_bytes = 2 ∧
    (two_and_a_half.on_read 10).state._buffer.take 2 = bytes "+C" ∧
    ∃ frames : List (reply × Nat),
      delivers two_and_a_half._buffer (two_and_a_half._used_bytes + 10) frames ∧
      (two_and_a_half.on_read 10).delivered = frames.map Prod.fst ∧
      (two_and_a_half.on_read 10).state._used_bytes + (frames.map Prod.snd).sum
        = two_and_a_half._used_bytes + 10 ∧
      (two_and_a_half.on_read 10).state._buffer.take (two_and_a_half.on_read 10).state._used_bytes
        = (two_and_a_half._buffer.drop (frames.map Prod.snd).sum).take
            (two_and_a_half.on_read 10).state._used_bytes ∧
      (two_and_a_half.on_read 10).state._used_bytes ≤ two_and_a_half._buffer_size ∧
      (two_and_a_half.on_read 10).state.buffer
        = ⟨(two_and_a_half.on_read 10).state._used_bytes,
            two_and_a_half._buffer_size - (two_and_a_half.on_read 10).state._used_bytes⟩ ∧
      (two_and_a_half.on_read 10).state._buffer_size = two_and_a_half._buffer_size :=
  ⟨by decide, by decide, by decide, by decide, by decide, by decide, by decide, by decide,
    feed_compaction two_and_a_half 10 (by decide) (by decide) (by decide) (by decide)
      (by decide)⟩

/-! ## Lemmas: the write side of the transport -/

theorem to_size_t_sub (a b : Nat) (h : b ≤ a) (ha : a < 2 ^ 64) :
    to_size_t ((a : Int) - (b : Int)) = a - b := by
  unfold to_size_t
  omega

theorem to_size_t_add (a b : Nat) (h : a + b < 2 ^ 64) :
    to_size_t ((a : Int) + (b : Int)) = a + b := by
  unfold to_size_t
  omega

theorem try_to_send_connected (m : transport) (s : Nat) (hc : m.connected = true) :
    (m.try_to_send s).state = m ∧
    (m.try_to_send s).effects =
      match m._send_buffer with
      | [] => []
      | front :: _ =>
        [tcp_effect.async_write_some s (to_size_t ((front.length : Int) - (s : Int)))] := by
  unfold transport.try_to_send
  rw [hc]
  cases h : m._send_buffer with
  | nil => simp
  | cons front rest => simp

theorem send_accepted (m : transport) (b : List Nat) (hc : m.connected = true)
    (h : (m.send b).raised = none) :
    (m.send b).state.connected = true ∧
    (m.send b).state._send_buffer = m._send_buffer ++ [b] ∧
    b.length ≤ SEND_BUFFER_LIMIT ∧
    (m.send b).effects =
      if m._send_buffer = [] then
        [tcp_effect.async_write_some 0 (to_size_t ((b.length : Int) - ((0 : Nat) : Int)))]
      else [] := by
  obtain ⟨⟨a, o, q, sz, ar, tm⟩, ip, port, cc, dc, rc, pb⟩ := m
  revert h
  unfold transport.send tcp_connection.send
  dsimp only
  by_cases hfull : sz + b.length > SEND_BUFFER_LIMIT
  · rw [if_pos hfull]
    intro h
    cases h
  · rw [if_neg hfull]
    dsimp only
    intro _
    cases q with
    | nil =>
      simp only [List.isEmpty_nil, if_true, List.nil_append]
      obtain ⟨e1, e2⟩ := try_to_send_connected
        (⟨⟨a, o, [b], sz + b.length, ar, tm⟩, ip, port, cc, dc, rc, pb⟩ : transport) 0 hc
      rw [e1, e2]
      exact ⟨hc, rfl, by omega, rfl⟩
    | cons front rest =>
      simp only [List.isEmpty_cons, Bool.false_eq_true, if_false]
      exact ⟨hc, trivial, by omega, by rw [if_neg (List.cons_ne_nil _ _)]⟩

theorem on_write_partial (m : transport) (front : List Nat) (rest : List (List Nat))
    (s l k : Nat) (hc : m.connected = true) (hq : m._send_buffer = front :: rest)
    (hl : s + l = front.length) (hfront : front.length < 2 ^ 64) (hk : k < l) :
    (m.on_write s l error_code.success k).state = m ∧
    (m.on_write s l error_code.success k).effects
      = [tcp_effect.async_write_some (s + k) (front.length - (s + k))] := by
  unfold transport.on_write
  rw [hc]
  have hne : l ≠ k := by omega
  simp only [Bool.not_true, Bool.false_eq_true, if_false, ne_eq, not_true_eq_false, hne,
    not_false_eq_true, if_true]
  rw [to_size_t_add s k (by omega)]
  obtain ⟨e1, e2⟩ := try_to_send_connected m (s + k) hc
  rw [e1, e2, hq]
  dsimp only
  rw [to_size_t_sub _ _ (by omega) hfront]
  exact ⟨rfl, rfl⟩

theorem on_write_complete (m : transport) (front : List Nat) (rest : List (List Nat))
    (s l : Nat) (hc : m.connected = true) (hq : m._send_buffer = front :: rest) :
    (m.on_write s l error_code.success l).state.connected = true ∧
    (m.on_write s l error_code.success l).state._send_buffer = rest ∧
    (rest = [] → (m.on_write s l error_code.success l).effects = []) ∧
    (∀ next rest1, rest = next :: rest1 → (m.on_write s l error_code.success l).effects =
      [tcp_effect.async_write_some 0 (to_size_t ((next.length : Int) - ((0 : Nat) : Int)))]) := by
  obtain ⟨⟨a, o, q, sz, ar, tm⟩, ip, port, cc, dc, rc, pb⟩ := m
  have hq1 : q = front :: rest := hq
  subst hq1
  unfold transport.on_write
  rw [hc]
  simp only [Bool.not_true, Bool.false_eq_true, if_false, ne_eq, not_true_eq_false]
  cases rest with
  | nil =>
    simp only [List.isEmpty_nil, Bool.not_true, Bool.false_eq_true, if_false]
    refine ⟨hc, ?_, ?_, ?_⟩
    · first | rfl | trivial
    · intro _
      first | rfl | trivial
    · intro next rest1 h
      cases h
  | cons next rest1 =>
    simp only [List.isEmpty_cons, Bool.not_false, if_true]
    obtain ⟨e1, e2⟩ := try_to_send_connected
      (⟨⟨a, o, next :: rest1, to_size_t ((sz : Int) - (front.length : Int)), ar, tm⟩,
        ip, port, cc, dc, rc, pb⟩ : transport) 0 hc
    rw [e1, e2]
    refine ⟨hc, rfl, ?_, ?_⟩
    · intro h
      cases h
    · intro next1 rest2 h
      simp only [List.cons.injEq] at h
      obtain ⟨rfl, rfl⟩ := h
      rfl

theorem started_write_single (queue : List (List Nat)) (s l : Nat) :
    started_write queue [tcp_effect.async_write_some s l]
      = some ⟨s, l, ((queue.headD []).drop s).take l⟩ := rfl

theorem write_invariant_send (w : write_path) (sent : List (List Nat)) (b : List Nat)
    (hinv : write_invariant w sent) (hacc : (w.link.send b).raised = none) :
    write_invariant (w.step (write_step.send b)) (sent ++ [b]) := by
  obtain ⟨hc, hlim, done, hsent, hnil, hcons⟩ := hinv
  obtain ⟨a1, a2, a3, a4⟩ := send_accepted w.link b hc hacc
  unfold write_path.step
  dsimp only
  rw [a4, a2]
  cases hq : w.link._send_buffer with
  | nil =>
    obtain ⟨hfl, hwr⟩ := hnil hq
    rw [if_pos rfl, List.nil_append, started_write_single]
    dsimp only
    refine ⟨a1, ?_, done, ?_, ?_, ?_⟩
    · intro x hx
      rw [a2, hq] at hx
      simp only [List.nil_append, List.mem_singleton] at hx
      rw [hx]
      exact a3
    · rw [a2, hsent, hq]
      simp
    · intro h
      rw [a2, hq] at h
      simp at h
    · intro front rest h
      rw [a2, hq] at h
      simp only [List.nil_append, List.cons.injEq] at h
      obtain ⟨rfl, rfl⟩ := h
      refine ⟨0, ?_, Nat.zero_le _, ?_, ?_⟩
      · have e : to_size_t ((b.length : Int) - ((0 : Nat) : Int)) = b.length - 0 :=
          to_size_t_sub _ _ (Nat.zero_le _) (by unfold SEND_BUFFER_LIMIT at a3; omega)
        rw [e]
        simp
      · intro hne
        exact List.length_pos.mpr hne
      · rw [hwr]
        simp
  | cons front rest =>
    obtain ⟨s, h1, h2, h3, h4⟩ := hcons front rest hq
    rw [if_neg (List.cons_ne_nil _ _)]
    simp only [started_write]
    refine ⟨a1, ?_, done, ?_, ?_, ?_⟩
    · intro x hx
      rw [a2, hq] at hx
      rcases List.mem_append.mp hx with hx | hx
      · exact hlim x (by rw [hq]; exact hx)
      · simp only [List.mem_singleton] at hx
        rw [hx]
        exact a3
    · rw [a2, hsent, hq, List.append_assoc]
    · intro h
      rw [a2, hq] at h
      simp at h
    · intro front1 rest1 h
      rw [a2, hq] at h
      simp only [List.cons_append, List.cons.injEq] at h
      obtain ⟨rfl, _⟩ := h
      exact ⟨s, h1, h2, h3, h4⟩

theorem write_invariant_completion (w : write_path) (sent : List (List Nat)) (k : Nat)
    (hinv : write_invariant w sent) (hoff : w.offers k) :
    write_invariant (w.step (write_step.completion k)) sent := by
  obtain ⟨hc, hlim, done, hsent, hnil, hcons⟩ := hinv
  unfold write_path.offers at hoff
  cases hq : w.link._send_buffer with
  | nil =>
    rw [(hnil hq).1] at hoff
    exact absurd hoff id
  | cons front rest =>
    obtain ⟨s, h1, h2, h3, h4⟩ := hcons front rest hq
    rw [h1] at hoff
    have hk : k ≤ front.length - s := hoff
    have hfront : front.length < 2 ^ 64 := by
      have := hlim front (by rw [hq]; exact List.mem_cons_self _ _)
      unfold SEND_BUFFER_LIMIT at this
      omega
    unfold write_path.step
    dsimp only
    rw [h1]
    dsimp only
    by_cases hlt : k < front.length - s
    · obtain ⟨e1, e2⟩ := on_write_partial w.link front rest s (front.length - s) k hc hq
        (by omega) hfront hlt
      rw [e1, e2, started_write_single, hq]
      refine ⟨hc, ?_, done, ?_, ?_, ?_⟩
      · intro x hx
        exact hlim x hx
      · rw [hsent]
      · intro h
        rw [hq] at h
        cases h
      · intro front1 rest1 h
        rw [hq] at h
        simp only [List.cons.injEq] at h
        obtain ⟨rfl, rfl⟩ := h
        refine ⟨s + k, ?_, by omega, fun _ => by omega, ?_⟩
        · simp only [List.headD_cons]
          rw [List.take_of_length_le (by rw [List.length_drop])]
        · show w.written ++ _ = _
          rw [h4, List.append_assoc, ← List.take_add]
    · have hkl : k = front.length - s := by omega
      subst hkl
      obtain ⟨e1, e2, e3, e4⟩ := on_write_complete w.link front rest s (front.length - s) hc hq
      rw [e2]
      have hwr : w.written ++ (front.drop s).take (front.length - s)
          = (done ++ [front]).flatten := by
        have e : (front.drop s).take (front.length - s) = front.drop s :=
          List.take_of_length_le (by rw [List.length_drop])
        rw [h4, e, List.append_assoc, List.take_append_drop]
        simp
      cases rest with
      | nil =>
        rw [e3 rfl]
        refine ⟨e1, ?_, done ++ [front], ?_, ?_, ?_⟩
        · intro x hx
          rw [e2] at hx
          cases hx
        · rw [hsent, hq, e2]
          simp
        · intro _
          exact ⟨rfl, hwr⟩
        · intro front1 rest1 h
          rw [e2] at h
          cases h
      | cons next rest1 =>
        rw [e4 next rest1 rfl, started_write_single]
        have hnext : next.length < 2 ^ 64 := by
          have := hlim next (by rw [hq]; simp)
          unfold SEND_BUFFER_LIMIT at this
          omega
        refine ⟨e1, ?_, done ++ [front], ?_, ?_, ?_⟩
        · intro x hx
          rw [e2] at hx
          exact hlim x (by rw [hq]; exact List.mem_cons_of_mem _ hx)
        · rw [hsent, hq, e2]
          simp
        · intro h
          rw [e2] at h
          cases h
        · intro front1 rest2 h
          rw [e2] at h
          simp only [List.cons.injEq] at h
          obtain ⟨rfl, rfl⟩ := h
          refine ⟨0, ?_, Nat.zero_le _, fun hne => List.length_pos.mpr hne, ?_⟩
          · have e : to_size_t ((next.length : Int) - ((0 : Nat) : Int)) = next.length - 0 :=
              to_size_t_sub _ _ (Nat.zero_le _) hnext
            rw [e]
            simp
          · show w.written ++ _ = _
            rw [hwr]
            simp

theorem write_invariant_run : ∀ (steps : List write_step) (w : write_path)
    (sent : List (List Nat)), write_invariant w sent → w.admits steps →
    write_invariant (w.run steps) (sent ++ sent_blobs steps) := by
  intro steps
  induction steps with
  | nil =>
    intro w sent hinv _
    simp only [write_path.run, sent_blobs, List.append_nil]
    exact hinv
  | cons a rest ih =>
    intro w sent hinv hadm
    cases a with
    | send b =>
      obtain ⟨h1, h2⟩ := hadm
      have := ih _ _ (write_invariant_send w sent b hinv h1) h2
      simp only [write_path.run, sent_blobs]
      rw [List.append_assoc] at this
      exact this
    | completion k =>
      obtain ⟨h1, h2⟩ := hadm
      have := ih _ _ (write_invariant_completion w sent k hinv h1) h2
      simp only [write_path.run, sent_blobs]
      exact this

/-- Claim C36. Write order under partial writes: from a connected transport with an empty
send queue and no write in flight, after every sequence of accepted `send(b1)`, ...,
`send(bm)` and write completions without error that each transfer at most the length
offered (the bound `1 <=` of the claim is not needed), the transport is still connected and
the bytes handed to the socket so far are a prefix of `b1 ++ ... ++ bm`. The queue holds
exactly the blobs whose last byte has not been written, in the order of the calls (the blobs
`done` before them have been written whole and popped); no write is in flight when the queue
is empty; otherwise the write in flight offers the front from `start_byte` to its end, the
bytes written are the blobs `done` and the first `start_byte` bytes of the front, and the
bytes written, the bytes offered and the rest of the queue make up `b1 ++ ... ++ bm`: no
byte is written twice or skipped. -/
theorem write_order (m : transport) (steps : List write_step)
    (hconn : m.connected = true) (hempty : m._send_buffer = [])
    (hadm : (⟨m, none, []⟩ : write_path).admits steps) :
    ((⟨m, none, []⟩ : write_path).run steps).link.connected = true ∧
    ((⟨m, none, []⟩ : write_path).run steps).written <+: (sent_blobs steps).flatten ∧
    ∃ done : List (List Nat),
      sent_blobs steps = done ++ ((⟨m, none, []⟩ : write_path).run steps).link._send_buffer ∧
      (((⟨m, none, []⟩ : write_path).run steps).link._send_buffer = [] →
        ((⟨m, none, []⟩ : write_path).run steps).in_flight = none ∧
        ((⟨m, none, []⟩ : write_path).run steps).written = (sent_blobs steps).flatten) ∧
      (∀ front rest, ((⟨m, none, []⟩ : write_path).run steps).link._send_buffer = front :: rest →
        ∃ s, ((⟨m, none, []⟩ : write_path).run steps).in_flight
              = some ⟨s, front.length - s, front.drop s⟩ ∧
          s ≤ front.length ∧ (front ≠ [] → s < front.length) ∧
          ((⟨m, none, []⟩ : write_path).run steps).written = done.flatten ++ front.take s ∧
          ((⟨m, none, []⟩ : write_path).run steps).written ++ front.drop s ++ rest.flatten
            = (sent_blobs steps).flatten) := by
  have h0 : write_invariant (⟨m, none, []⟩ : write_path) [] := by
    refine ⟨hconn, ?_, [], ?_, ?_, ?_⟩
    · intro b hb
      rw [show (⟨m, none, []⟩ : write_path).link._send_buffer = [] from hempty] at hb
      cases hb
    · rw [show (⟨m, none, []⟩ : write_path).link._send_buffer = [] from hempty]
      rfl
    · intro _
      exact ⟨rfl, rfl⟩
    · intro front rest h
      rw [show (⟨m, none, []⟩ : write_path).link._send_buffer = [] from hempty] at h
      cases h
  obtain ⟨hc, _, done, hsent, hnil, hcons⟩ := write_invariant_run steps _ [] h0 hadm
  rw [List.nil_append] at hsent
  refine ⟨hc, ?_, done, hsent, ?_, ?_⟩
  · cases hq : ((⟨m, none, []⟩ : write_path).run steps).link._send_buffer with
    | nil =>
      rw [(hnil hq).2, hsent, hq, List.append_nil]
    | cons front rest =>
      obtain ⟨s, _, _, _, h4⟩ := hcons front rest hq
      rw [h4, hsent, hq]
      refine ⟨front.drop s ++ rest.flatten, ?_⟩
      rw [List.flatten_append, List.flatten_cons, List.append_assoc,
        ← List.append_assoc (front.take s), List.take_append_drop]
  · intro hq
    refine ⟨(hnil hq).1, ?_⟩
    rw [(hnil hq).2, hsent, hq, List.append_nil]
  · intro front rest hq
    obtain ⟨s, h1, h2, h3, h4⟩ := hcons front rest hq
    refine ⟨s, h1, h2, h3, h4, ?_⟩
    rw [h4, hsent, hq, List.flatten_append, List.flatten_cons, List.append_assoc,
      List.append_assoc, ← List.append_assoc (front.take s), List.take_append_drop]

set_option maxRecDepth 8000 in
/-- Witness of C36: after the sample steps the socket has taken `PING\r\nGET`, the queue
holds `GET\r\n`, and the write in flight offers its last two bytes. -/
theorem write_order_witness :
    established_transport.connected = true ∧ established_transport._send_buffer = [] ∧
    (⟨established_transport, none, []⟩ : write_path).admits sample_steps ∧
    ((⟨established_transport, none, []⟩ : write_path).run sample_steps).written
      = bytes "PING\r\nGET" ∧
    ((⟨established_transport, none, []⟩ : write_path).run sample_steps).link._send_buffer
      = [bytes "GET\r\n"] ∧
    ((⟨established_transport, none, []⟩ : write_path).run sample_steps).in_flight
      = some ⟨3, 2, bytes "\r\n"⟩ ∧
    ((⟨established_transport, none, []⟩ : write_path).run sample_steps).written
      <+: (sent_blobs sample_steps).flatten :=
  ⟨by decide, by decide, by decide, by decide, by decide, by decide,
    (write_order established_transport sample_steps (by decide) (by decide) (by decide)).2.1⟩

end wiredis
